import Mathlib

/-!
# gameplay::Animation

A shallow embedding of `gameplay/src/Animation.cpp`: the Animation aggregate, its
constructor and destructor, its channel factory (`createChannel`, both overloads),
its clip registry (`createClip`, `createClips`, `getClip`, `findClip`, `play`,
`stop`, `pause`) and the channel collection (`addChannel`, `removeChannel`).

Conventions of the embedding.

* Heap objects (`AnimationClip`, `Channel`) carry an `addr` field, the value of the
  pointer returned by `new`; pointer comparison is comparison of `addr`. The
  allocator is the counter `World.nextAddr`.
* `unsigned long` is taken to be 64 bits wide and `unsigned int` 32 bits wide;
  arithmetic on them wraps.
* A `float` is represented by the rational number it denotes. Conversions and
  divisions round to the nearest binary32 value, ties to even (`roundFloat`).
  Only finite, normal results are represented; infinities and NaN (division by a
  zero duration) are outside the model.
* A failed `assert` and a read outside an input array are the two fatal outcomes
  (`Fault`); fallible operations return `Except Fault _`.
* Calls that leave `Animation.cpp` (controller, target, reference count) are
  appended to the log `World.calls`.
* `createClips` does not test the result of `sscanf` and does not initialise the
  local it reads into. What `sscanf` stores for a string is a parameter
  (`none`: nothing is stored), and so are the indeterminate contents of the
  locals (`uninit`), one pair per loop iteration.
-/

namespace gameplay

/-- Fatal outcomes of an operation. -/
inductive Fault where
  | assertFailed
  | outOfBounds
  deriving DecidableEq, Repr

/-- Number of values of an `unsigned long`. -/
def ULONG_RANGE : Nat := 2 ^ 64

/-- Number of values of an `unsigned int`. -/
def UINT_RANGE : Nat := 2 ^ 32

/-- Subtraction of two `unsigned long` values (wraps). -/
def ulongSub (a b : Nat) : Nat :=
  (a % ULONG_RANGE + ULONG_RANGE - b % ULONG_RANGE) % ULONG_RANGE

/-- Subtraction of two `unsigned int` values (wraps). -/
def uintSub (a b : Nat) : Nat :=
  (a % UINT_RANGE + UINT_RANGE - b % UINT_RANGE) % UINT_RANGE

/-- Addition of two `unsigned int` values (wraps). -/
def uintAdd (a b : Nat) : Nat :=
  (a + b) % UINT_RANGE

/-- The conversion of an `int` to `unsigned int`. -/
def intToUInt (i : Int) : Nat := (i % (UINT_RANGE : Int)).toNat

/-! ## binary32 rounding -/

/-- Nearest integer, ties to the even neighbour. -/
def roundHalfEven (x : ℚ) : ℤ :=
  if x - ⌊x⌋ < 1 / 2 then ⌊x⌋
  else if 1 / 2 < x - ⌊x⌋ then ⌊x⌋ + 1
  else if ⌊x⌋ % 2 = 0 then ⌊x⌋ else ⌊x⌋ + 1

/-- Rounding of a positive rational to 24 significant bits. -/
def roundPos (q : ℚ) : ℚ :=
  (roundHalfEven (q * (2 : ℚ) ^ (23 - Int.log 2 q)) : ℚ) * (2 : ℚ) ^ (Int.log 2 q - 23)

/-- The binary32 value nearest to `q` (normal range, round to nearest even). -/
def roundFloat (q : ℚ) : ℚ :=
  if q = 0 then 0 else if q < 0 then -roundPos (-q) else roundPos q

/-- The conversion `(float) n` of an unsigned integer. -/
def floatOfULong (n : Nat) : ℚ := roundFloat (n : ℚ)

/-- The `float` division `a / b`. -/
def floatDiv (a b : ℚ) : ℚ := roundFloat (a / b)

/-! ## Curve -/

/-- One keyframe of a curve. -/
structure CurvePoint where
  time : ℚ
  value : List ℚ
  type : Nat
  inValue : Option (List ℚ)
  outValue : Option (List ℚ)
  deriving DecidableEq, Repr

/-- Modelled from the spec: the class `Curve` (Curve.h, Curve.cpp), which is not
among the sources. A curve has a fixed number of keyframe slots, a fixed number
of components per keyframe and an optional rotation (quaternion) offset. -/
structure Curve where
  _pointCount : Nat
  _componentCount : Nat
  _quaternionOffset : Option Nat
  _points : List (Option CurvePoint)
  /-- Ghost field: the keyframe indices passed to `setPoint`, in call order. -/
  _setLog : List Nat
  deriving DecidableEq, Repr

/-- Modelled from the spec: the constructor `Curve(pointCount, componentCount)`;
"Construction requires keyCount ≥ 2; fewer is a fatal precondition violation". -/
def Curve.create (pointCount componentCount : Nat) : Except Fault Curve :=
  if 2 ≤ pointCount then
    .ok { _pointCount := pointCount, _componentCount := componentCount,
          _quaternionOffset := none, _points := List.replicate pointCount none,
          _setLog := [] }
  else .error .assertFailed

/-- Modelled from the spec: `Curve::setQuaternionOffset`. -/
def Curve.setQuaternionOffset (c : Curve) (offset : Nat) : Curve :=
  { c with _quaternionOffset := some offset }

/-- Reads `count` floats at `ptr + offset`. -/
def readFloats (ptr : List ℚ) (offset count : Nat) : Except Fault (List ℚ) :=
  if offset + count ≤ ptr.length then .ok ((ptr.drop offset).take count)
  else .error .outOfBounds

/-- Reads `keyTimes[i]`. -/
def readTime (keyTimes : List Nat) (i : Nat) : Except Fault Nat :=
  match keyTimes[i]? with
  | some t => .ok t
  | none => .error .outOfBounds

/-- Modelled from the spec: `Curve::setPoint(index, time, value, type)`, which
"fills one keyframe slot" with the `componentCount` values found at the pointer
`keyValues + offset`. -/
def Curve.setPoint (c : Curve) (index : Nat) (time : ℚ) (keyValues : List ℚ) (offset : Nat)
    (type : Nat) : Except Fault Curve := do
  if index < c._pointCount then
    let v ← readFloats keyValues offset c._componentCount
    let p : CurvePoint :=
      { time := time, value := v, type := type, inValue := none, outValue := none }
    .ok { c with _points := List.set c._points index (some p),
                 _setLog := c._setLog ++ [index] }
  else .error .outOfBounds

/-- Modelled from the spec: `Curve::setPoint(index, time, value, type, inValue, outValue)`,
the overload that also stores the in and out tangent vectors. -/
def Curve.setPointInOut (c : Curve) (index : Nat) (time : ℚ) (keyValues : List ℚ) (offset : Nat)
    (type : Nat) (keyInValue : List ℚ) (inOffset : Nat) (keyOutValue : List ℚ) (outOffset : Nat) :
    Except Fault Curve := do
  if index < c._pointCount then
    let v ← readFloats keyValues offset c._componentCount
    let vin ← readFloats keyInValue inOffset c._componentCount
    let vout ← readFloats keyOutValue outOffset c._componentCount
    let p : CurvePoint :=
      { time := time, value := v, type := type, inValue := some vin, outValue := some vout }
    .ok { c with _points := List.set c._points index (some p),
                 _setLog := c._setLog ++ [index] }
  else .error .outOfBounds

/-! ## Targets, channels, clips -/

/-- Modelled from the spec: the kind of an animation target (AnimationTarget.h is
not among the sources); only `TRANSFORM` is named by `Animation.cpp`. -/
inductive TargetType where
  | SCALAR
  | TRANSFORM
  deriving DecidableEq, Repr

/-- Modelled from the spec: the target capability
`getAnimationPropertyComponentCount(propertyId)` and the `_targetType` field. -/
structure AnimationTarget where
  addr : Nat
  _targetType : TargetType
  getAnimationPropertyComponentCount : Int → Nat

/-- The property ids of `Transform` named by `setTransformRotationOffset`
(Transform.h is not among the sources, so their values are parameters). -/
structure TransformIds where
  ANIMATE_ROTATE : Nat
  ANIMATE_ROTATE_TRANSLATE : Nat
  ANIMATE_SCALE_ROTATE_TRANSLATE : Nat
  deriving DecidableEq, Repr

def ANIMATION_ROTATE_OFFSET : Nat := 0
def ANIMATION_SRT_OFFSET : Nat := 3

/-- The class `Animation::Channel`; `_target` is the address of the target. -/
structure Channel where
  addr : Nat
  _target : Nat
  _propertyId : Int
  _curve : Curve
  _duration : Nat
  deriving DecidableEq, Repr

/-- Modelled from the spec: the state flags of a clip named by `Animation.cpp` or
by the spec ("is-playing, is-paused"); AnimationClip.h is not among the sources. -/
inductive ClipStateBit where
  | CLIP_IS_PLAYING_BIT
  | CLIP_IS_PAUSED_BIT
  deriving DecidableEq, Repr

/-- Modelled from the spec: the class `AnimationClip`; `_id`, the start and end
time are the constructor arguments used by `Animation.cpp`; "a repeat count",
"a speed multiplier" and the state flags are the fields named by the spec. -/
structure AnimationClip where
  addr : Nat
  _id : String
  _startTime : Nat
  _endTime : Nat
  _isPlaying : Bool
  _isPaused : Bool
  _elapsedTime : Nat
  _repeatCount : ℚ
  _speed : ℚ
  deriving DecidableEq, Repr

/-- Calls that leave `Animation.cpp`; clips, channels and targets are named by
their addresses. -/
inductive ExternalCall where
  | schedule (clip : Nat)
  | unschedule (clip : Nat)
  | destroyAnimation
  | addRef
  | targetAddChannel (target channel : Nat)
  | release (object : Nat)
  deriving DecidableEq, Repr

/-- The fields of `Animation`; `NULL` is `none`. -/
structure Animation where
  _id : String
  _duration : Nat
  _defaultClip : Option AnimationClip
  _clips : Option (List AnimationClip)
  _channels : List Channel
  deriving DecidableEq, Repr

/-- An Animation together with the allocator and the log of external calls. -/
structure World where
  animation : Animation
  nextAddr : Nat
  calls : List ExternalCall
  deriving DecidableEq, Repr

/-- The member initialisers of both constructors:
`_id(id), _duration(0), _defaultClip(NULL), _clips(NULL)`, no channels. -/
def Animation.fresh (id : String) : Animation :=
  { _id := id, _duration := 0, _defaultClip := none, _clips := none, _channels := [] }

/-- A fresh Animation in a world where nothing was allocated or called yet. -/
def World.fresh (id : String) : World :=
  { animation := Animation.fresh id, nextAddr := 0, calls := [] }

def Animation.getId (a : Animation) : String := a._id

def Animation.getDuration (a : Animation) : Nat := a._duration

/-! ## AnimationClip (external collaborator) -/

/-- Modelled from the spec: the sentinel `AnimationClip::REPEAT_INDEFINITE` that
means "indefinite"; its numeric value is not fixed by the spec. -/
def AnimationClip.REPEAT_INDEFINITE : ℚ := 0

/-- Modelled from the spec: the constructor
`AnimationClip(id, animation, startTime, endTime)`; a new clip is stopped. The
initial repeat count and speed are not fixed by the spec; they are taken as 1. -/
def AnimationClip.create (addr : Nat) (id : String) (startTime endTime : Nat) : AnimationClip :=
  { addr := addr, _id := id, _startTime := startTime, _endTime := endTime,
    _isPlaying := false, _isPaused := false, _elapsedTime := 0,
    _repeatCount := 1, _speed := 1 }

/-- Modelled from the spec: `AnimationClip::isClipStateBitSet`. -/
def AnimationClip.isClipStateBitSet (c : AnimationClip) (bit : ClipStateBit) : Bool :=
  match bit with
  | ClipStateBit.CLIP_IS_PLAYING_BIT => c._isPlaying
  | ClipStateBit.CLIP_IS_PAUSED_BIT => c._isPaused

/-- Modelled from the spec: `AnimationClip::setRepeatCount`. -/
def AnimationClip.setRepeatCount (c : AnimationClip) (repeatCount : ℚ) : AnimationClip :=
  { c with _repeatCount := repeatCount }

/-- Modelled from the spec: `AnimationClip::setSpeed`. -/
def AnimationClip.setSpeed (c : AnimationClip) (speed : ℚ) : AnimationClip :=
  { c with _speed := speed }

/-- Modelled from the spec: `AnimationClip::play()`; "if already playing, restart
from the beginning (reset elapsed time); else transition Stopped/Paused → Playing
and request the controller schedule this clip". -/
def AnimationClip.play (c : AnimationClip) : AnimationClip × List ExternalCall :=
  if c._isPlaying ∧ ¬ c._isPaused then ({ c with _elapsedTime := 0 }, [])
  else ({ c with _isPlaying := true, _isPaused := false }, [ExternalCall.schedule c.addr])

/-- Modelled from the spec: `AnimationClip::pause()`; "only meaningful while
Playing; sets paused flag, leaves scheduled". -/
def AnimationClip.pause (c : AnimationClip) : AnimationClip × List ExternalCall :=
  if c._isPlaying then ({ c with _isPaused := true }, [])
  else (c, [])

/-- Modelled from the spec: `AnimationClip::stop()`; "transitions to Stopped,
clears playing/paused flags, requests the controller unschedule the clip". -/
def AnimationClip.stop (c : AnimationClip) : AnimationClip × List ExternalCall :=
  ({ c with _isPlaying := false, _isPaused := false }, [ExternalCall.unschedule c.addr])

/-- The effect, on the Animation's pointers, of mutating the clip object at
`c.addr`: every pointer to that object sees the new contents. -/
def Animation.storeClip (a : Animation) (c : AnimationClip) : Animation :=
  { a with
    _defaultClip := a._defaultClip.map (fun d => if d.addr = c.addr then c else d),
    _clips := a._clips.map (fun v => v.map (fun x => if x.addr = c.addr then c else x)) }

/-- Runs a clip method on the clip object `clip` and records its effects. -/
def World.callClip (w : World) (method : AnimationClip → AnimationClip × List ExternalCall)
    (clip : AnimationClip) : World :=
  { w with animation := w.animation.storeClip (method clip).1,
           calls := w.calls ++ (method clip).2 }

/-! ## Clips of an Animation -/

/-- `Animation::addClip`. -/
def addClip (w : World) (clip : AnimationClip) : World :=
  match w.animation._clips with
  | none => { w with animation := { w.animation with _clips := some [clip] } }
  | some v => { w with animation := { w.animation with _clips := some (v ++ [clip]) } }

/-- `Animation::createClip`. -/
def createClip (w : World) (id : String) (start end_ : Nat) : AnimationClip × World :=
  let clip := AnimationClip.create w.nextAddr id start end_
  (clip, addClip { w with nextAddr := w.nextAddr + 1 } clip)

/-- The `for` loop of `Animation::findClip`: `n` iterations are left, `i` is the
loop index. -/
def findClipLoop (clips : List AnimationClip) (id : String) : Nat → Nat → Option AnimationClip
  | 0, _ => none
  | n + 1, i =>
    match clips[i]? with
    | some clip => if clip._id = id then some clip else findClipLoop clips id n (i + 1)
    | none => none

/-- `Animation::findClip`; `clipCount` is an `unsigned int`. -/
def findClip (a : Animation) (id : String) : Option AnimationClip :=
  match a._clips with
  | some clips => findClipLoop clips id (clips.length % UINT_RANGE) 0
  | none => none

/-- `Animation::createDefaultClip`. -/
def createDefaultClip (w : World) : World :=
  { w with
    animation := { w.animation with
      _defaultClip := some (AnimationClip.create w.nextAddr "default_clip" 0 w.animation._duration) },
    nextAddr := w.nextAddr + 1 }

/-- `Animation::getClip`; a `NULL` id is `none`. -/
def getClip (w : World) (id : Option String) : Option AnimationClip × World :=
  match id with
  | none =>
    match w.animation._defaultClip with
    | none => ((createDefaultClip w).animation._defaultClip, createDefaultClip w)
    | some d => (some d, w)
  | some id => (findClip w.animation id, w)

/-- `Animation::play`. -/
def play (w : World) (clipId : Option String) : World :=
  match clipId with
  | none =>
    match w.animation._defaultClip with
    | none =>
      match (createDefaultClip w).animation._defaultClip with
      | some d => (createDefaultClip w).callClip AnimationClip.play d
      | none => createDefaultClip w
    | some d => w.callClip AnimationClip.play d
  | some id =>
    match findClip w.animation id with
    | some clip => w.callClip AnimationClip.play clip
    | none => w

/-- `Animation::stop`. -/
def stop (w : World) (clipId : Option String) : World :=
  match clipId with
  | none =>
    match w.animation._defaultClip with
    | some d => w.callClip AnimationClip.stop d
    | none => w
  | some id =>
    match findClip w.animation id with
    | some clip => w.callClip AnimationClip.stop clip
    | none => w

/-- `Animation::pause`. -/
def pause (w : World) (clipId : Option String) : World :=
  match clipId with
  | none =>
    match w.animation._defaultClip with
    | some d => w.callClip AnimationClip.pause d
    | none => w
  | some id =>
    match findClip w.animation id with
    | some clip => w.callClip AnimationClip.pause clip
    | none => w

/-! ## Bulk clip construction -/

/-- The conversion `(float) i` of an `int`. -/
def floatOfInt (i : Int) : ℚ := roundFloat (i : ℚ)

/-- The `float` multiplication `a * b`. -/
def floatMul (a b : ℚ) : ℚ := roundFloat (a * b)

/-- The conversion of a `float` to `unsigned long`: truncation toward zero. For a
negative or too large value the conversion is undefined in C++; the embedding
then yields 0 or wraps. -/
def floatToULong (q : ℚ) : Nat := ⌊q⌋.toNat % ULONG_RANGE

/-- The expression `((float) frame / frameCount) * _duration` of line 191, passed
to `createClip` as an `unsigned long`. -/
def frameTime (frame : Int) (frameCount duration : Nat) : Nat :=
  floatToULong (floatMul (floatDiv (floatOfInt frame) (floatOfULong frameCount))
    (floatOfULong duration))

def ANIMATION_INDEFINITE_STR : String := "INDEFINITE"

/-- Modelled from the spec: one record of the declarative clip source
(Properties.h is not among the sources): its namespace name, its id, the integer
fields `begin` and `end`, and the optional string fields `repeatCount` and
`speed` (`NULL`, here `none`, when absent). -/
structure Properties where
  _namespace : String
  _id : String
  begin_ : Int
  end_ : Int
  repeatCount : Option String
  speed : Option String
  deriving DecidableEq, Repr

/-- Modelled from the spec: the top-level record of a clip file, "supplying
integer `frameCount`", with its sequence of namespaces. -/
structure AnimationProperties where
  frameCount : Int
  namespaces : List Properties
  deriving DecidableEq, Repr

/-- The effect of a setter called through a clip pointer. -/
def World.storeClip (w : World) (c : AnimationClip) : World :=
  { w with animation := w.animation.storeClip c }

/-- The content of the local `float value` after `sscanf(s, "%f", &value)`, a call
whose return value the code does not test: `sscanf s` is the float that the call
stores, and `none` when `s` does not start with a number, so that nothing is stored
and the local keeps `value`, its content before the call. -/
def sscanfFloat (sscanf : String → Option ℚ) (s : String) (value : ℚ) : ℚ :=
  match sscanf s with
  | some parsed => parsed
  | none => value

/-- Lines 193 to 206 of `createClips`: the effect of the optional `repeatCount`
string on the clip; `value` is the indeterminate content of the uninitialised
local `float value` of line 202. -/
def createClipsRepeat (sscanf : String → Option ℚ) (value : ℚ) (clip : AnimationClip)
    (repeatStr : Option String) : AnimationClip :=
  match repeatStr with
  | some r =>
    if r = ANIMATION_INDEFINITE_STR then clip.setRepeatCount AnimationClip.REPEAT_INDEFINITE
    else clip.setRepeatCount (sscanfFloat sscanf r value)
  | none => clip

/-- Lines 208 to 214 of `createClips`: the effect of the optional `speed` string on
the clip; `value` is the indeterminate content of the uninitialised local
`float value` of line 211. -/
def createClipsSpeed (sscanf : String → Option ℚ) (value : ℚ) (clip : AnimationClip)
    (speed : Option String) : AnimationClip :=
  match speed with
  | some s => clip.setSpeed (sscanfFloat sscanf s value)
  | none => clip

/-- The body of the `while` loop of `createClips` for one namespace `pClip`;
`values` are the indeterminate contents of the two uninitialised locals of this
iteration, the one of the `repeatCount` block and the one of the `speed` block. -/
def createClipsBody (sscanf : String → Option ℚ) (values : ℚ × ℚ) (frameCount : Nat)
    (w : World) (pClip : Properties) : World :=
  let clip_w := createClip w pClip._id
    (frameTime pClip.begin_ frameCount w.animation._duration)
    (frameTime pClip.end_ frameCount w.animation._duration)
  let clip1 := createClipsRepeat sscanf values.1 clip_w.1 pClip.repeatCount
  let clip2 := createClipsSpeed sscanf values.2 clip1 pClip.speed
  (clip_w.2.storeClip clip1).storeClip clip2

/-- The `while` loop of `createClips`: it runs over the namespaces in order and
stops at the end of the sequence or at the first namespace not named "clip";
`uninit k` are the indeterminate contents of the uninitialised locals in the
iteration `k` from here. -/
def createClipsLoop (sscanf : String → Option ℚ) (frameCount : Nat) :
    (Nat → ℚ × ℚ) → List Properties → World → World
  | _, [], w => w
  | uninit, pClip :: rest, w =>
    if pClip._namespace = "clip" then
      createClipsLoop sscanf frameCount (fun k => uninit (k + 1)) rest
        (createClipsBody sscanf (uninit 0) frameCount w pClip)
    else w

/-- `Animation::createClips(Properties* animationProperties, unsigned int frameCount)`;
a `NULL` pointer is `none`. -/
def createClips (sscanf : String → Option ℚ) (uninit : Nat → ℚ × ℚ) (w : World)
    (animationProperties : Option (List Properties)) (frameCount : Nat) : Except Fault World :=
  match animationProperties with
  | some namespaces => .ok (createClipsLoop sscanf frameCount uninit namespaces w)
  | none => .error .assertFailed

/-- `Animation::createClips(const char* animationFile)`; `create` is
`Properties::create`, which yields the namespaces of the file. -/
def createClipsFromFile (sscanf : String → Option ℚ) (uninit : Nat → ℚ × ℚ)
    (create : String → Option (List AnimationProperties)) (w : World)
    (animationFile : Option String) : Except Fault World :=
  match animationFile with
  | none => .error .assertFailed
  | some file =>
    match create file with
    | none => .error .assertFailed
    | some properties =>
      match properties.head? with
      | none => .error .assertFailed
      | some pAnimation =>
        if pAnimation.frameCount > 0 then
          createClips sscanf uninit w (some pAnimation.namespaces)
            (intToUInt pAnimation.frameCount)
        else .error .assertFailed

/-! ## Destruction -/

/-- The calls made for one clip by `~Animation`: `unschedule` when the playing bit
is set, then `release`. -/
def destroyClip (clip : AnimationClip) : List ExternalCall :=
  (if clip.isClipStateBitSet ClipStateBit.CLIP_IS_PLAYING_BIT then
    [ExternalCall.unschedule clip.addr]
  else []) ++ [ExternalCall.release clip.addr]

/-- The `while` loop of `~Animation` over the explicit clips. -/
def destructorLoop : List AnimationClip → List ExternalCall
  | [] => []
  | clip :: rest => destroyClip clip ++ destructorLoop rest

/-- The destructor `Animation::~Animation`: the calls it makes, and the pointers it
resets. -/
def destructor (w : World) : World :=
  let defaultCalls :=
    match w.animation._defaultClip with
    | some d => destroyClip d
    | none => []
  let clipCalls :=
    match w.animation._clips with
    | some v => destructorLoop v
    | none => []
  { w with animation := { w.animation with _defaultClip := none, _clips := none },
           calls := w.calls ++ defaultCalls ++ clipCalls }

/-! ## Channels of an Animation -/

/-- `Animation::addChannel` on the fields of the Animation. -/
def Animation.addChannel (a : Animation) (channel : Channel) : Animation :=
  if channel._duration > a._duration then
    { a with _channels := a._channels ++ [channel], _duration := channel._duration }
  else
    { a with _channels := a._channels ++ [channel] }

/-- `Animation::addChannel`. -/
def addChannel (w : World) (channel : Channel) : World :=
  { w with animation := w.animation.addChannel channel }

/-- The `while` loop of `Animation::removeChannel`: walks the vector from `itr`
and erases the first element whose pointer equals `channel`; erasing moves the
iterator to the end. -/
def removeChannelLoop (channel : Channel) : List Channel → List Channel
  | [] => []
  | chan :: rest =>
    if channel.addr = chan.addr then rest else chan :: removeChannelLoop channel rest

/-- `Animation::removeChannel`. -/
def removeChannel (w : World) (channel : Channel) : World :=
  let channels := removeChannelLoop channel w.animation._channels
  let w1 : World := { w with animation := { w.animation with _channels := channels } }
  if channels.isEmpty then { w1 with calls := w1.calls ++ [ExternalCall.destroyAnimation] }
  else w1

/-- `Animation::setTransformRotationOffset`; `propertyId` is an `unsigned int`. -/
def setTransformRotationOffset (ids : TransformIds) (curve : Curve) (propertyId : Nat) : Curve :=
  if propertyId = ids.ANIMATE_ROTATE ∨ propertyId = ids.ANIMATE_ROTATE_TRANSLATE then
    curve.setQuaternionOffset ANIMATION_ROTATE_OFFSET
  else if propertyId = ids.ANIMATE_SCALE_ROTATE_TRANSLATE then
    curve.setQuaternionOffset ANIMATION_SRT_OFFSET
  else curve

/-- The constructor `Animation::Channel::Channel`; the new object is at `w.nextAddr`. -/
def Channel.create (w : World) (target : AnimationTarget) (propertyId : Int) (curve : Curve)
    (duration : Nat) : Except Fault (Channel × World) :=
  if target.getAnimationPropertyComponentCount propertyId ≠ 0 then
    let channel : Channel :=
      { addr := w.nextAddr, _target := target.addr, _propertyId := propertyId,
        _curve := curve, _duration := duration }
    .ok (channel, { w with nextAddr := w.nextAddr + 1,
                           calls := w.calls ++ [ExternalCall.addRef,
                             ExternalCall.targetAddChannel target.addr channel.addr] })
  else .error .assertFailed

/-- The `for` loop of `createChannel` (no tangents): `n` iterations are left, `i`
is the loop index; returns the curve and `pointOffset` after the loop. -/
def createChannelLoop (keyTimes : List Nat) (keyValues : List ℚ) (type : Nat)
    (propertyComponentCount lowest duration : Nat) :
    Nat → Nat → Nat → Curve → Except Fault (Curve × Nat)
  | 0, _, pointOffset, curve => .ok (curve, pointOffset)
  | n + 1, i, pointOffset, curve => do
    let t ← readTime keyTimes i
    let normalizedKeyTime := floatDiv (floatOfULong (ulongSub t lowest)) (floatOfULong duration)
    let curve1 ← curve.setPoint i normalizedKeyTime keyValues pointOffset type
    createChannelLoop keyTimes keyValues type propertyComponentCount lowest duration
      n (uintAdd i 1) (uintAdd pointOffset propertyComponentCount) curve1

/-- Lines 255 to 273 of `createChannel` (no tangents): fills the keyframes of
`curve`; returns the filled curve and the duration. -/
def createChannelFill (curve : Curve) (propertyComponentCount keyCount : Nat)
    (keyTimes : List Nat) (keyValues : List ℚ) (type : Nat) : Except Fault (Curve × Nat) := do
  let lowest ← readTime keyTimes 0
  let last ← readTime keyTimes (uintSub keyCount 1)
  let duration := ulongSub last lowest
  let curve1 ← curve.setPoint 0 0 keyValues 0 type
  let (curve2, pointOffset) ←
    createChannelLoop keyTimes keyValues type propertyComponentCount lowest duration
      (uintSub keyCount 1 - 1) 1 propertyComponentCount curve1
  let curve3 ← curve2.setPoint (uintSub keyCount 1) 1 keyValues pointOffset type
  .ok (curve3, duration)

/-- `Animation::createChannel(target, propertyId, keyCount, keyTimes, keyValues, type)`. -/
def createChannel (ids : TransformIds) (w : World) (target : AnimationTarget) (propertyId : Int)
    (keyCount : Nat) (keyTimes : List Nat) (keyValues : List ℚ) (type : Nat) :
    Except Fault (Channel × World) := do
  let propertyComponentCount := target.getAnimationPropertyComponentCount propertyId
  if propertyComponentCount > 0 then
    let curve ← Curve.create keyCount propertyComponentCount
    let curve0 :=
      if target._targetType = TargetType.TRANSFORM then
        setTransformRotationOffset ids curve (intToUInt propertyId)
      else curve
    let (curve3, duration) ←
      createChannelFill curve0 propertyComponentCount keyCount keyTimes keyValues type
    let (channel, w1) ← Channel.create w target propertyId curve3 duration
    .ok (channel, addChannel w1 channel)
  else .error .assertFailed

/-- The `for` loop of `createChannel` (in/out tangents). -/
def createChannelInOutLoop (keyTimes : List Nat) (keyValues keyInValue keyOutValue : List ℚ)
    (type : Nat) (propertyComponentCount lowest duration : Nat) :
    Nat → Nat → Nat → Curve → Except Fault (Curve × Nat)
  | 0, _, pointOffset, curve => .ok (curve, pointOffset)
  | n + 1, i, pointOffset, curve => do
    let t ← readTime keyTimes i
    let normalizedKeyTime := floatDiv (floatOfULong (ulongSub t lowest)) (floatOfULong duration)
    let curve1 ← curve.setPointInOut i normalizedKeyTime keyValues pointOffset type
      keyInValue pointOffset keyOutValue pointOffset
    createChannelInOutLoop keyTimes keyValues keyInValue keyOutValue type propertyComponentCount
      lowest duration n (uintAdd i 1) (uintAdd pointOffset propertyComponentCount) curve1

/-- Lines 291 to 309 of `createChannel` (in/out tangents). -/
def createChannelInOutFill (curve : Curve) (propertyComponentCount keyCount : Nat)
    (keyTimes : List Nat) (keyValues keyInValue keyOutValue : List ℚ) (type : Nat) :
    Except Fault (Curve × Nat) := do
  let lowest ← readTime keyTimes 0
  let last ← readTime keyTimes (uintSub keyCount 1)
  let duration := ulongSub last lowest
  let curve1 ← curve.setPointInOut 0 0 keyValues 0 type keyInValue 0 keyOutValue 0
  let (curve2, pointOffset) ←
    createChannelInOutLoop keyTimes keyValues keyInValue keyOutValue type propertyComponentCount
      lowest duration (uintSub keyCount 1 - 1) 1 propertyComponentCount curve1
  let curve3 ← curve2.setPointInOut (uintSub keyCount 1) 1 keyValues pointOffset type
    keyInValue pointOffset keyOutValue pointOffset
  .ok (curve3, duration)

/-- `Animation::createChannel(target, propertyId, keyCount, keyTimes, keyValues,
keyInValue, keyOutValue, type)`. -/
def createChannelInOut (ids : TransformIds) (w : World) (target : AnimationTarget)
    (propertyId : Int) (keyCount : Nat) (keyTimes : List Nat)
    (keyValues keyInValue keyOutValue : List ℚ) (type : Nat) :
    Except Fault (Channel × World) := do
  let propertyComponentCount := target.getAnimationPropertyComponentCount propertyId
  if propertyComponentCount > 0 then
    let curve ← Curve.create keyCount propertyComponentCount
    let curve0 :=
      if target._targetType = TargetType.TRANSFORM then
        setTransformRotationOffset ids curve (intToUInt propertyId)
      else curve
    let (curve3, duration) ←
      createChannelInOutFill curve0 propertyComponentCount keyCount keyTimes keyValues
        keyInValue keyOutValue type
    let (channel, w1) ← Channel.create w target propertyId curve3 duration
    .ok (channel, addChannel w1 channel)
  else .error .assertFailed

/-! ## Reachable states and sample data -/

/-- The largest duration among the channels of a collection (0 when it is empty). -/
def maxChannelDuration (channels : List Channel) : Nat :=
  (channels.map (fun c => c._duration)).foldr max 0

/-- Worlds obtained from a fresh Animation by a finite sequence of channel
additions: `addChannel`, and successful calls of either `createChannel` overload. -/
inductive ChannelsAdded (ids : TransformIds) : World → Prop where
  | fresh (w : World) (id : String) (h : w.animation = Animation.fresh id) : ChannelsAdded ids w
  | addChannel (w : World) (channel : Channel) (h : ChannelsAdded ids w) :
      ChannelsAdded ids (addChannel w channel)
  | createChannel (w : World) (target : AnimationTarget) (propertyId : Int) (keyCount : Nat)
      (keyTimes : List Nat) (keyValues : List ℚ) (type : Nat) (channel : Channel) (w1 : World)
      (h : ChannelsAdded ids w)
      (hrun : createChannel ids w target propertyId keyCount keyTimes keyValues type
        = .ok (channel, w1)) : ChannelsAdded ids w1
  | createChannelInOut (w : World) (target : AnimationTarget) (propertyId : Int) (keyCount : Nat)
      (keyTimes : List Nat) (keyValues keyInValue keyOutValue : List ℚ) (type : Nat)
      (channel : Channel) (w1 : World) (h : ChannelsAdded ids w)
      (hrun : createChannelInOut ids w target propertyId keyCount keyTimes keyValues keyInValue
        keyOutValue type = .ok (channel, w1)) : ChannelsAdded ids w1

/-- Sample values of the three `Transform` property ids. -/
def sampleIds : TransformIds :=
  { ANIMATE_ROTATE := 8, ANIMATE_ROTATE_TRANSLATE := 16, ANIMATE_SCALE_ROTATE_TRANSLATE := 17 }

/-- A sample non-transform target whose properties all have one component. -/
def sampleTarget : AnimationTarget :=
  { addr := 100, _targetType := TargetType.SCALAR,
    getAnimationPropertyComponentCount := fun _ => 1 }

/-- The normalized time stored in keyframe `i` of a curve, if that keyframe was set. -/
def Curve.pointTime (c : Curve) (i : Nat) : Option ℚ :=
  match c._points[i]? with
  | some (some p) => some p.time
  | _ => none

/-- The channel that `createChannel` builds from the sample target with key times
`[0, 1000]` and key values `[0, 10]`. -/
def sampleChannel : Channel :=
  { addr := 0, _target := 100, _propertyId := 0,
    _curve :=
      { _pointCount := 2, _componentCount := 1, _quaternionOffset := none,
        _points :=
          [some { time := 0, value := [0], type := 1, inValue := none, outValue := none },
           some { time := 1, value := [10], type := 1, inValue := none, outValue := none }],
        _setLog := [0, 1] },
    _duration := 1000 }

/-- The world after that call on a fresh Animation. -/
def sampleWorld : World :=
  { animation := { _id := "walk", _duration := 1000, _defaultClip := none, _clips := none,
                   _channels := [sampleChannel] },
    nextAddr := 1,
    calls := [ExternalCall.addRef, ExternalCall.targetAddChannel 100 0] }

/-- A second channel, of duration 400, built elsewhere. -/
def shortChannel : Channel :=
  { sampleChannel with addr := 7, _duration := 400 }

/-- The explicit-clip collection as a list; the empty list while `_clips` is `NULL`. -/
def Animation.explicitClips (a : Animation) : List AnimationClip :=
  match a._clips with
  | some v => v
  | none => []

/-- One call of an operation of `Animation` that returns normally. -/
inductive Step (ids : TransformIds) : World → World → Prop where
  | createClip (w : World) (id : String) (start end_ : Nat) :
      Step ids w (createClip w id start end_).2
  | createClips (w : World) (sscanf : String → Option ℚ) (uninit : Nat → ℚ × ℚ)
      (namespaces : List Properties) (frameCount : Nat) :
      Step ids w (createClipsLoop sscanf frameCount uninit namespaces w)
  | getClip (w : World) (id : Option String) : Step ids w (getClip w id).2
  | play (w : World) (clipId : Option String) : Step ids w (play w clipId)
  | stop (w : World) (clipId : Option String) : Step ids w (stop w clipId)
  | pause (w : World) (clipId : Option String) : Step ids w (pause w clipId)
  | addChannel (w : World) (channel : Channel) : Step ids w (addChannel w channel)
  | removeChannel (w : World) (channel : Channel) : Step ids w (removeChannel w channel)
  | createChannel (w : World) (target : AnimationTarget) (propertyId : Int) (keyCount : Nat)
      (keyTimes : List Nat) (keyValues : List ℚ) (type : Nat) (channel : Channel) (w1 : World)
      (hrun : gameplay.createChannel ids w target propertyId keyCount keyTimes keyValues type
        = .ok (channel, w1)) : Step ids w w1
  | createChannelInOut (w : World) (target : AnimationTarget) (propertyId : Int)
      (keyCount : Nat) (keyTimes : List Nat) (keyValues keyInValue keyOutValue : List ℚ)
      (type : Nat) (channel : Channel) (w1 : World)
      (hrun : gameplay.createChannelInOut ids w target propertyId keyCount keyTimes keyValues
        keyInValue keyOutValue type = .ok (channel, w1)) : Step ids w w1

/-- Worlds reached from a freshly constructed Animation by finitely many calls. -/
inductive Reachable (ids : TransformIds) : World → Prop where
  | fresh (w : World) (id : String) (h : w.animation = Animation.fresh id) : Reachable ids w
  | step (w w1 : World) (h : Reachable ids w) (hstep : Step ids w w1) : Reachable ids w1

/-- Worlds reached from `w` by finitely many calls. -/
inductive ReachableFrom (ids : TransformIds) (w : World) : World → Prop where
  | refl : ReachableFrom ids w w
  | step (w1 w2 : World) (h : ReachableFrom ids w w1) (hstep : Step ids w1 w2) :
      ReachableFrom ids w w2

/-- The world after three `createClip` calls on the sample world; two of the clips
share the id "run". -/
def clipsWorld : World :=
  (createClip (createClip (createClip sampleWorld "run" 0 10).2 "idle" 0 5).2 "run" 20 30).2

/-- The identity and the immutable data of a clip: its address, id, start time and
end time. -/
def AnimationClip.ident (c : AnimationClip) : Nat × String × Nat × Nat :=
  (c.addr, c._id, c._startTime, c._endTime)

/-- The invariant of the clips of an Animation, on their identities: `dflt` is the
default clip, `expl` the explicit clips, `next` the next free address and `dur`
the duration. -/
structure IdentInvariant (dflt : Option (Nat × String × Nat × Nat))
    (expl : List (Nat × String × Nat × Nat)) (next dur : Nat) : Prop where
  default_fresh : ∀ i, dflt = some i → i.1 < next
  default_span : ∀ i, dflt = some i → i.2.1 = "default_clip" ∧ i.2.2.1 = 0 ∧ i.2.2.2 ≤ dur
  explicit_fresh : ∀ i ∈ expl, i.1 < next
  explicit_nodup : (expl.map (fun i => i.1)).Nodup
  default_not_explicit : ∀ i, dflt = some i → ∀ j ∈ expl, j.1 ≠ i.1

/-- The clip invariant of a world: the clips were allocated before `nextAddr`, the
explicit clips are distinct objects, the default clip is none of them, and the
default clip is named "default_clip", starts at 0 and ends no later than the
duration. -/
def ClipInvariant (w : World) : Prop :=
  IdentInvariant (w.animation._defaultClip.map AnimationClip.ident)
    (w.animation.explicitClips.map AnimationClip.ident) w.nextAddr w.animation._duration

/-- What one call can do to the clips of an Animation, on their identities:
nothing (`same`), create the default clip at the next free address
(`newDefault`), or append explicit clips at the next free addresses (`appended`). -/
inductive ClipEffect (w w1 : World) : Prop where
  | same
      (hd : w1.animation._defaultClip.map AnimationClip.ident
        = w.animation._defaultClip.map AnimationClip.ident)
      (he : w1.animation.explicitClips.map AnimationClip.ident
        = w.animation.explicitClips.map AnimationClip.ident)
      (hn : w.nextAddr ≤ w1.nextAddr)
      (hdur : w.animation._duration ≤ w1.animation._duration) : ClipEffect w w1
  | newDefault
      (hnone : w.animation._defaultClip = none)
      (hd : w1.animation._defaultClip.map AnimationClip.ident
        = some (w.nextAddr, "default_clip", 0, w.animation._duration))
      (he : w1.animation.explicitClips.map AnimationClip.ident
        = w.animation.explicitClips.map AnimationClip.ident)
      (hn : w1.nextAddr = w.nextAddr + 1)
      (hdur : w1.animation._duration = w.animation._duration) : ClipEffect w w1
  | appended (new : List (Nat × String × Nat × Nat))
      (hd : w1.animation._defaultClip.map AnimationClip.ident
        = w.animation._defaultClip.map AnimationClip.ident)
      (he : w1.animation.explicitClips.map AnimationClip.ident
        = w.animation.explicitClips.map AnimationClip.ident ++ new)
      (haddr : new.map (fun i => i.1) = List.range' w.nextAddr new.length)
      (hn : w1.nextAddr = w.nextAddr + new.length)
      (hdur : w1.animation._duration = w.animation._duration) : ClipEffect w w1

/-- The clip that a descriptor stands for: allocated at `addr`, with the
descriptor's id, the times of its `begin` and `end` frames, the repeat count and
speed it names, and the constructor's values for what it does not name; `values`
are the contents of the two locals before `sscanf`. -/
def descriptorClip (sscanf : String → Option ℚ) (values : ℚ × ℚ)
    (frameCount duration addr : Nat) (p : Properties) : AnimationClip :=
  { AnimationClip.create addr p._id (frameTime p.begin_ frameCount duration)
      (frameTime p.end_ frameCount duration) with
    _repeatCount :=
      (match p.repeatCount with
       | some r =>
         if r = "INDEFINITE" then AnimationClip.REPEAT_INDEFINITE
         else sscanfFloat sscanf r values.1
       | none => (AnimationClip.create addr p._id 0 0)._repeatCount),
    _speed :=
      (match p.speed with
       | some s => sscanfFloat sscanf s values.2
       | none => (AnimationClip.create addr p._id 0 0)._speed) }

/-- The clips that a sequence of descriptors stands for, allocated at consecutive
addresses from `addr`. -/
def descriptorClips (sscanf : String → Option ℚ) (frameCount duration : Nat) :
    (Nat → ℚ × ℚ) → Nat → List Properties → List AnimationClip
  | _, _, [] => []
  | uninit, addr, p :: rest =>
    descriptorClip sscanf (uninit 0) frameCount duration addr p
      :: descriptorClips sscanf frameCount duration (fun k => uninit (k + 1)) (addr + 1) rest

/-- The sample world after a clip named "default_clip" was created explicitly and
the default clip was then requested. -/
def namesakeWorld : World :=
  (getClip (createClip sampleWorld "default_clip" 0 1000).2 none).2

/-- The curve that `createChannel` allocates, before any keyframe is set: created
by `new Curve(keyCount, propertyComponentCount)` and, for a transform target,
passed through `setTransformRotationOffset`. -/
def initialCurve (ids : TransformIds) (target : AnimationTarget) (propertyId : Int)
    (keyCount : Nat) : Curve :=
  if target._targetType = TargetType.TRANSFORM then
    setTransformRotationOffset ids
      { _pointCount := keyCount,
        _componentCount := target.getAnimationPropertyComponentCount propertyId,
        _quaternionOffset := none, _points := List.replicate keyCount none, _setLog := [] }
      (intToUInt propertyId)
  else
    { _pointCount := keyCount,
      _componentCount := target.getAnimationPropertyComponentCount propertyId,
      _quaternionOffset := none, _points := List.replicate keyCount none, _setLog := [] }

/-- A sample transform target whose properties all have four components. -/
def transformTarget : AnimationTarget :=
  { addr := 200, _targetType := TargetType.TRANSFORM,
    getAnimationPropertyComponentCount := fun _ => 4 }

/-- The normalized time that `createChannel` passes to `setPoint` for keyframe `i`:
the literal 0 for the first keyframe, the literal 1 for the last one, and the
`float` quotient of line 267 for the others. -/
def normalizedKeyTime (keyTimes : List Nat) (keyCount first last i : Nat) : ℚ :=
  if i = 0 then 0
  else if i = keyCount - 1 then 1
  else floatDiv (floatOfULong (ulongSub (keyTimes.getD i 0) first))
    (floatOfULong (ulongSub last first))

/-- The clips of an Animation in the order in which `~Animation` visits them: the
default clip, if it exists, then the explicit clips. -/
def Animation.allClips (a : Animation) : List AnimationClip :=
  a._defaultClip.toList ++ a.explicitClips

/-- A target that reports no components for any property. -/
def emptyTarget : AnimationTarget :=
  { addr := 300, _targetType := TargetType.SCALAR,
    getAnimationPropertyComponentCount := fun _ => 0 }

/-- The world of `clipsWorld` after `play("idle")` and `play(NULL)`: the clip "idle"
(at address 2) and the default clip (at address 4) are playing, the two clips "run"
(at addresses 1 and 3) are not. -/
def playingWorld : World :=
  play (play clipsWorld (some "idle")) none

/-- The constructor `Animation::Animation(id, target, propertyId, keyCount, keyTimes,
keyValues, type)`: the member initialisers, then `createChannel`. -/
def Animation.construct (ids : TransformIds) (id : String) (target : AnimationTarget)
    (propertyId : Int) (keyCount : Nat) (keyTimes : List Nat) (keyValues : List ℚ) (type : Nat) :
    Except Fault World :=
  match createChannel ids (World.fresh id) target propertyId keyCount keyTimes keyValues type with
  | .ok (_, w) => .ok w
  | .error e => .error e

/-- The world after the constructor with key times `[0, 400]` and key values `[0, 10]`:
one channel, duration 400. -/
def briefWorld : World :=
  { animation := { _id := "walk", _duration := 400, _defaultClip := none, _clips := none,
                   _channels := [{ sampleChannel with _duration := 400 }] },
    nextAddr := 1,
    calls := [ExternalCall.addRef, ExternalCall.targetAddChannel 100 0] }

/-- The world of `briefWorld` after `getClip(NULL)`: the default clip, at address 1,
spans 0 to 400. -/
def briefDefaultWorld : World :=
  (getClip briefWorld none).2

/-- The world after the constructor with key times `[5, 5]` and key values `[0, 10]`,
followed by `getClip(NULL)`: one channel, duration 0, and a default clip from 0 to 0. -/
def stillDefaultWorld : World :=
  { animation := { _id := "walk", _duration := 0,
                   _defaultClip := some (AnimationClip.create 1 "default_clip" 0 0),
                   _clips := none,
                   _channels := [{ sampleChannel with _duration := 0 }] },
    nextAddr := 2,
    calls := [ExternalCall.addRef, ExternalCall.targetAddChannel 100 0] }

/-- A sample behaviour of `sscanf` with `"%f"`: the strings "2" and "0.5" are read
as numbers, for any other string nothing is stored. -/
def sampleSscanf (s : String) : Option ℚ :=
  if s = "2" then some 2 else if s = "0.5" then some (1 / 2) else none

/-- Sample indeterminate contents of the two uninitialised locals: 42 and 7 in
every iteration. -/
def sampleUninit (_ : Nat) : ℚ × ℚ := (42, 7)

/-- The world after `createChannel` with key times `[0, 37]` and key values `[0, 10]`
on a fresh Animation "walk": one channel, duration 37. -/
def frameWorld : World :=
  { animation := { _id := "walk", _duration := 37, _defaultClip := none, _clips := none,
                   _channels := [{ sampleChannel with _duration := 37 }] },
    nextAddr := 1,
    calls := [ExternalCall.addRef, ExternalCall.targetAddChannel 100 0] }

/-- A clip descriptor named "intro" for the frames 3 to 37. -/
def introDescriptor : Properties :=
  { _namespace := "clip", _id := "intro", begin_ := 3, end_ := 37,
    repeatCount := none, speed := none }

/-! ## Lemmas on the embedding -/

theorem readTime_ok {kt : List Nat} {i : Nat} (h : i < kt.length) :
    readTime kt i = .ok (kt.get ⟨i, h⟩) := by
  simp [readTime, List.getElem?_eq_getElem h]

theorem Curve.setPoint_ok (c : Curve) (i : Nat) (t : ℚ) (kv : List ℚ) (off ty : Nat)
    (hi : i < c._pointCount) (hoff : off + c._componentCount ≤ kv.length) :
    c.setPoint i t kv off ty = .ok { c with _setLog := c._setLog ++ [i], _points := (List.set c._points i
      (some { time := t, value := (kv.drop off).take c._componentCount, type := ty,
              inValue := none, outValue := none })) } := by
  simp [Curve.setPoint, readFloats, hi, hoff, bind, Except.bind]

theorem uintAdd_eq {a b : Nat} (h : a + b < UINT_RANGE) : uintAdd a b = a + b := by
  simp [uintAdd, Nat.mod_eq_of_lt h]

theorem createChannelLoop_spec (kt : List Nat) (kv : List ℚ) (ty cc lowest duration : Nat) :
    ∀ (n i : Nat) (curve : Curve),
      i + n ≤ kt.length → i + n ≤ curve._pointCount → curve._componentCount = cc →
      (i + n) * cc ≤ kv.length → i + n < UINT_RANGE → (i + n) * cc < UINT_RANGE →
      ∃ curve1, createChannelLoop kt kv ty cc lowest duration n i (i * cc) curve
          = .ok (curve1, (i + n) * cc) ∧
        curve1._pointCount = curve._pointCount ∧ curve1._componentCount = cc ∧
        curve1._quaternionOffset = curve._quaternionOffset ∧
        curve1._points.length = curve._points.length ∧
        (∀ j, ¬ (i ≤ j ∧ j < i + n) → curve1._points[j]? = curve._points[j]?) ∧
        (∀ j t, i ≤ j → j < i + n → j < curve._points.length → kt[j]? = some t →
          curve1._points[j]? = some (some
            { time := floatDiv (floatOfULong (ulongSub t lowest)) (floatOfULong duration),
              value := (kv.drop (j * cc)).take cc, type := ty,
              inValue := none, outValue := none })) := by
  intro n
  induction n with
  | zero =>
    intro i curve _ _ hcc _ _ _
    refine ⟨curve, by simp [createChannelLoop], rfl, hcc, rfl, rfl, fun _ _ => rfl, ?_⟩
    intro j t h1 h2
    omega
  | succ n ih =>
    intro i curve hkt hpc hcc hkv hu1 hu2
    have hi : i < kt.length := by omega
    have hic : i < curve._pointCount := by omega
    have hmul : i * cc + cc = (i + 1) * cc := by ring
    have hle : (i + 1) * cc ≤ (i + (n + 1)) * cc := Nat.mul_le_mul_right _ (by omega)
    have hoff : i * cc + curve._componentCount ≤ kv.length := by rw [hcc]; omega
    have e1 : uintAdd i 1 = i + 1 := uintAdd_eq (by omega)
    have e2 : uintAdd (i * cc) cc = (i + 1) * cc := by rw [uintAdd_eq (by omega), hmul]
    obtain ⟨curve1, hrun, hp1, hp2, hp3, hp4, hp5, hp6⟩ :=
      ih (i + 1)
        { curve with _setLog := curve._setLog ++ [i], _points := (List.set curve._points i
            (some { time := floatDiv (floatOfULong (ulongSub (kt.get ⟨i, hi⟩) lowest))
                      (floatOfULong duration),
                    value := (kv.drop (i * cc)).take curve._componentCount, type := ty,
                    inValue := none, outValue := none })) }
        (by omega) (by simpa using (by omega : i + 1 + n ≤ curve._pointCount)) hcc
        (by rw [show i + 1 + n = i + (n + 1) by omega]; exact hkv) (by omega)
        (by rw [show i + 1 + n = i + (n + 1) by omega]; exact hu2)
    refine ⟨curve1, ?_, hp1, hp2, hp3, by simpa using hp4, ?_, ?_⟩
    · rw [createChannelLoop]
      simp only [readTime_ok hi, bind, Except.bind, Curve.setPoint_ok curve i _ kv _ ty hic hoff,
        e1, e2]
      rw [hrun, show i + 1 + n = i + (n + 1) by omega]
    · intro j hj
      rw [hp5 j (by omega)]
      simp only
      rw [List.getElem?_set_ne (by omega)]
    · intro j t h1 h2 h3 h4
      by_cases hji : j = i
      · subst hji
        rw [hp5 j (by omega)]
        simp only
        rw [List.getElem?_set_eq_of_lt _ h3]
        rw [List.getElem?_eq_getElem hi] at h4
        simp only [Option.some.injEq] at h4
        simp [← h4, hcc]
      · exact hp6 j t (by omega) (by omega) (by simpa using h3) h4


theorem Curve.setPointInOut_ok (c : Curve) (i : Nat) (t : ℚ) (kv kin kout : List ℚ)
    (off ty : Nat) (hi : i < c._pointCount) (hoff : off + c._componentCount ≤ kv.length)
    (hin : off + c._componentCount ≤ kin.length) (hout : off + c._componentCount ≤ kout.length) :
    c.setPointInOut i t kv off ty kin off kout off = .ok { c with _setLog := c._setLog ++ [i], _points := (List.set c._points i
      (some { time := t, value := (kv.drop off).take c._componentCount, type := ty,
              inValue := some ((kin.drop off).take c._componentCount),
              outValue := some ((kout.drop off).take c._componentCount) })) } := by
  simp [Curve.setPointInOut, readFloats, hi, hoff, hin, hout, bind, Except.bind]

theorem createChannelInOutLoop_spec (kt : List Nat) (kv kin kout : List ℚ)
    (ty cc lowest duration : Nat) :
    ∀ (n i : Nat) (curve : Curve),
      i + n ≤ kt.length → i + n ≤ curve._pointCount → curve._componentCount = cc →
      (i + n) * cc ≤ kv.length → (i + n) * cc ≤ kin.length → (i + n) * cc ≤ kout.length →
      i + n < UINT_RANGE → (i + n) * cc < UINT_RANGE →
      ∃ curve1, createChannelInOutLoop kt kv kin kout ty cc lowest duration n i (i * cc) curve
          = .ok (curve1, (i + n) * cc) ∧
        curve1._pointCount = curve._pointCount ∧ curve1._componentCount = cc ∧
        curve1._quaternionOffset = curve._quaternionOffset ∧
        curve1._points.length = curve._points.length ∧
        (∀ j, ¬ (i ≤ j ∧ j < i + n) → curve1._points[j]? = curve._points[j]?) ∧
        (∀ j t, i ≤ j → j < i + n → j < curve._points.length → kt[j]? = some t →
          curve1._points[j]? = some (some
            { time := floatDiv (floatOfULong (ulongSub t lowest)) (floatOfULong duration),
              value := (kv.drop (j * cc)).take cc, type := ty,
              inValue := some ((kin.drop (j * cc)).take cc),
              outValue := some ((kout.drop (j * cc)).take cc) })) := by
  intro n
  induction n with
  | zero =>
    intro i curve _ _ hcc _ _ _ _ _
    refine ⟨curve, by simp [createChannelInOutLoop], rfl, hcc, rfl, rfl, fun _ _ => rfl, ?_⟩
    intro j t h1 h2
    omega
  | succ n ih =>
    intro i curve hkt hpc hcc hkv hkin hkout hu1 hu2
    have hi : i < kt.length := by omega
    have hic : i < curve._pointCount := by omega
    have hmul : i * cc + cc = (i + 1) * cc := by ring
    have hle : (i + 1) * cc ≤ (i + (n + 1)) * cc := Nat.mul_le_mul_right _ (by omega)
    have hoff : i * cc + curve._componentCount ≤ kv.length := by rw [hcc]; omega
    have hoffin : i * cc + curve._componentCount ≤ kin.length := by rw [hcc]; omega
    have hoffout : i * cc + curve._componentCount ≤ kout.length := by rw [hcc]; omega
    have e1 : uintAdd i 1 = i + 1 := uintAdd_eq (by omega)
    have e2 : uintAdd (i * cc) cc = (i + 1) * cc := by rw [uintAdd_eq (by omega), hmul]
    have e3 : i + 1 + n = i + (n + 1) := by omega
    obtain ⟨curve1, hrun, hp1, hp2, hp3, hp4, hp5, hp6⟩ :=
      ih (i + 1)
        { curve with _setLog := curve._setLog ++ [i], _points := (List.set curve._points i
            (some { time := floatDiv (floatOfULong (ulongSub (kt.get ⟨i, hi⟩) lowest))
                      (floatOfULong duration),
                    value := (kv.drop (i * cc)).take curve._componentCount, type := ty,
                    inValue := some ((kin.drop (i * cc)).take curve._componentCount),
                    outValue := some ((kout.drop (i * cc)).take curve._componentCount) })) }
        (by omega) (by simpa using (by omega : i + 1 + n ≤ curve._pointCount)) hcc
        (by rw [e3]; exact hkv) (by rw [e3]; exact hkin) (by rw [e3]; exact hkout) (by omega)
        (by rw [e3]; exact hu2)
    refine ⟨curve1, ?_, hp1, hp2, hp3, by simpa using hp4, ?_, ?_⟩
    · rw [createChannelInOutLoop]
      simp only [readTime_ok hi, bind, Except.bind,
        Curve.setPointInOut_ok curve i _ kv kin kout _ ty hic hoff hoffin hoffout, e1, e2]
      rw [hrun, e3]
    · intro j hj
      rw [hp5 j (by omega)]
      simp only
      rw [List.getElem?_set_ne (by omega)]
    · intro j t h1 h2 h3 h4
      by_cases hji : j = i
      · subst hji
        rw [hp5 j (by omega)]
        simp only
        rw [List.getElem?_set_eq_of_lt _ h3]
        rw [List.getElem?_eq_getElem hi] at h4
        simp only [Option.some.injEq] at h4
        simp [← h4, hcc]
      · exact hp6 j t (by omega) (by omega) (by simpa using h3) h4

theorem Channel.create_ok {w : World} {target : AnimationTarget} {pid : Int} {curve : Curve}
    {duration : Nat} {ch : Channel} {w1 : World}
    (h : Channel.create w target pid curve duration = .ok (ch, w1)) :
    ch = { addr := w.nextAddr, _target := target.addr, _propertyId := pid, _curve := curve,
           _duration := duration } ∧
    w1 = { w with nextAddr := w.nextAddr + 1,
                  calls := w.calls ++ [ExternalCall.addRef,
                    ExternalCall.targetAddChannel target.addr w.nextAddr] } := by
  unfold Channel.create at h
  split at h
  · simp only [Except.ok.injEq, Prod.mk.injEq] at h
    exact ⟨h.1.symm, h.2.symm⟩
  · exact absurd h (by simp)

theorem createChannel_ok {ids : TransformIds} {w : World} {target : AnimationTarget} {pid : Int}
    {kc : Nat} {kt : List Nat} {kv : List ℚ} {ty : Nat} {ch : Channel} {w' : World}
    (h : createChannel ids w target pid kc kt kv ty = .ok (ch, w')) :
    ∃ curve0 curve3 duration,
      createChannelFill curve0 (target.getAnimationPropertyComponentCount pid) kc kt kv ty
        = .ok (curve3, duration) ∧
      Channel.create w target pid curve3 duration = .ok (ch, { w' with animation := w.animation }) ∧
      w'.animation = w.animation.addChannel ch := by
  unfold createChannel at h
  simp only [bind, Except.bind] at h
  split at h
  · split at h
    · exact absurd h (by simp)
    · rename_i curve hc
      split at h
      · exact absurd h (by simp)
      · rename_i r hr
        obtain ⟨curve3, duration⟩ := r
        simp only at h
        split at h
        · exact absurd h (by simp)
        · rename_i r2 hr2
          obtain ⟨channel, w1⟩ := r2
          simp only [Except.ok.injEq, Prod.mk.injEq] at h
          obtain ⟨h1, h2⟩ := h
          subst h1
          refine ⟨_, curve3, duration, hr, ?_, ?_⟩
          · rw [hr2]
            obtain ⟨e1, e2⟩ := Channel.create_ok hr2
            subst h2
            simp [addChannel, e2]
          · subst h2
            obtain ⟨e1, e2⟩ := Channel.create_ok hr2
            simp [addChannel, e2]
  · exact absurd h (by simp)

theorem uintSub_one {k : Nat} (h1 : 1 ≤ k) (h2 : k < UINT_RANGE) : uintSub k 1 = k - 1 := by
  unfold uintSub
  have : (1 : Nat) % UINT_RANGE = 1 := by simp [UINT_RANGE]
  rw [this, Nat.mod_eq_of_lt h2, show k + UINT_RANGE - 1 = (k - 1) + UINT_RANGE by omega,
    Nat.add_mod_right, Nat.mod_eq_of_lt (by omega)]

theorem ulongSub_eq {a b : Nat} (hab : a ≤ b) (hb : b < ULONG_RANGE) : ulongSub b a = b - a := by
  unfold ulongSub
  rw [Nat.mod_eq_of_lt hb, Nat.mod_eq_of_lt (by omega : a < ULONG_RANGE),
    show b + ULONG_RANGE - a = (b - a) + ULONG_RANGE by omega, Nat.add_mod_right,
    Nat.mod_eq_of_lt (by omega)]

theorem Except.ok_bind_eq {ε α β : Type} (a : α) (f : α → Except ε β) :
    (Except.ok a >>= f) = f a := rfl

theorem createChannelFill_spec (curve : Curve) (cc kc : Nat) (kt : List Nat) (kv : List ℚ)
    (ty : Nat) (first last : Nat)
    (hlen : kt.length = kc) (hkc : 2 ≤ kc) (hkv : kv.length = kc * cc)
    (hsmall : kc * cc < UINT_RANGE) (hcc : 0 < cc)
    (hpc : curve._pointCount = kc) (hcomp : curve._componentCount = cc)
    (hpts : curve._points.length = kc)
    (hfirst : kt[0]? = some first) (hlast : kt[kc - 1]? = some last) :
    ∃ curve3, createChannelFill curve cc kc kt kv ty = .ok (curve3, ulongSub last first) ∧
      curve3._pointCount = kc ∧ curve3._componentCount = cc ∧
      curve3._quaternionOffset = curve._quaternionOffset ∧
      curve3._points.length = kc ∧
      curve3._points[0]? = some (some
        { time := 0, value := (kv.drop 0).take cc, type := ty,
          inValue := none, outValue := none }) ∧
      curve3._points[kc - 1]? = some (some
        { time := 1, value := (kv.drop ((kc - 1) * cc)).take cc, type := ty,
          inValue := none, outValue := none }) ∧
      (∀ j t, 0 < j → j < kc - 1 → kt[j]? = some t →
        curve3._points[j]? = some (some
          { time := floatDiv (floatOfULong (ulongSub t first))
              (floatOfULong (ulongSub last first)),
            value := (kv.drop (j * cc)).take cc, type := ty,
            inValue := none, outValue := none })) := by
  have hkcu : kc < UINT_RANGE := lt_of_le_of_lt (Nat.le_mul_of_pos_right kc hcc) hsmall
  have hsub : uintSub kc 1 = kc - 1 := uintSub_one (by omega) hkcu
  have hmul : (kc - 1) * cc + cc = kc * cc := by
    calc (kc - 1) * cc + cc = ((kc - 1) + 1) * cc := by ring
      _ = kc * cc := by rw [Nat.sub_add_cancel (by omega)]
  have hidx : 1 + (kc - 1 - 1) = kc - 1 := by omega
  have hr0 : readTime kt 0 = .ok first := by simp [readTime, hfirst]
  have hr1 : readTime kt (kc - 1) = .ok last := by simp [readTime, hlast]
  have hs0 := Curve.setPoint_ok curve 0 0 kv 0 ty (by omega)
    (by rw [hcomp, hkv]; calc 0 + cc = 1 * cc := by ring
          _ ≤ kc * cc := Nat.mul_le_mul_right _ (by omega))
  obtain ⟨curve2, hrun, hq1, hq2, hq3, hq4, hq5, hq6⟩ :=
    createChannelLoop_spec kt kv ty cc first (ulongSub last first) (kc - 1 - 1) 1
      { curve with _setLog := curve._setLog ++ [0], _points := (List.set curve._points 0
        (some { time := 0, value := (kv.drop 0).take curve._componentCount, type := ty,
                inValue := none, outValue := none })) }
      (by omega) (by simp only; omega) hcomp (by rw [hidx, hkv]; omega) (by omega)
      (by rw [hidx]; omega)
  simp only [one_mul, hidx] at hrun
  simp only [hidx] at hq5 hq6
  have hq1k : curve2._pointCount = kc := hq1.trans hpc
  have hs1 := Curve.setPoint_ok curve2 (kc - 1) 1 kv ((kc - 1) * cc) ty
    (by rw [hq1k]; omega) (by rw [hq2, hmul, hkv])
  obtain ⟨curve3, hc3⟩ : ∃ c : Curve, c = { curve2 with _setLog := curve2._setLog ++ [(kc - 1)], _points := (List.set curve2._points
      (kc - 1)
      (some { time := 1, value := (kv.drop ((kc - 1) * cc)).take curve2._componentCount,
              type := ty, inValue := none, outValue := none })) } := ⟨_, rfl⟩
  rw [← hc3] at hs1
  have hpts3 : curve3._points = List.set curve2._points
      (kc - 1)
      (some { time := 1, value := (kv.drop ((kc - 1) * cc)).take curve2._componentCount,
              type := ty, inValue := none, outValue := none }) := by rw [hc3]
  have hpc3 : curve3._pointCount = curve2._pointCount := by rw [hc3]
  have hcc3 : curve3._componentCount = curve2._componentCount := by rw [hc3]
  have hqo3 : curve3._quaternionOffset = curve2._quaternionOffset := by rw [hc3]
  clear hc3
  refine ⟨curve3, ?_, ?_, ?_, ?_, ?_, ?_, ?_, ?_⟩
  · unfold createChannelFill
    simp only [hr0, hsub, hr1, Except.ok_bind_eq, hs0, hrun, hs1]
  · rw [hpc3]; exact hq1k
  · rw [hcc3]; exact hq2
  · rw [hqo3]; exact hq3
  · rw [hpts3, List.length_set, hq4, List.length_set, hpts]
  · rw [hpts3, List.getElem?_set_ne (by omega), hq5 0 (by omega)]
    rw [List.getElem?_set_eq_of_lt _ (by omega)]
    simp [hcomp]
  · rw [hpts3, List.getElem?_set_eq_of_lt _ (by rw [hq4, List.length_set, hpts]; omega)]
    simp [hq2]
  · intro j t h1 h2 h3
    rw [hpts3, List.getElem?_set_ne (by omega)]
    exact hq6 j t (by omega) h2 (by rw [List.length_set]; omega) h3

theorem createChannelInOutFill_spec (curve : Curve) (cc kc : Nat) (kt : List Nat)
    (kv kin kout : List ℚ) (ty : Nat) (first last : Nat)
    (hlen : kt.length = kc) (hkc : 2 ≤ kc) (hkv : kv.length = kc * cc)
    (hkin : kin.length = kc * cc) (hkout : kout.length = kc * cc)
    (hsmall : kc * cc < UINT_RANGE) (hcc : 0 < cc)
    (hpc : curve._pointCount = kc) (hcomp : curve._componentCount = cc)
    (hpts : curve._points.length = kc)
    (hfirst : kt[0]? = some first) (hlast : kt[kc - 1]? = some last) :
    ∃ curve3, createChannelInOutFill curve cc kc kt kv kin kout ty
        = .ok (curve3, ulongSub last first) ∧
      curve3._pointCount = kc ∧ curve3._componentCount = cc ∧
      curve3._quaternionOffset = curve._quaternionOffset ∧
      curve3._points.length = kc ∧
      curve3._points[0]? = some (some
        { time := 0, value := (kv.drop 0).take cc, type := ty,
          inValue := some ((kin.drop 0).take cc), outValue := some ((kout.drop 0).take cc) }) ∧
      curve3._points[kc - 1]? = some (some
        { time := 1, value := (kv.drop ((kc - 1) * cc)).take cc, type := ty,
          inValue := some ((kin.drop ((kc - 1) * cc)).take cc),
          outValue := some ((kout.drop ((kc - 1) * cc)).take cc) }) ∧
      (∀ j t, 0 < j → j < kc - 1 → kt[j]? = some t →
        curve3._points[j]? = some (some
          { time := floatDiv (floatOfULong (ulongSub t first))
              (floatOfULong (ulongSub last first)),
            value := (kv.drop (j * cc)).take cc, type := ty,
            inValue := some ((kin.drop (j * cc)).take cc),
            outValue := some ((kout.drop (j * cc)).take cc) })) := by
  have hkcu : kc < UINT_RANGE := lt_of_le_of_lt (Nat.le_mul_of_pos_right kc hcc) hsmall
  have hsub : uintSub kc 1 = kc - 1 := uintSub_one (by omega) hkcu
  have hmul : (kc - 1) * cc + cc = kc * cc := by
    calc (kc - 1) * cc + cc = ((kc - 1) + 1) * cc := by ring
      _ = kc * cc := by rw [Nat.sub_add_cancel (by omega)]
  have hidx : 1 + (kc - 1 - 1) = kc - 1 := by omega
  have hr0 : readTime kt 0 = .ok first := by simp [readTime, hfirst]
  have hr1 : readTime kt (kc - 1) = .ok last := by simp [readTime, hlast]
  have hone : 0 + cc ≤ kc * cc := by
    calc 0 + cc = 1 * cc := by ring
      _ ≤ kc * cc := Nat.mul_le_mul_right _ (by omega)
  have hs0 := Curve.setPointInOut_ok curve 0 0 kv kin kout 0 ty (by omega)
    (by rw [hcomp, hkv]; exact hone) (by rw [hcomp, hkin]; exact hone)
    (by rw [hcomp, hkout]; exact hone)
  obtain ⟨curve2, hrun, hq1, hq2, hq3, hq4, hq5, hq6⟩ :=
    createChannelInOutLoop_spec kt kv kin kout ty cc first (ulongSub last first) (kc - 1 - 1) 1
      { curve with _setLog := curve._setLog ++ [0], _points := (List.set curve._points 0
        (some { time := 0, value := (kv.drop 0).take curve._componentCount, type := ty,
                inValue := some ((kin.drop 0).take curve._componentCount),
                outValue := some ((kout.drop 0).take curve._componentCount) })) }
      (by omega) (by simp only; omega) hcomp (by rw [hidx, hkv]; omega)
      (by rw [hidx, hkin]; omega) (by rw [hidx, hkout]; omega) (by omega)
      (by rw [hidx]; omega)
  simp only [one_mul, hidx] at hrun
  simp only [hidx] at hq5 hq6
  have hq1k : curve2._pointCount = kc := hq1.trans hpc
  have hs1 := Curve.setPointInOut_ok curve2 (kc - 1) 1 kv kin kout ((kc - 1) * cc) ty
    (by rw [hq1k]; omega) (by rw [hq2, hmul, hkv]) (by rw [hq2, hmul, hkin])
    (by rw [hq2, hmul, hkout])
  obtain ⟨curve3, hc3⟩ : ∃ c : Curve, c = { curve2 with _setLog := curve2._setLog ++ [(kc - 1)], _points := (List.set curve2._points
      (kc - 1)
      (some { time := 1, value := (kv.drop ((kc - 1) * cc)).take curve2._componentCount,
              type := ty,
              inValue := some ((kin.drop ((kc - 1) * cc)).take curve2._componentCount),
              outValue := some ((kout.drop ((kc - 1) * cc)).take curve2._componentCount) })) } :=
    ⟨_, rfl⟩
  rw [← hc3] at hs1
  have hpts3 : curve3._points = List.set curve2._points
      (kc - 1)
      (some { time := 1, value := (kv.drop ((kc - 1) * cc)).take curve2._componentCount,
              type := ty,
              inValue := some ((kin.drop ((kc - 1) * cc)).take curve2._componentCount),
              outValue := some ((kout.drop ((kc - 1) * cc)).take curve2._componentCount) }) := by
    rw [hc3]
  have hpc3 : curve3._pointCount = curve2._pointCount := by rw [hc3]
  have hcc3 : curve3._componentCount = curve2._componentCount := by rw [hc3]
  have hqo3 : curve3._quaternionOffset = curve2._quaternionOffset := by rw [hc3]
  clear hc3
  refine ⟨curve3, ?_, ?_, ?_, ?_, ?_, ?_, ?_, ?_⟩
  · unfold createChannelInOutFill
    simp only [hr0, hsub, hr1, Except.ok_bind_eq, hs0, hrun, hs1]
  · rw [hpc3]; exact hq1k
  · rw [hcc3]; exact hq2
  · rw [hqo3]; exact hq3
  · rw [hpts3, List.length_set, hq4, List.length_set, hpts]
  · rw [hpts3, List.getElem?_set_ne (by omega), hq5 0 (by omega)]
    rw [List.getElem?_set_eq_of_lt _ (by omega)]
    simp [hcomp]
  · rw [hpts3, List.getElem?_set_eq_of_lt _ (by rw [hq4, List.length_set, hpts]; omega)]
    simp [hq2]
  · intro j t h1 h2 h3
    rw [hpts3, List.getElem?_set_ne (by omega)]
    exact hq6 j t (by omega) h2 (by rw [List.length_set]; omega) h3

/-! ## Lemmas on binary32 rounding -/

theorem floor_le_roundHalfEven (x : ℚ) : ⌊x⌋ ≤ roundHalfEven x := by
  unfold roundHalfEven
  split_ifs <;> omega

theorem roundHalfEven_le_floor_add_one (x : ℚ) : roundHalfEven x ≤ ⌊x⌋ + 1 := by
  unfold roundHalfEven
  split_ifs <;> omega

theorem roundHalfEven_intCast (n : ℤ) : roundHalfEven (n : ℚ) = n := by
  unfold roundHalfEven
  simp

theorem roundHalfEven_mono {x y : ℚ} (h : x ≤ y) : roundHalfEven x ≤ roundHalfEven y := by
  rcases lt_or_eq_of_le (Int.floor_mono h) with hlt | heq
  · calc roundHalfEven x ≤ ⌊x⌋ + 1 := roundHalfEven_le_floor_add_one x
      _ ≤ ⌊y⌋ := hlt
      _ ≤ roundHalfEven y := floor_le_roundHalfEven y
  · unfold roundHalfEven
    rw [← heq]
    split_ifs <;> first | omega | (exfalso; linarith)

/-- Twice the distance to the rounded integer is at most one. -/
theorem roundHalfEven_error (x : ℚ) : |(roundHalfEven x : ℚ) - x| ≤ 1 / 2 := by
  have h1 := Int.floor_le x
  have h2 := Int.lt_floor_add_one x
  unfold roundHalfEven
  split_ifs <;> rw [abs_le] <;> constructor <;> push_cast <;> linarith

theorem two_zpow_log_le {q : ℚ} (hq : 0 < q) : (2 : ℚ) ^ Int.log 2 q ≤ q := by
  have := Int.zpow_log_le_self (b := 2) (r := q) (by norm_num) hq
  simpa using this

theorem lt_two_zpow_log_succ (q : ℚ) : q < (2 : ℚ) ^ (Int.log 2 q + 1) := by
  have := Int.lt_zpow_succ_log_self (b := 2) (by norm_num) q
  simpa using this

/-- The significand of a positive number lies between `2^23` and `2^24`. -/
theorem scaled_bounds {q : ℚ} (hq : 0 < q) :
    (2 : ℚ) ^ (23 : ℤ) ≤ q * (2 : ℚ) ^ (23 - Int.log 2 q) ∧
    q * (2 : ℚ) ^ (23 - Int.log 2 q) < (2 : ℚ) ^ (24 : ℤ) := by
  have h2 : (0 : ℚ) < 2 := by norm_num
  have hpos : (0 : ℚ) < (2 : ℚ) ^ (23 - Int.log 2 q) := zpow_pos h2 _
  constructor
  · calc (2 : ℚ) ^ (23 : ℤ) = (2 : ℚ) ^ Int.log 2 q * (2 : ℚ) ^ (23 - Int.log 2 q) := by
          rw [← zpow_add₀ (by norm_num : (2 : ℚ) ≠ 0)]; congr 1; ring
      _ ≤ q * (2 : ℚ) ^ (23 - Int.log 2 q) :=
          mul_le_mul_of_nonneg_right (two_zpow_log_le hq) hpos.le
  · calc q * (2 : ℚ) ^ (23 - Int.log 2 q)
        < (2 : ℚ) ^ (Int.log 2 q + 1) * (2 : ℚ) ^ (23 - Int.log 2 q) :=
          mul_lt_mul_of_pos_right (lt_two_zpow_log_succ q) hpos
      _ = (2 : ℚ) ^ (24 : ℤ) := by
          rw [← zpow_add₀ (by norm_num : (2 : ℚ) ≠ 0)]; congr 1; ring

theorem roundHalfEven_scaled_bounds {q : ℚ} (hq : 0 < q) :
    (2 : ℤ) ^ 23 ≤ roundHalfEven (q * (2 : ℚ) ^ (23 - Int.log 2 q)) ∧
    roundHalfEven (q * (2 : ℚ) ^ (23 - Int.log 2 q)) ≤ (2 : ℤ) ^ 24 := by
  obtain ⟨h1, h2⟩ := scaled_bounds hq
  constructor
  · have := roundHalfEven_mono h1
    have e : ((2 : ℚ) ^ (23 : ℤ)) = (((2 : ℤ) ^ 23 : ℤ) : ℚ) := by norm_num
    rw [e, roundHalfEven_intCast] at this
    exact this
  · have := roundHalfEven_mono h2.le
    have e : ((2 : ℚ) ^ (24 : ℤ)) = (((2 : ℤ) ^ 24 : ℤ) : ℚ) := by norm_num
    rw [e, roundHalfEven_intCast] at this
    exact this

theorem roundPos_lower {q : ℚ} (hq : 0 < q) : (2 : ℚ) ^ Int.log 2 q ≤ roundPos q := by
  have h := (roundHalfEven_scaled_bounds hq).1
  have hc : ((2 : ℚ) ^ (23 : ℤ)) ≤ (roundHalfEven (q * (2 : ℚ) ^ (23 - Int.log 2 q)) : ℚ) := by
    have : (((2 : ℤ) ^ 23 : ℤ) : ℚ) ≤ (roundHalfEven (q * (2 : ℚ) ^ (23 - Int.log 2 q)) : ℚ) := by
      exact_mod_cast h
    calc ((2 : ℚ) ^ (23 : ℤ)) = (((2 : ℤ) ^ 23 : ℤ) : ℚ) := by norm_num
      _ ≤ _ := this
  have hpos : (0 : ℚ) < (2 : ℚ) ^ (Int.log 2 q - 23) := zpow_pos (by norm_num) _
  unfold roundPos
  calc (2 : ℚ) ^ Int.log 2 q = (2 : ℚ) ^ (23 : ℤ) * (2 : ℚ) ^ (Int.log 2 q - 23) := by
        rw [← zpow_add₀ (by norm_num : (2 : ℚ) ≠ 0)]; congr 1; ring
    _ ≤ _ := mul_le_mul_of_nonneg_right hc hpos.le

theorem roundPos_upper {q : ℚ} (hq : 0 < q) : roundPos q ≤ (2 : ℚ) ^ (Int.log 2 q + 1) := by
  have h := (roundHalfEven_scaled_bounds hq).2
  have hc : (roundHalfEven (q * (2 : ℚ) ^ (23 - Int.log 2 q)) : ℚ) ≤ ((2 : ℚ) ^ (24 : ℤ)) := by
    have : (roundHalfEven (q * (2 : ℚ) ^ (23 - Int.log 2 q)) : ℚ) ≤ (((2 : ℤ) ^ 24 : ℤ) : ℚ) := by
      exact_mod_cast h
    calc _ ≤ (((2 : ℤ) ^ 24 : ℤ) : ℚ) := this
      _ = ((2 : ℚ) ^ (24 : ℤ)) := by norm_num
  have hpos : (0 : ℚ) < (2 : ℚ) ^ (Int.log 2 q - 23) := zpow_pos (by norm_num) _
  unfold roundPos
  calc _ ≤ (2 : ℚ) ^ (24 : ℤ) * (2 : ℚ) ^ (Int.log 2 q - 23) :=
        mul_le_mul_of_nonneg_right hc hpos.le
    _ = (2 : ℚ) ^ (Int.log 2 q + 1) := by
        rw [← zpow_add₀ (by norm_num : (2 : ℚ) ≠ 0)]; congr 1; ring

theorem roundPos_pos {q : ℚ} (hq : 0 < q) : 0 < roundPos q :=
  lt_of_lt_of_le (zpow_pos (by norm_num) _) (roundPos_lower hq)

theorem roundPos_mono {p q : ℚ} (hp : 0 < p) (h : p ≤ q) : roundPos p ≤ roundPos q := by
  have hq : 0 < q := lt_of_lt_of_le hp h
  rcases lt_or_eq_of_le (Int.log_mono_right (b := 2) hp h) with hlt | heq
  · calc roundPos p ≤ (2 : ℚ) ^ (Int.log 2 p + 1) := roundPos_upper hp
      _ ≤ (2 : ℚ) ^ Int.log 2 q := zpow_le_zpow_right₀ (by norm_num) hlt
      _ ≤ roundPos q := roundPos_lower hq
  · unfold roundPos
    rw [← heq]
    have hpos : (0 : ℚ) < (2 : ℚ) ^ (Int.log 2 p - 23) := zpow_pos (by norm_num) _
    have hpos2 : (0 : ℚ) < (2 : ℚ) ^ (23 - Int.log 2 p) := zpow_pos (by norm_num) _
    apply mul_le_mul_of_nonneg_right _ hpos.le
    exact_mod_cast roundHalfEven_mono (mul_le_mul_of_nonneg_right h hpos2.le)

theorem roundFloat_zero : roundFloat 0 = 0 := by simp [roundFloat]

theorem roundFloat_of_pos {q : ℚ} (hq : 0 < q) : roundFloat q = roundPos q := by
  simp [roundFloat, hq.ne', not_lt.mpr hq.le]

theorem roundFloat_nonneg {q : ℚ} (hq : 0 ≤ q) : 0 ≤ roundFloat q := by
  rcases eq_or_lt_of_le hq with h | h
  · rw [← h, roundFloat_zero]
  · rw [roundFloat_of_pos h]; exact (roundPos_pos h).le

/-- Rounding is monotone on the non-negative rationals. -/
theorem roundFloat_mono {p q : ℚ} (hp : 0 ≤ p) (h : p ≤ q) : roundFloat p ≤ roundFloat q := by
  rcases eq_or_lt_of_le hp with h0 | h0
  · rw [← h0, roundFloat_zero]; exact roundFloat_nonneg (hp.trans h)
  · rw [roundFloat_of_pos h0, roundFloat_of_pos (lt_of_lt_of_le h0 h)]
    exact roundPos_mono h0 h

theorem roundFloat_one : roundFloat 1 = 1 := by
  rw [roundFloat_of_pos one_pos]
  unfold roundPos
  rw [Int.log_one_right]
  have e : (1 : ℚ) * (2 : ℚ) ^ ((23 : ℤ) - 0) = (((2 : ℤ) ^ 23 : ℤ) : ℚ) := by norm_num
  rw [e, roundHalfEven_intCast]
  norm_num

/-! ## Lemmas on channel additions -/

theorem createChannelInOut_ok {ids : TransformIds} {w : World} {target : AnimationTarget}
    {pid : Int} {kc : Nat} {kt : List Nat} {kv kin kout : List ℚ} {ty : Nat} {ch : Channel}
    {w' : World}
    (h : createChannelInOut ids w target pid kc kt kv kin kout ty = .ok (ch, w')) :
    ∃ curve0 curve3 duration,
      createChannelInOutFill curve0 (target.getAnimationPropertyComponentCount pid) kc kt kv
        kin kout ty = .ok (curve3, duration) ∧
      Channel.create w target pid curve3 duration = .ok (ch, { w' with animation := w.animation }) ∧
      w'.animation = w.animation.addChannel ch := by
  unfold createChannelInOut at h
  simp only [bind, Except.bind] at h
  split at h
  · split at h
    · exact absurd h (by simp)
    · rename_i curve hc
      split at h
      · exact absurd h (by simp)
      · rename_i r hr
        obtain ⟨curve3, duration⟩ := r
        simp only at h
        split at h
        · exact absurd h (by simp)
        · rename_i r2 hr2
          obtain ⟨channel, w1⟩ := r2
          simp only [Except.ok.injEq, Prod.mk.injEq] at h
          obtain ⟨h1, h2⟩ := h
          subst h1
          refine ⟨_, curve3, duration, hr, ?_, ?_⟩
          · rw [hr2]
            obtain ⟨e1, e2⟩ := Channel.create_ok hr2
            subst h2
            simp [addChannel, e2]
          · subst h2
            obtain ⟨e1, e2⟩ := Channel.create_ok hr2
            simp [addChannel, e2]
  · exact absurd h (by simp)

theorem Animation.addChannel_channels (a : Animation) (ch : Channel) :
    (a.addChannel ch)._channels = a._channels ++ [ch] := by
  unfold Animation.addChannel
  split <;> rfl

theorem Animation.addChannel_duration (a : Animation) (ch : Channel) :
    (a.addChannel ch)._duration = max a._duration ch._duration := by
  unfold Animation.addChannel
  split
  · rename_i h; simp only; omega
  · rename_i h; simp only; omega

theorem maxChannelDuration_append (l : List Channel) (ch : Channel) :
    maxChannelDuration (l ++ [ch]) = max (maxChannelDuration l) ch._duration := by
  unfold maxChannelDuration
  induction l with
  | nil => simp
  | cons c l ih =>
    simp only [List.cons_append, List.map_cons, List.foldr_cons]
    rw [ih]
    omega

theorem le_maxChannelDuration {l : List Channel} {c : Channel} (h : c ∈ l) :
    c._duration ≤ maxChannelDuration l := by
  unfold maxChannelDuration
  induction l with
  | nil => cases h
  | cons d l ih =>
    simp only [List.map_cons, List.foldr_cons]
    rcases List.mem_cons.mp h with rfl | h
    · exact le_max_left _ _
    · exact le_trans (ih h) (le_max_right _ _)

theorem exists_eq_maxChannelDuration {l : List Channel} (h : l ≠ []) :
    ∃ c ∈ l, c._duration = maxChannelDuration l := by
  unfold maxChannelDuration
  induction l with
  | nil => exact absurd rfl h
  | cons d l ih =>
    simp only [List.map_cons, List.foldr_cons]
    by_cases hl : l = []
    · subst hl
      exact ⟨d, List.mem_cons_self _ _, by simp⟩
    · obtain ⟨c, hc, hcd⟩ := ih hl
      rcases le_total d._duration (List.foldr max 0 (List.map (fun c => c._duration) l)) with hle | hle
      · exact ⟨c, List.mem_cons_of_mem _ hc, by rw [hcd, max_eq_right hle]⟩
      · exact ⟨d, List.mem_cons_self _ _, by rw [max_eq_left hle]⟩

theorem channelsAdded_duration_eq {ids : TransformIds} {w : World} (h : ChannelsAdded ids w) :
    w.animation._duration = maxChannelDuration w.animation._channels := by
  induction h with
  | fresh w id h => rw [h]; rfl
  | addChannel w ch _ ih =>
    simp only [addChannel]
    rw [Animation.addChannel_duration, Animation.addChannel_channels, maxChannelDuration_append, ih]
  | createChannel w target pid kc kt kv ty ch w1 _ hrun ih =>
    obtain ⟨_, _, _, _, _, hw⟩ := createChannel_ok hrun
    rw [hw, Animation.addChannel_duration, Animation.addChannel_channels,
      maxChannelDuration_append, ih]
  | createChannelInOut w target pid kc kt kv kin kout ty ch w1 _ hrun ih =>
    obtain ⟨_, _, _, _, _, hw⟩ := createChannelInOut_ok hrun
    rw [hw, Animation.addChannel_duration, Animation.addChannel_channels,
      maxChannelDuration_append, ih]


theorem sample_createChannel :
    createChannel sampleIds (World.fresh "walk") sampleTarget 0 2 [0, 1000] [0, 10] 1
      = .ok (sampleChannel, sampleWorld) := by
  rfl


theorem createChannel_spec (ids : TransformIds) (w : World) (target : AnimationTarget)
    (pid : Int) (kc : Nat) (kt : List Nat) (kv : List ℚ) (ty : Nat) (first last : Nat)
    (hlen : kt.length = kc) (hkc : 2 ≤ kc)
    (hcc : 0 < target.getAnimationPropertyComponentCount pid)
    (hkv : kv.length = kc * target.getAnimationPropertyComponentCount pid)
    (hsmall : kc * target.getAnimationPropertyComponentCount pid < UINT_RANGE)
    (hfirst : kt[0]? = some first) (hlast : kt[kc - 1]? = some last) :
    ∃ curve3 : Curve,
      createChannel ids w target pid kc kt kv ty
        = .ok ({ addr := w.nextAddr, _target := target.addr, _propertyId := pid,
                 _curve := curve3, _duration := ulongSub last first },
               addChannel
                 { w with nextAddr := w.nextAddr + 1,
                          calls := w.calls ++ [ExternalCall.addRef,
                            ExternalCall.targetAddChannel target.addr w.nextAddr] }
                 { addr := w.nextAddr, _target := target.addr, _propertyId := pid,
                   _curve := curve3, _duration := ulongSub last first }) ∧
      curve3._pointCount = kc ∧
      curve3._componentCount = target.getAnimationPropertyComponentCount pid ∧
      curve3._points.length = kc ∧
      curve3._points[0]? = some (some
        { time := 0,
          value := (kv.drop 0).take (target.getAnimationPropertyComponentCount pid),
          type := ty, inValue := none, outValue := none }) ∧
      curve3._points[kc - 1]? = some (some
        { time := 1,
          value := (kv.drop ((kc - 1) * target.getAnimationPropertyComponentCount pid)).take
            (target.getAnimationPropertyComponentCount pid),
          type := ty, inValue := none, outValue := none }) ∧
      (∀ j t, 0 < j → j < kc - 1 → kt[j]? = some t →
        curve3._points[j]? = some (some
          { time := floatDiv (floatOfULong (ulongSub t first))
              (floatOfULong (ulongSub last first)),
            value := (kv.drop (j * target.getAnimationPropertyComponentCount pid)).take
              (target.getAnimationPropertyComponentCount pid),
            type := ty, inValue := none, outValue := none })) := by
  obtain ⟨curve0, hc0, hp0, hcomp0, hlen0⟩ : ∃ c : Curve,
      c = (if target._targetType = TargetType.TRANSFORM then
            setTransformRotationOffset ids
              { _pointCount := kc,
                _componentCount := target.getAnimationPropertyComponentCount pid,
                _quaternionOffset := none, _points := List.replicate kc none,
                _setLog := [] } (intToUInt pid)
          else
            { _pointCount := kc,
              _componentCount := target.getAnimationPropertyComponentCount pid,
              _quaternionOffset := none, _points := List.replicate kc none,
                _setLog := [] }) ∧
      c._pointCount = kc ∧
      c._componentCount = target.getAnimationPropertyComponentCount pid ∧
      c._points.length = kc := by
    refine ⟨_, rfl, ?_, ?_, ?_⟩ <;>
      (unfold setTransformRotationOffset Curve.setQuaternionOffset
       split_ifs <;> simp)
  obtain ⟨curve3, hfill, h1, h2, _, h4, h5, h6, h7⟩ :=
    createChannelFill_spec curve0 (target.getAnimationPropertyComponentCount pid) kc kt kv ty
      first last hlen hkc hkv hsmall hcc hp0 hcomp0 hlen0 hfirst hlast
  refine ⟨curve3, ?_, h1, h2, h4, h5, h6, h7⟩
  unfold createChannel
  simp only [gt_iff_lt, hcc, if_true, Curve.create, hkc, Except.ok_bind_eq, ← hc0, hfill,
    Channel.create, ne_eq, (Nat.pos_iff_ne_zero.mp hcc), not_false_eq_true]

theorem createChannelInOut_spec (ids : TransformIds) (w : World) (target : AnimationTarget)
    (pid : Int) (kc : Nat) (kt : List Nat) (kv kin kout : List ℚ) (ty : Nat) (first last : Nat)
    (hlen : kt.length = kc) (hkc : 2 ≤ kc)
    (hcc : 0 < target.getAnimationPropertyComponentCount pid)
    (hkv : kv.length = kc * target.getAnimationPropertyComponentCount pid)
    (hkin : kin.length = kc * target.getAnimationPropertyComponentCount pid)
    (hkout : kout.length = kc * target.getAnimationPropertyComponentCount pid)
    (hsmall : kc * target.getAnimationPropertyComponentCount pid < UINT_RANGE)
    (hfirst : kt[0]? = some first) (hlast : kt[kc - 1]? = some last) :
    ∃ curve3 : Curve,
      createChannelInOut ids w target pid kc kt kv kin kout ty
        = .ok ({ addr := w.nextAddr, _target := target.addr, _propertyId := pid,
                 _curve := curve3, _duration := ulongSub last first },
               addChannel
                 { w with nextAddr := w.nextAddr + 1,
                          calls := w.calls ++ [ExternalCall.addRef,
                            ExternalCall.targetAddChannel target.addr w.nextAddr] }
                 { addr := w.nextAddr, _target := target.addr, _propertyId := pid,
                   _curve := curve3, _duration := ulongSub last first }) ∧
      curve3._pointCount = kc ∧
      curve3._componentCount = target.getAnimationPropertyComponentCount pid ∧
      curve3._points.length = kc ∧
      curve3._points[0]? = some (some
        { time := 0,
          value := (kv.drop 0).take (target.getAnimationPropertyComponentCount pid),
          type := ty,
          inValue := some ((kin.drop 0).take (target.getAnimationPropertyComponentCount pid)),
          outValue := some ((kout.drop 0).take (target.getAnimationPropertyComponentCount pid)) }) ∧
      curve3._points[kc - 1]? = some (some
        { time := 1,
          value := (kv.drop ((kc - 1) * target.getAnimationPropertyComponentCount pid)).take
            (target.getAnimationPropertyComponentCount pid),
          type := ty,
          inValue := some
            ((kin.drop ((kc - 1) * target.getAnimationPropertyComponentCount pid)).take
              (target.getAnimationPropertyComponentCount pid)),
          outValue := some
            ((kout.drop ((kc - 1) * target.getAnimationPropertyComponentCount pid)).take
              (target.getAnimationPropertyComponentCount pid)) }) ∧
      (∀ j t, 0 < j → j < kc - 1 → kt[j]? = some t →
        curve3._points[j]? = some (some
          { time := floatDiv (floatOfULong (ulongSub t first))
              (floatOfULong (ulongSub last first)),
            value := (kv.drop (j * target.getAnimationPropertyComponentCount pid)).take
              (target.getAnimationPropertyComponentCount pid),
            type := ty,
            inValue := some
              ((kin.drop (j * target.getAnimationPropertyComponentCount pid)).take
                (target.getAnimationPropertyComponentCount pid)),
            outValue := some
              ((kout.drop (j * target.getAnimationPropertyComponentCount pid)).take
                (target.getAnimationPropertyComponentCount pid)) })) := by
  obtain ⟨curve0, hc0, hp0, hcomp0, hlen0⟩ : ∃ c : Curve,
      c = (if target._targetType = TargetType.TRANSFORM then
            setTransformRotationOffset ids
              { _pointCount := kc,
                _componentCount := target.getAnimationPropertyComponentCount pid,
                _quaternionOffset := none, _points := List.replicate kc none,
                _setLog := [] } (intToUInt pid)
          else
            { _pointCount := kc,
              _componentCount := target.getAnimationPropertyComponentCount pid,
              _quaternionOffset := none, _points := List.replicate kc none,
                _setLog := [] }) ∧
      c._pointCount = kc ∧
      c._componentCount = target.getAnimationPropertyComponentCount pid ∧
      c._points.length = kc := by
    refine ⟨_, rfl, ?_, ?_, ?_⟩ <;>
      (unfold setTransformRotationOffset Curve.setQuaternionOffset
       split_ifs <;> simp)
  obtain ⟨curve3, hfill, h1, h2, _, h4, h5, h6, h7⟩ :=
    createChannelInOutFill_spec curve0 (target.getAnimationPropertyComponentCount pid) kc kt kv
      kin kout ty first last hlen hkc hkv hkin hkout hsmall hcc hp0 hcomp0 hlen0 hfirst hlast
  refine ⟨curve3, ?_, h1, h2, h4, h5, h6, h7⟩
  unfold createChannelInOut
  simp only [gt_iff_lt, hcc, if_true, Curve.create, hkc, Except.ok_bind_eq, ← hc0, hfill,
    Channel.create, ne_eq, (Nat.pos_iff_ne_zero.mp hcc), not_false_eq_true]

theorem Curve.pointTime_of_point {c : Curve} {i : Nat} {p : CurvePoint}
    (h : c._points[i]? = some (some p)) : c.pointTime i = some p.time := by
  simp [Curve.pointTime, h]

theorem getElem?_first_last {kt : List Nat} {kc : Nat} (hlen : kt.length = kc) (hkc : 2 ≤ kc) :
    ∃ first last, kt[0]? = some first ∧ kt[kc - 1]? = some last :=
  ⟨kt.get ⟨0, by omega⟩, kt.get ⟨kc - 1, by omega⟩,
    List.getElem?_eq_getElem (by omega), List.getElem?_eq_getElem (by omega)⟩


theorem roundHalfEven_of_lt_half (f : ℤ) (x : ℚ) (h1 : (f : ℚ) ≤ x) (h2 : x < f + 1 / 2) :
    roundHalfEven x = f := by
  have hf : ⌊x⌋ = f := by
    rw [Int.floor_eq_iff]
    constructor
    · exact h1
    · linarith
  unfold roundHalfEven
  rw [hf, if_pos (by linarith)]

theorem log_two_eq {q : ℚ} {e : ℤ} (hq : 0 < q) (h1 : (2 : ℚ) ^ e ≤ q)
    (h2 : q < (2 : ℚ) ^ (e + 1)) : Int.log 2 q = e := by
  have a : e ≤ Int.log 2 q := by
    rw [← Int.zpow_le_iff_le_log (by norm_num) hq]
    simpa using h1
  have b : Int.log 2 q < e + 1 := by
    rw [← Int.lt_zpow_iff_log_lt (by norm_num) hq]
    simpa using h2
  omega

/-- Evaluation of `roundPos` from the binade and the rounded significand. -/
theorem roundPos_eq {q : ℚ} {e m : ℤ} (hq : 0 < q) (h1 : (2 : ℚ) ^ e ≤ q)
    (h2 : q < (2 : ℚ) ^ (e + 1)) (hm : roundHalfEven (q * (2 : ℚ) ^ (23 - e)) = m) :
    roundPos q = (m : ℚ) * (2 : ℚ) ^ (e - 23) := by
  unfold roundPos
  rw [log_two_eq hq h1 h2, hm]

/-- A number with a 24-bit significand is its own rounding. -/
theorem roundPos_exact (m e : ℤ) (hm1 : (2 : ℤ) ^ 23 ≤ m) (hm2 : m < (2 : ℤ) ^ 24) :
    roundPos ((m : ℚ) * (2 : ℚ) ^ (e - 23)) = (m : ℚ) * (2 : ℚ) ^ (e - 23) := by
  have h2 : (2 : ℚ) ≠ 0 := by norm_num
  have hpos : (0 : ℚ) < (2 : ℚ) ^ (e - 23) := zpow_pos (by norm_num) _
  have hm1q : ((2 : ℚ) ^ (23 : ℤ)) ≤ (m : ℚ) := by
    have : (((2 : ℤ) ^ 23 : ℤ) : ℚ) ≤ (m : ℚ) := by exact_mod_cast hm1
    calc ((2 : ℚ) ^ (23 : ℤ)) = (((2 : ℤ) ^ 23 : ℤ) : ℚ) := by norm_num
      _ ≤ _ := this
  have hm2q : (m : ℚ) < ((2 : ℚ) ^ (24 : ℤ)) := by
    have : (m : ℚ) < (((2 : ℤ) ^ 24 : ℤ) : ℚ) := by exact_mod_cast hm2
    calc (m : ℚ) < (((2 : ℤ) ^ 24 : ℤ) : ℚ) := this
      _ = ((2 : ℚ) ^ (24 : ℤ)) := by norm_num
  have hmpos : (0 : ℚ) < m := lt_of_lt_of_le (zpow_pos (by norm_num) _) hm1q
  apply roundPos_eq (mul_pos hmpos hpos)
  · calc (2 : ℚ) ^ e = (2 : ℚ) ^ (23 : ℤ) * (2 : ℚ) ^ (e - 23) := by
          rw [← zpow_add₀ h2]; congr 1; ring
      _ ≤ _ := mul_le_mul_of_nonneg_right hm1q hpos.le
  · calc (m : ℚ) * (2 : ℚ) ^ (e - 23) < (2 : ℚ) ^ (24 : ℤ) * (2 : ℚ) ^ (e - 23) :=
          mul_lt_mul_of_pos_right hm2q hpos
      _ = (2 : ℚ) ^ (e + 1) := by rw [← zpow_add₀ h2]; congr 1; ring
  · have : (m : ℚ) * (2 : ℚ) ^ (e - 23) * (2 : ℚ) ^ (23 - e) = (m : ℚ) := by
      rw [mul_assoc, ← zpow_add₀ h2]
      simp
    rw [this, roundHalfEven_intCast]

/-- Unsigned integers below `2^24` convert to `float` exactly. -/
theorem floatOfULong_exact {n : Nat} (h : n < 2 ^ 24) : floatOfULong n = (n : ℚ) := by
  unfold floatOfULong
  rcases Nat.eq_zero_or_pos n with h0 | hpos
  · subst h0; simp [roundFloat]
  · have hq : (0 : ℚ) < (n : ℚ) := by exact_mod_cast hpos
    rw [roundFloat_of_pos hq]
    have h2 : (2 : ℚ) ≠ 0 := by norm_num
    have hlog : Int.log 2 (n : ℚ) = (Nat.log 2 n : ℤ) := Int.log_natCast 2 n
    have hk : Nat.log 2 n < 24 := Nat.log_lt_of_lt_pow hpos.ne' h
    have hlow : 2 ^ Nat.log 2 n ≤ n := Nat.pow_log_le_self 2 hpos.ne'
    have hup : n < 2 ^ (Nat.log 2 n + 1) := Nat.lt_pow_succ_log_self (by norm_num) n
    have hexp : (2 : ℚ) ^ ((23 : ℤ) - (Nat.log 2 n : ℤ)) = ((2 ^ (23 - Nat.log 2 n) : ℕ) : ℚ) := by
      rw [show ((23 : ℤ) - (Nat.log 2 n : ℤ)) = ((23 - Nat.log 2 n : ℕ) : ℤ) by omega,
        zpow_natCast]
      push_cast
      rfl
    unfold roundPos
    rw [hlog, hexp]
    have hint : (n : ℚ) * ((2 ^ (23 - Nat.log 2 n) : ℕ) : ℚ)
        = (((n * 2 ^ (23 - Nat.log 2 n) : ℕ) : ℤ) : ℚ) := by push_cast; ring
    rw [hint, roundHalfEven_intCast]
    push_cast
    rw [mul_assoc, ← zpow_natCast, ← zpow_add₀ h2]
    have : ((23 - Nat.log 2 n : ℕ) : ℤ) + ((Nat.log 2 n : ℤ) - 23) = 0 := by omega
    rw [this]
    simp

/-- Below 1, rounding moves a number by at most half a unit in the last place
of the binade `[1/2, 1)`, that is by at most `2^-25`. -/
theorem roundFloat_error_of_lt_one {q : ℚ} (h0 : 0 < q) (h1 : q < 1) :
    |roundFloat q - q| ≤ 1 / 2 ^ 25 := by
  have h2 : (2 : ℚ) ≠ 0 := by norm_num
  rw [roundFloat_of_pos h0]
  have hlog : Int.log 2 q < 0 := by
    rw [← Int.lt_zpow_iff_log_lt (by norm_num) h0]
    simpa using h1
  have hpos : (0 : ℚ) < (2 : ℚ) ^ (Int.log 2 q - 23) := zpow_pos (by norm_num) _
  have hsplit : q = (q * (2 : ℚ) ^ (23 - Int.log 2 q)) * (2 : ℚ) ^ (Int.log 2 q - 23) := by
    rw [mul_assoc, ← zpow_add₀ h2]
    simp
  have herr := roundHalfEven_error (q * (2 : ℚ) ^ (23 - Int.log 2 q))
  have hscale : (2 : ℚ) ^ (Int.log 2 q - 23) ≤ 1 / 2 ^ 24 := by
    calc (2 : ℚ) ^ (Int.log 2 q - 23) ≤ (2 : ℚ) ^ (-24 : ℤ) :=
          zpow_le_zpow_right₀ (by norm_num) (by omega)
      _ = 1 / 2 ^ 24 := by norm_num
  unfold roundPos
  calc |(roundHalfEven (q * (2 : ℚ) ^ (23 - Int.log 2 q)) : ℚ) * (2 : ℚ) ^ (Int.log 2 q - 23) - q|
      = |(roundHalfEven (q * (2 : ℚ) ^ (23 - Int.log 2 q)) : ℚ)
          - q * (2 : ℚ) ^ (23 - Int.log 2 q)| * (2 : ℚ) ^ (Int.log 2 q - 23) := by
        rw [← abs_of_pos hpos, ← abs_mul, abs_of_pos hpos, sub_mul, ← hsplit]
    _ ≤ 1 / 2 * (1 / 2 ^ 24) := mul_le_mul herr hscale hpos.le (by norm_num)
    _ = 1 / 2 ^ 25 := by norm_num

theorem floatOfULong_mono {x y : Nat} (h : x ≤ y) : floatOfULong x ≤ floatOfULong y :=
  roundFloat_mono (Nat.cast_nonneg x) (by exact_mod_cast h)

theorem one_le_floatOfULong {d : Nat} (h : 0 < d) : 1 ≤ floatOfULong d := by
  have := floatOfULong_mono (Nat.succ_le_of_lt h)
  unfold floatOfULong at this ⊢
  simpa [roundFloat_one] using this

theorem floatOfULong_nonneg (x : Nat) : 0 ≤ floatOfULong x :=
  roundFloat_nonneg (Nat.cast_nonneg x)

theorem normalized_mono {x y d : Nat} (hd : 0 < d) (h : x ≤ y) :
    floatDiv (floatOfULong x) (floatOfULong d) ≤ floatDiv (floatOfULong y) (floatOfULong d) := by
  have hpos : (0 : ℚ) < floatOfULong d := lt_of_lt_of_le one_pos (one_le_floatOfULong hd)
  unfold floatDiv
  apply roundFloat_mono (div_nonneg (floatOfULong_nonneg x) hpos.le)
  exact div_le_div_of_nonneg_right (floatOfULong_mono h) hpos.le

theorem normalized_zero (d : Nat) : floatDiv (floatOfULong 0) (floatOfULong d) = 0 := by
  simp [floatDiv, floatOfULong, roundFloat]

theorem normalized_self {d : Nat} (hd : 0 < d) :
    floatDiv (floatOfULong d) (floatOfULong d) = 1 := by
  have hpos : (0 : ℚ) < floatOfULong d := lt_of_lt_of_le one_pos (one_le_floatOfULong hd)
  unfold floatDiv
  rw [div_self hpos.ne', roundFloat_one]

/-- With a duration below `2^24` distinct key times get distinct normalized times. -/
theorem normalized_strictMono {x y d : Nat} (hd : d < 2 ^ 24) (hxy : x < y) (hyd : y ≤ d) :
    floatDiv (floatOfULong x) (floatOfULong d) < floatDiv (floatOfULong y) (floatOfULong d) := by
  have hdpos : 0 < d := by omega
  have hdq : (0 : ℚ) < (d : ℚ) := by exact_mod_cast hdpos
  have hd24 : (d : ℚ) < 2 ^ 24 := by exact_mod_cast hd
  have hgap : (1 : ℚ) / 2 ^ 24 < 1 / (d : ℚ) := one_div_lt_one_div_of_lt hdq hd24
  have hxyq : (x : ℚ) + 1 ≤ (y : ℚ) := by exact_mod_cast hxy
  have hstep : (x : ℚ) / d + 1 / d ≤ (y : ℚ) / d := by
    rw [← add_div]; exact div_le_div_of_nonneg_right hxyq hdq.le
  rw [floatOfULong_exact (by omega : x < 2 ^ 24), floatOfULong_exact (by omega : y < 2 ^ 24),
    floatOfULong_exact hd]
  unfold floatDiv
  have hypos : (0 : ℚ) < (y : ℚ) / d := div_pos (by exact_mod_cast (by omega : 0 < y)) hdq
  -- the larger quotient, from below
  have hy : (y : ℚ) / d - 1 / 2 ^ 25 ≤ roundFloat ((y : ℚ) / d) ∨ roundFloat ((y : ℚ) / d) = 1 ∧
      (y : ℚ) / d = 1 := by
    rcases lt_or_eq_of_le hyd with hlt | heq
    · left
      have hlt1 : (y : ℚ) / d < 1 := by
        rw [div_lt_one hdq]; exact_mod_cast hlt
      have := (abs_le.mp (roundFloat_error_of_lt_one hypos hlt1)).1
      linarith
    · right
      subst heq
      rw [div_self hdq.ne']
      exact ⟨roundFloat_one, rfl⟩
  rcases Nat.eq_zero_or_pos x with hx0 | hxpos
  · subst hx0
    simp only [Nat.cast_zero, zero_div, roundFloat_zero]
    rw [roundFloat_of_pos hypos]
    exact roundPos_pos hypos
  · have hxq : (0 : ℚ) < (x : ℚ) / d := div_pos (by exact_mod_cast hxpos) hdq
    have hx1 : (x : ℚ) / d < 1 := by
      rw [div_lt_one hdq]; exact_mod_cast (by omega : x < d)
    have hxerr := (abs_le.mp (roundFloat_error_of_lt_one hxq hx1)).2
    have h25 : (1 : ℚ) / 2 ^ 25 + 1 / 2 ^ 25 = 1 / 2 ^ 24 := by norm_num
    rcases hy with hy | ⟨hy1, hy2⟩
    · linarith
    · rw [hy1]
      have : (x : ℚ) / d + 1 / d ≤ 1 := hstep.trans hy2.le
      have : (0 : ℚ) < 1 / 2 ^ 25 := by norm_num
      linarith

/-- In a strictly increasing array of `unsigned long` values, subtracting the first
element from a later one does not wrap, and later elements are larger. -/
theorem keyTimes_facts {kt : List Nat} (hinc : kt.Pairwise (· < ·))
    (hbound : ∀ t ∈ kt, t < ULONG_RANGE) {i j : Nat} {ti tj : Nat}
    (hi : kt[i]? = some ti) (hj : kt[j]? = some tj) :
    (i ≤ j → ti ≤ tj) ∧ (i < j → ti < tj) ∧ (i ≤ j → ulongSub tj ti = tj - ti) := by
  obtain ⟨hil, rfl⟩ := List.getElem?_eq_some_iff.mp hi
  obtain ⟨hjl, rfl⟩ := List.getElem?_eq_some_iff.mp hj
  have hlt : i < j → kt[i] < kt[j] := fun h => List.pairwise_iff_getElem.mp hinc i j hil hjl h
  have hle : i ≤ j → kt[i] ≤ kt[j] := by
    intro h
    rcases lt_or_eq_of_le h with h | h
    · exact (hlt h).le
    · subst h; exact le_refl _
  exact ⟨hle, hlt, fun h => ulongSub_eq (hle h) (hbound _ (List.getElem_mem hjl))⟩

theorem floatOfULong_33554432 : floatOfULong 33554432 = 33554432 := by
  unfold floatOfULong
  rw [roundFloat_of_pos (by norm_num)]
  rw [roundPos_eq (e := 25) (m := 8388608) (by norm_num) (by norm_num) (by norm_num)
    (roundHalfEven_of_lt_half _ _ (by norm_num) (by norm_num))]
  norm_num

theorem floatOfULong_33554433 : floatOfULong 33554433 = 33554432 := by
  unfold floatOfULong
  rw [roundFloat_of_pos (by norm_num)]
  rw [roundPos_eq (e := 25) (m := 8388608) (by norm_num) (by norm_num) (by norm_num)
    (roundHalfEven_of_lt_half _ _ (by norm_num) (by norm_num))]
  norm_num

theorem floatOfULong_67108864 : floatOfULong 67108864 = 67108864 := by
  unfold floatOfULong
  rw [roundFloat_of_pos (by norm_num)]
  rw [roundPos_eq (e := 26) (m := 8388608) (by norm_num) (by norm_num) (by norm_num)
    (roundHalfEven_of_lt_half _ _ (by norm_num) (by norm_num))]
  norm_num

theorem floatDiv_half : floatDiv 33554432 67108864 = 1 / 2 := by
  unfold floatDiv
  rw [roundFloat_of_pos (by norm_num)]
  rw [roundPos_eq (e := -1) (m := 8388608) (by norm_num) (by norm_num) (by norm_num)
    (roundHalfEven_of_lt_half _ _ (by norm_num) (by norm_num))]
  norm_num

theorem removeChannelLoop_single (channel c : Channel) (h : c.addr = channel.addr) :
    removeChannelLoop channel [c] = [] := by
  simp [removeChannelLoop, h]

theorem findClipLoop_eq_find (clips : List AnimationClip) (id : String) :
    ∀ (n i : Nat), i + n = clips.length →
      findClipLoop clips id n i = (clips.drop i).find? (fun c => decide (c._id = id)) := by
  intro n
  induction n with
  | zero =>
    intro i hi
    have : clips.drop i = [] := List.drop_eq_nil_of_le (by omega)
    simp [findClipLoop, this]
  | succ n ih =>
    intro i hi
    have hlt : i < clips.length := by omega
    rw [findClipLoop, List.getElem?_eq_getElem hlt]
    simp only
    rw [List.drop_eq_getElem_cons hlt, List.find?_cons]
    by_cases hid : clips[i]._id = id
    · simp [hid]
    · simp only [hid, if_false, decide_False]
      exact ih (i + 1) (by omega)

theorem findClip_eq_find (a : Animation) (id : String)
    (hsize : a.explicitClips.length < UINT_RANGE) :
    findClip a id = a.explicitClips.find? (fun c => decide (c._id = id)) := by
  unfold findClip Animation.explicitClips at *
  cases h : a._clips with
  | none => simp
  | some clips =>
    simp only [h] at hsize
    simp only
    rw [Nat.mod_eq_of_lt hsize, findClipLoop_eq_find clips id _ 0 (by omega)]
    simp

/-- The loop never returns a clip that is not in the collection or has another id. -/
theorem findClipLoop_some {clips : List AnimationClip} {id : String} {c : AnimationClip} :
    ∀ (n i : Nat), findClipLoop clips id n i = some c → c ∈ clips ∧ c._id = id := by
  intro n
  induction n with
  | zero => intro i h; simp [findClipLoop] at h
  | succ n ih =>
    intro i h
    rw [findClipLoop] at h
    split at h
    · rename_i clip hc
      split at h
      · rename_i hid
        cases h
        exact ⟨List.getElem?_mem hc, hid⟩
      · exact ih _ h
    · cases h

theorem findClip_some {a : Animation} {id : String} {c : AnimationClip}
    (h : findClip a id = some c) : c ∈ a.explicitClips ∧ c._id = id := by
  unfold findClip at h
  unfold Animation.explicitClips
  cases hc : a._clips with
  | none => rw [hc] at h; cases h
  | some clips =>
    rw [hc] at h
    exact findClipLoop_some _ _ h

/-- When no clip of the collection has the id, the loop finds nothing. -/
theorem findClipLoop_none {clips : List AnimationClip} {id : String}
    (hno : ∀ c ∈ clips, c._id ≠ id) : ∀ (n i : Nat), findClipLoop clips id n i = none := by
  intro n
  induction n with
  | zero => intro i; rfl
  | succ n ih =>
    intro i
    rw [findClipLoop]
    split
    · rename_i clip hc
      rw [if_neg (hno clip (List.getElem?_mem hc))]
      exact ih _
    · rfl

theorem findClip_none {a : Animation} {id : String}
    (hno : ∀ c ∈ a.explicitClips, c._id ≠ id) : findClip a id = none := by
  unfold findClip
  unfold Animation.explicitClips at hno
  cases hc : a._clips with
  | none => rfl
  | some clips =>
    rw [hc] at hno
    exact findClipLoop_none hno _ _

theorem Animation.storeClip_default (a : Animation) (c : AnimationClip) :
    (a.storeClip c)._defaultClip
      = a._defaultClip.map (fun d => if d.addr = c.addr then c else d) := rfl

theorem Animation.storeClip_explicitClips (a : Animation) (c : AnimationClip) :
    (a.storeClip c).explicitClips
      = a.explicitClips.map (fun x => if x.addr = c.addr then c else x) := by
  unfold Animation.storeClip Animation.explicitClips
  cases a._clips <;> simp

theorem Animation.storeClip_duration (a : Animation) (c : AnimationClip) :
    (a.storeClip c)._duration = a._duration := rfl

theorem Animation.storeClip_channels (a : Animation) (c : AnimationClip) :
    (a.storeClip c)._channels = a._channels := rfl

theorem ident_addr (c : AnimationClip) : c.ident.1 = c.addr := rfl

theorem ident_eq_iff (c d : AnimationClip) :
    c.ident = d.ident ↔
      c.addr = d.addr ∧ c._id = d._id ∧ c._startTime = d._startTime ∧ c._endTime = d._endTime := by
  simp [AnimationClip.ident, Prod.ext_iff]

/-- Two clips of the collection with the same address are the same clip. -/
theorem eq_of_addr_eq {l : List AnimationClip}
    (hnodup : (l.map AnimationClip.ident |>.map (fun i => i.1)).Nodup)
    {x y : AnimationClip} (hx : x ∈ l) (hy : y ∈ l) (h : x.addr = y.addr) : x = y := by
  have hn : (l.map (fun c => c.addr)).Nodup := by
    simpa [List.map_map, Function.comp, AnimationClip.ident] using hnodup
  exact List.inj_on_of_nodup_map hn hx hy h

/-- Storing new contents with the same identity for a clip of the Animation
leaves the identities of all its clips unchanged. -/
theorem storeClip_idents {w : World} (hinv : ClipInvariant w) {clip c : AnimationClip}
    (hident : c.ident = clip.ident)
    (hmem : w.animation._defaultClip = some clip ∨ clip ∈ w.animation.explicitClips) :
    (w.animation.storeClip c)._defaultClip.map AnimationClip.ident
        = w.animation._defaultClip.map AnimationClip.ident ∧
    (w.animation.storeClip c).explicitClips.map AnimationClip.ident
        = w.animation.explicitClips.map AnimationClip.ident := by
  have haddr : c.addr = clip.addr := ((ident_eq_iff c clip).mp hident).1
  constructor
  · rw [Animation.storeClip_default]
    cases hd : w.animation._defaultClip with
    | none => rfl
    | some d =>
      simp only [Option.map_some']
      congr 1
      split
      · rename_i hda
        rcases hmem with h | h
        · rw [hd] at h
          cases h
          exact hident
        · exfalso
          have := hinv.default_not_explicit d.ident (by rw [hd]; rfl) clip.ident
            (List.mem_map_of_mem _ h)
          exact this (by rw [ident_addr, ident_addr, hda, haddr])
      · rfl
  · rw [Animation.storeClip_explicitClips, List.map_map]
    apply List.map_congr_left
    intro x hx
    simp only [Function.comp]
    split
    · rename_i hxa
      rcases hmem with h | h
      · exfalso
        have := hinv.default_not_explicit clip.ident (by rw [h]; rfl) x.ident
          (List.mem_map_of_mem _ hx)
        exact this (by rw [ident_addr, ident_addr, hxa, haddr])
      · have : x = clip := eq_of_addr_eq hinv.explicit_nodup hx h (by rw [hxa, haddr])
        rw [this]; exact hident
    · rfl

theorem play_ident (c : AnimationClip) : (AnimationClip.play c).1.ident = c.ident := by
  unfold AnimationClip.play
  split <;> rfl

theorem pause_ident (c : AnimationClip) : (AnimationClip.pause c).1.ident = c.ident := by
  unfold AnimationClip.pause
  split <;> rfl

theorem stop_ident (c : AnimationClip) : (AnimationClip.stop c).1.ident = c.ident := rfl

theorem setRepeatCount_ident (c : AnimationClip) (r : ℚ) :
    (c.setRepeatCount r).ident = c.ident := rfl

theorem setSpeed_ident (c : AnimationClip) (r : ℚ) : (c.setSpeed r).ident = c.ident := rfl

/-- A clip method called on a clip of the Animation has the effect `same`. -/
theorem callClip_effect {w : World} (hinv : ClipInvariant w)
    (method : AnimationClip → AnimationClip × List ExternalCall)
    (hm : ∀ c, (method c).1.ident = c.ident) {clip : AnimationClip}
    (hmem : w.animation._defaultClip = some clip ∨ clip ∈ w.animation.explicitClips) :
    ClipEffect w (w.callClip method clip) := by
  obtain ⟨h1, h2⟩ := storeClip_idents hinv (hm clip) hmem
  exact ClipEffect.same h1 h2 (le_refl _) (le_refl _)

theorem createClip_explicitClips (w : World) (id : String) (s e : Nat) :
    (createClip w id s e).2.animation.explicitClips
      = w.animation.explicitClips ++ [AnimationClip.create w.nextAddr id s e] := by
  unfold createClip addClip Animation.explicitClips
  cases h : w.animation._clips <;> simp [h]

theorem createClip_frame (w : World) (id : String) (s e : Nat) :
    (createClip w id s e).1 = AnimationClip.create w.nextAddr id s e ∧
    (createClip w id s e).2.animation._defaultClip = w.animation._defaultClip ∧
    (createClip w id s e).2.animation._duration = w.animation._duration ∧
    (createClip w id s e).2.animation._channels = w.animation._channels ∧
    (createClip w id s e).2.nextAddr = w.nextAddr + 1 ∧
    (createClip w id s e).2.calls = w.calls := by
  unfold createClip addClip
  cases h : w.animation._clips <;> simp [h]

theorem createClip_effect (w : World) (id : String) (s e : Nat) :
    ClipEffect w (createClip w id s e).2 := by
  obtain ⟨_, h2, h3, _, h5, _⟩ := createClip_frame w id s e
  refine ClipEffect.appended [(w.nextAddr, id, s, e)] (by rw [h2]) ?_ rfl (by simpa using h5) h3
  rw [createClip_explicitClips]
  simp [AnimationClip.ident, AnimationClip.create]

theorem createDefaultClip_effect (w : World) (hnone : w.animation._defaultClip = none) :
    ClipEffect w (createDefaultClip w) :=
  ClipEffect.newDefault hnone rfl rfl rfl rfl

/-- Each effect preserves the clip invariant. -/
theorem ClipEffect.preserves {w w1 : World} (heff : ClipEffect w w1) (hinv : ClipInvariant w) :
    ClipInvariant w1 := by
  unfold ClipInvariant at hinv ⊢
  cases heff with
  | same hd he hn hdur =>
    rw [hd, he]
    exact {
      default_fresh := fun i hi => lt_of_lt_of_le (hinv.default_fresh i hi) hn
      default_span := fun i hi =>
        ⟨(hinv.default_span i hi).1, (hinv.default_span i hi).2.1,
          le_trans (hinv.default_span i hi).2.2 hdur⟩
      explicit_fresh := fun i hi => lt_of_lt_of_le (hinv.explicit_fresh i hi) hn
      explicit_nodup := hinv.explicit_nodup
      default_not_explicit := hinv.default_not_explicit }
  | newDefault hnone hd he hn hdur =>
    rw [hd, he, hn, hdur]
    exact {
      default_fresh := fun i hi => by cases hi; exact Nat.lt_succ_self _
      default_span := fun i hi => by cases hi; exact ⟨rfl, rfl, le_refl _⟩
      explicit_fresh := fun i hi => Nat.lt_succ_of_lt (hinv.explicit_fresh i hi)
      explicit_nodup := hinv.explicit_nodup
      default_not_explicit := fun i hi j hj => by
        cases hi
        exact (hinv.explicit_fresh j hj).ne }
  | appended new hd he haddr hn hdur =>
    rw [hd, he, hn, hdur]
    have hnew : ∀ j ∈ new, w.nextAddr ≤ j.1 ∧ j.1 < w.nextAddr + new.length := by
      intro j hj
      have : j.1 ∈ List.range' w.nextAddr new.length := by
        rw [← haddr]; exact List.mem_map_of_mem _ hj
      rw [List.mem_range'_1] at this
      exact this
    exact {
      default_fresh := fun i hi => Nat.lt_add_right _ (hinv.default_fresh i hi)
      default_span := hinv.default_span
      explicit_fresh := fun i hi => by
        rcases List.mem_append.mp hi with h | h
        · exact Nat.lt_add_right _ (hinv.explicit_fresh i h)
        · exact (hnew i h).2
      explicit_nodup := by
        rw [List.map_append, List.nodup_append]
        refine ⟨hinv.explicit_nodup, by rw [haddr]; exact List.nodup_range' _ _, ?_⟩
        intro a ha hb
        obtain ⟨i, hi, rfl⟩ := List.mem_map.mp ha
        obtain ⟨j, hj, hji⟩ := List.mem_map.mp hb
        have h1 := hinv.explicit_fresh i hi
        have h2 := (hnew j hj).1
        omega
      default_not_explicit := fun i hi j hj => by
        rcases List.mem_append.mp hj with h | h
        · exact hinv.default_not_explicit i hi j h
        · have h1 := hinv.default_fresh i hi
          have h2 := (hnew j h).1
          omega }

theorem storeClip_append_last {a : Animation} {old : List AnimationClip}
    {last c : AnimationClip} (hexpl : a.explicitClips = old ++ [last])
    (hold : ∀ x ∈ old, x.addr ≠ c.addr) (hlast : last.addr = c.addr) :
    (a.storeClip c).explicitClips = old ++ [c] := by
  rw [Animation.storeClip_explicitClips, hexpl, List.map_append]
  congr 1
  · conv_rhs => rw [← List.map_id old]
    apply List.map_congr_left
    intro x hx
    simp [hold x hx]
  · simp [hlast]

theorem storeClip_default_of_ne {a : Animation} {c : AnimationClip}
    (h : ∀ d, a._defaultClip = some d → d.addr ≠ c.addr) :
    (a.storeClip c)._defaultClip = a._defaultClip := by
  rw [Animation.storeClip_default]
  cases hd : a._defaultClip with
  | none => rfl
  | some d => simp [h d hd]

theorem mem_explicit_addr_lt {w : World} (hinv : ClipInvariant w) {x : AnimationClip}
    (hx : x ∈ w.animation.explicitClips) : x.addr < w.nextAddr :=
  hinv.explicit_fresh x.ident (List.mem_map_of_mem _ hx)

theorem default_addr_lt {w : World} (hinv : ClipInvariant w) {d : AnimationClip}
    (hd : w.animation._defaultClip = some d) : d.addr < w.nextAddr :=
  hinv.default_fresh d.ident (by rw [hd]; rfl)

/-- The clip after the setters of the loop body equals the descriptor's clip. -/
theorem createClips_setters (sscanf : String → Option ℚ) (values : ℚ × ℚ)
    (fc dur addr : Nat) (p : Properties) :
    createClipsSpeed sscanf values.2
      (createClipsRepeat sscanf values.1
        (AnimationClip.create addr p._id (frameTime p.begin_ fc dur) (frameTime p.end_ fc dur))
        p.repeatCount) p.speed
      = descriptorClip sscanf values fc dur addr p := by
  unfold descriptorClip createClipsSpeed createClipsRepeat
  cases p.speed <;> cases p.repeatCount <;>
    simp only [AnimationClip.setRepeatCount, AnimationClip.setSpeed, AnimationClip.create,
      ANIMATION_INDEFINITE_STR] <;>
    (try split) <;> rfl

theorem createClipsRepeat_addr (sscanf : String → Option ℚ) (value : ℚ) (c : AnimationClip)
    (r : Option String) : (createClipsRepeat sscanf value c r).addr = c.addr := by
  unfold createClipsRepeat
  cases r with
  | none => rfl
  | some r => simp only; split <;> rfl

theorem createClipsSpeed_addr (sscanf : String → Option ℚ) (value : ℚ) (c : AnimationClip)
    (r : Option String) : (createClipsSpeed sscanf value c r).addr = c.addr := by
  unfold createClipsSpeed
  cases r <;> rfl

/-- One iteration of the loop of `createClips` appends the descriptor's clip and
changes nothing else. -/
theorem createClipsBody_spec (sscanf : String → Option ℚ) (values : ℚ × ℚ) (fc : Nat)
    {w : World} (hinv : ClipInvariant w) (p : Properties) :
    (createClipsBody sscanf values fc w p).animation.explicitClips
      = w.animation.explicitClips
          ++ [descriptorClip sscanf values fc w.animation._duration w.nextAddr p] ∧
    (createClipsBody sscanf values fc w p).animation._defaultClip
      = w.animation._defaultClip ∧
    (createClipsBody sscanf values fc w p).animation._duration = w.animation._duration ∧
    (createClipsBody sscanf values fc w p).animation._channels = w.animation._channels ∧
    (createClipsBody sscanf values fc w p).nextAddr = w.nextAddr + 1 ∧
    (createClipsBody sscanf values fc w p).calls = w.calls := by
  obtain ⟨f1, f2, f3, f4, f5, f6⟩ := createClip_frame w p._id
    (frameTime p.begin_ fc w.animation._duration) (frameTime p.end_ fc w.animation._duration)
  have fe := createClip_explicitClips w p._id
    (frameTime p.begin_ fc w.animation._duration) (frameTime p.end_ fc w.animation._duration)
  have hold : ∀ x ∈ w.animation.explicitClips, x.addr ≠ w.nextAddr :=
    fun x hx => (mem_explicit_addr_lt hinv hx).ne
  have hdef : ∀ d, w.animation._defaultClip = some d → d.addr ≠ w.nextAddr :=
    fun d hd => (default_addr_lt hinv hd).ne
  have hsetters := createClips_setters sscanf values fc w.animation._duration w.nextAddr p
  unfold createClipsBody World.storeClip
  simp only
  rw [f1, ← hsetters]
  generalize hc1 : createClipsRepeat sscanf values.1 (AnimationClip.create w.nextAddr p._id
    (frameTime p.begin_ fc w.animation._duration) (frameTime p.end_ fc w.animation._duration))
    p.repeatCount = clip1
  have ha1 : clip1.addr = w.nextAddr := by rw [← hc1, createClipsRepeat_addr]; rfl
  generalize hc2 : createClipsSpeed sscanf values.2 clip1 p.speed = clip2
  have ha2 : clip2.addr = w.nextAddr := by rw [← hc2, createClipsSpeed_addr, ha1]
  have e1 := storeClip_append_last (c := clip1) fe (by rw [ha1]; exact hold) (by rw [ha1]; rfl)
  have e2 := storeClip_append_last (c := clip2) e1 (by rw [ha2]; exact hold) (by rw [ha1, ha2])
  have d1 := storeClip_default_of_ne (a := (createClip w p._id
    (frameTime p.begin_ fc w.animation._duration)
    (frameTime p.end_ fc w.animation._duration)).2.animation) (c := clip1)
    (by rw [f2, ha1]; exact hdef)
  have d2 := storeClip_default_of_ne (a := (createClip w p._id
    (frameTime p.begin_ fc w.animation._duration)
    (frameTime p.end_ fc w.animation._duration)).2.animation.storeClip clip1) (c := clip2)
    (by rw [d1, f2, ha2]; exact hdef)
  refine ⟨e2, ?_, ?_, ?_, f5, f6⟩
  · rw [d2, d1, f2]
  · simp only [Animation.storeClip_duration]; exact f3
  · simp only [Animation.storeClip_channels]; exact f4

theorem descriptorClip_addr (sscanf : String → Option ℚ) (values : ℚ × ℚ)
    (fc dur addr : Nat) (p : Properties) :
    (descriptorClip sscanf values fc dur addr p).addr = addr := rfl

theorem descriptorClips_length (sscanf : String → Option ℚ) (fc dur : Nat) :
    ∀ (ns : List Properties) (uninit : Nat → ℚ × ℚ) (addr : Nat),
      (descriptorClips sscanf fc dur uninit addr ns).length = ns.length := by
  intro ns
  induction ns with
  | nil => intro _ _; rfl
  | cons p rest ih => intro uninit addr; simp [descriptorClips, ih]

theorem descriptorClips_addrs (sscanf : String → Option ℚ) (fc dur : Nat) :
    ∀ (ns : List Properties) (uninit : Nat → ℚ × ℚ) (addr : Nat),
      (descriptorClips sscanf fc dur uninit addr ns).map (fun c => c.addr)
        = List.range' addr ns.length := by
  intro ns
  induction ns with
  | nil => intro _ _; rfl
  | cons p rest ih =>
    intro uninit addr
    simp [descriptorClips, ih, List.range'_succ, descriptorClip_addr]

theorem createClipsBody_effect (sscanf : String → Option ℚ) (values : ℚ × ℚ) (fc : Nat)
    {w : World} (hinv : ClipInvariant w) (p : Properties) :
    ClipEffect w (createClipsBody sscanf values fc w p) := by
  obtain ⟨h1, h2, h3, _, h5, _⟩ := createClipsBody_spec sscanf values fc hinv p
  refine ClipEffect.appended
    [(descriptorClip sscanf values fc w.animation._duration w.nextAddr p).ident]
    (by rw [h2]) (by rw [h1]; simp) ?_ (by simpa using h5) h3
  simp [ident_addr, descriptorClip_addr]

/-- The loop of `createClips` appends, in order, the clips of the leading
namespaces named "clip" and changes nothing else. -/
theorem createClipsLoop_spec (sscanf : String → Option ℚ) (fc : Nat) :
    ∀ (ns : List Properties) (uninit : Nat → ℚ × ℚ) (w : World), ClipInvariant w →
      (createClipsLoop sscanf fc uninit ns w).animation.explicitClips
        = w.animation.explicitClips
            ++ descriptorClips sscanf fc w.animation._duration uninit w.nextAddr
                (ns.takeWhile (fun p => decide (p._namespace = "clip"))) ∧
      (createClipsLoop sscanf fc uninit ns w).animation._defaultClip
        = w.animation._defaultClip ∧
      (createClipsLoop sscanf fc uninit ns w).animation._duration = w.animation._duration ∧
      (createClipsLoop sscanf fc uninit ns w).animation._channels = w.animation._channels ∧
      (createClipsLoop sscanf fc uninit ns w).nextAddr
        = w.nextAddr + (ns.takeWhile (fun p => decide (p._namespace = "clip"))).length ∧
      (createClipsLoop sscanf fc uninit ns w).calls = w.calls := by
  intro ns
  induction ns with
  | nil => intro uninit w _; simp [createClipsLoop, descriptorClips]
  | cons p rest ih =>
    intro uninit w hinv
    by_cases hp : p._namespace = "clip"
    · obtain ⟨b1, b2, b3, b4, b5, b6⟩ := createClipsBody_spec sscanf (uninit 0) fc hinv p
      obtain ⟨i1, i2, i3, i4, i5, i6⟩ :=
        ih (fun k => uninit (k + 1)) (createClipsBody sscanf (uninit 0) fc w p)
          ((createClipsBody_effect sscanf (uninit 0) fc hinv p).preserves hinv)
      simp only [createClipsLoop, hp, if_true, List.takeWhile_cons, decide_True,
        descriptorClips, List.length_cons]
      rw [i1, i2, i3, i4, i5, i6, b1, b2, b3, b4, b5, b6]
      refine ⟨by simp, rfl, rfl, rfl, by omega, rfl⟩
    · simp [createClipsLoop, hp, descriptorClips]

theorem createClipsLoop_effect (sscanf : String → Option ℚ) (fc : Nat)
    (uninit : Nat → ℚ × ℚ) (ns : List Properties) {w : World} (hinv : ClipInvariant w) :
    ClipEffect w (createClipsLoop sscanf fc uninit ns w) := by
  obtain ⟨h1, h2, h3, _, h5, _⟩ := createClipsLoop_spec sscanf fc ns uninit w hinv
  refine ClipEffect.appended
    ((descriptorClips sscanf fc w.animation._duration uninit w.nextAddr
      (ns.takeWhile (fun p => decide (p._namespace = "clip")))).map AnimationClip.ident)
    (by rw [h2]) (by rw [h1]; simp) ?_ (by simpa [descriptorClips_length] using h5) h3
  rw [List.map_map, List.length_map, descriptorClips_length]
  exact descriptorClips_addrs sscanf fc _ _ _ _

theorem Animation.addChannel_default (a : Animation) (ch : Channel) :
    (a.addChannel ch)._defaultClip = a._defaultClip := by
  unfold Animation.addChannel
  split <;> rfl

theorem Animation.addChannel_explicitClips (a : Animation) (ch : Channel) :
    (a.addChannel ch).explicitClips = a.explicitClips := by
  have : (a.addChannel ch)._clips = a._clips := by
    unfold Animation.addChannel
    split <;> rfl
  unfold Animation.explicitClips
  rw [this]

theorem addChannel_effect (w : World) (ch : Channel) : ClipEffect w (addChannel w ch) := by
  refine ClipEffect.same ?_ ?_ (le_refl _) ?_
  · simp only [addChannel]; rw [Animation.addChannel_default]
  · simp only [addChannel]; rw [Animation.addChannel_explicitClips]
  · simp only [addChannel]; rw [Animation.addChannel_duration]; exact le_max_left _ _

theorem removeChannel_effect (w : World) (ch : Channel) : ClipEffect w (removeChannel w ch) := by
  unfold removeChannel
  simp only
  split <;> exact ClipEffect.same rfl rfl (le_refl _) (le_refl _)

theorem createChannel_effect {ids : TransformIds} {w : World} {target : AnimationTarget}
    {pid : Int} {kc : Nat} {kt : List Nat} {kv : List ℚ} {ty : Nat} {ch : Channel} {w1 : World}
    (h : createChannel ids w target pid kc kt kv ty = .ok (ch, w1)) : ClipEffect w w1 := by
  obtain ⟨_, c3, d, _, hcreate, hw⟩ := createChannel_ok h
  obtain ⟨_, e2⟩ := Channel.create_ok hcreate
  have hn : w1.nextAddr = w.nextAddr + 1 := by
    have := congrArg World.nextAddr e2; simpa using this
  refine ClipEffect.same ?_ ?_ (by omega) ?_
  · rw [hw, Animation.addChannel_default]
  · rw [hw, Animation.addChannel_explicitClips]
  · rw [hw, Animation.addChannel_duration]; exact le_max_left _ _

theorem createChannelInOut_effect {ids : TransformIds} {w : World} {target : AnimationTarget}
    {pid : Int} {kc : Nat} {kt : List Nat} {kv kin kout : List ℚ} {ty : Nat} {ch : Channel}
    {w1 : World}
    (h : createChannelInOut ids w target pid kc kt kv kin kout ty = .ok (ch, w1)) :
    ClipEffect w w1 := by
  obtain ⟨_, c3, d, _, hcreate, hw⟩ := createChannelInOut_ok h
  obtain ⟨_, e2⟩ := Channel.create_ok hcreate
  have hn : w1.nextAddr = w.nextAddr + 1 := by
    have := congrArg World.nextAddr e2; simpa using this
  refine ClipEffect.same ?_ ?_ (by omega) ?_
  · rw [hw, Animation.addChannel_default]
  · rw [hw, Animation.addChannel_explicitClips]
  · rw [hw, Animation.addChannel_duration]; exact le_max_left _ _

theorem ClipEffect.refl (w : World) : ClipEffect w w :=
  ClipEffect.same rfl rfl (le_refl _) (le_refl _)

theorem getClip_effect {w : World} (id : Option String) : ClipEffect w (getClip w id).2 := by
  unfold getClip
  cases id with
  | some id => exact ClipEffect.refl w
  | none =>
    cases hd : w.animation._defaultClip with
    | none => simp only; exact createDefaultClip_effect w hd
    | some d => exact ClipEffect.refl w

/-- A clip method called on the clip that `clipId` names has one of the effects. -/
theorem lookup_call_effect {w : World} (hinv : ClipInvariant w)
    (method : AnimationClip → AnimationClip × List ExternalCall)
    (hm : ∀ c, (method c).1.ident = c.ident) (id : String) :
    ClipEffect w
      (match findClip w.animation id with
       | some clip => w.callClip method clip
       | none => w) := by
  cases hf : findClip w.animation id with
  | none => exact ClipEffect.refl w
  | some clip => exact callClip_effect hinv method hm (Or.inr (findClip_some hf).1)

theorem play_effect {w : World} (hinv : ClipInvariant w) (id : Option String) :
    ClipEffect w (play w id) := by
  unfold play
  cases id with
  | some id => exact lookup_call_effect hinv _ play_ident id
  | none =>
    cases hd : w.animation._defaultClip with
    | some d => exact callClip_effect hinv _ play_ident (Or.inl hd)
    | none =>
      simp only
      have hinv1 := (createDefaultClip_effect w hd).preserves hinv
      obtain ⟨h1, h2⟩ := storeClip_idents hinv1
        (play_ident (AnimationClip.create w.nextAddr "default_clip" 0 w.animation._duration))
        (Or.inl rfl)
      refine ClipEffect.newDefault hd ?_ ?_ rfl rfl
      · show Option.map AnimationClip.ident ((createDefaultClip w).animation.storeClip _)._defaultClip = _
        rw [h1]; rfl
      · show List.map AnimationClip.ident ((createDefaultClip w).animation.storeClip _).explicitClips = _
        rw [h2]; rfl

theorem stop_effect {w : World} (hinv : ClipInvariant w) (id : Option String) :
    ClipEffect w (stop w id) := by
  unfold stop
  cases id with
  | some id => exact lookup_call_effect hinv _ stop_ident id
  | none =>
    cases hd : w.animation._defaultClip with
    | some d => exact callClip_effect hinv _ stop_ident (Or.inl hd)
    | none => exact ClipEffect.refl w

theorem pause_effect {w : World} (hinv : ClipInvariant w) (id : Option String) :
    ClipEffect w (pause w id) := by
  unfold pause
  cases id with
  | some id => exact lookup_call_effect hinv _ pause_ident id
  | none =>
    cases hd : w.animation._defaultClip with
    | some d => exact callClip_effect hinv _ pause_ident (Or.inl hd)
    | none => exact ClipEffect.refl w

/-- Every call has one of the three effects on the clips. -/
theorem Step.effect {ids : TransformIds} {w w1 : World} (hstep : Step ids w w1)
    (hinv : ClipInvariant w) : ClipEffect w w1 := by
  cases hstep with
  | createClip id s e => exact createClip_effect w id s e
  | createClips sscanf uninit ns fc => exact createClipsLoop_effect sscanf fc uninit ns hinv
  | getClip id => exact getClip_effect id
  | play id => exact play_effect hinv id
  | stop id => exact stop_effect hinv id
  | pause id => exact pause_effect hinv id
  | addChannel ch => exact addChannel_effect w ch
  | removeChannel ch => exact removeChannel_effect w ch
  | createChannel =>
    rename_i hrun
    exact createChannel_effect hrun
  | createChannelInOut =>
    rename_i hrun
    exact createChannelInOut_effect hrun

theorem fresh_clipInvariant {w : World} {id : String} (h : w.animation = Animation.fresh id) :
    ClipInvariant w := by
  unfold ClipInvariant
  rw [h]
  exact {
    default_fresh := fun i hi => by cases hi
    default_span := fun i hi => by cases hi
    explicit_fresh := fun i hi => by cases hi
    explicit_nodup := List.nodup_nil
    default_not_explicit := fun i hi => by cases hi }

/-- The clip invariant holds in every reachable world. -/
theorem Reachable.clipInvariant {ids : TransformIds} {w : World} (h : Reachable ids w) :
    ClipInvariant w := by
  induction h with
  | fresh w id h => exact fresh_clipInvariant h
  | step w w1 _ hstep ih => exact (hstep.effect ih).preserves ih

theorem ReachableFrom.clipInvariantFrom {ids : TransformIds} {w w1 : World}
    (h : ReachableFrom ids w w1) (hinv : ClipInvariant w) : ClipInvariant w1 := by
  induction h with
  | refl => exact hinv
  | step w1 w2 _ hstep ih => exact (hstep.effect ih).preserves ih

theorem sampleWorld_reachable : Reachable sampleIds sampleWorld :=
  Reachable.step (World.fresh "walk") sampleWorld (Reachable.fresh _ "walk" rfl)
    (Step.createChannel _ sampleTarget 0 2 [0, 1000] [0, 10] 1 sampleChannel sampleWorld
      sample_createChannel)

/-- A call never changes the identity of an existing default clip. -/
theorem ClipEffect.default_kept {w w1 : World} (heff : ClipEffect w w1)
    {i : Nat × String × Nat × Nat}
    (hi : w.animation._defaultClip.map AnimationClip.ident = some i) :
    w1.animation._defaultClip.map AnimationClip.ident = some i := by
  cases heff with
  | same hd _ _ _ => rw [hd]; exact hi
  | newDefault hnone _ _ _ _ => rw [hnone] at hi; cases hi
  | appended _ hd _ _ _ _ => rw [hd]; exact hi

theorem ReachableFrom.defaultKeptFrom {ids : TransformIds} {w w1 : World}
    (h : ReachableFrom ids w w1) (hinv : ClipInvariant w) {i : Nat × String × Nat × Nat}
    (hi : w.animation._defaultClip.map AnimationClip.ident = some i) :
    w1.animation._defaultClip.map AnimationClip.ident = some i := by
  induction h with
  | refl => exact hi
  | step w1 w2 hr hstep ih =>
    exact (hstep.effect (hr.clipInvariantFrom hinv)).default_kept ih

theorem callClip_default {w : World} {d : AnimationClip}
    (method : AnimationClip → AnimationClip × List ExternalCall)
    (hm : ∀ c, (method c).1.ident = c.ident) (hd : w.animation._defaultClip = some d) :
    (w.callClip method d).animation._defaultClip = some (method d).1 ∧
    (w.callClip method d).nextAddr = w.nextAddr := by
  have haddr : (method d).1.addr = d.addr := ((ident_eq_iff _ _).mp (hm d)).1
  unfold World.callClip
  simp only [Animation.storeClip_default, hd, Option.map_some', haddr, if_true, and_self]

theorem namesakeWorld_reachable : Reachable sampleIds namesakeWorld :=
  Reachable.step _ _
    (Reachable.step _ _ sampleWorld_reachable (Step.createClip sampleWorld "default_clip" 0 1000))
    (Step.getClip _ none)

theorem Curve.setPoint_inv {c c1 : Curve} {i : Nat} {t : ℚ} {kv : List ℚ} {off ty : Nat}
    (h : c.setPoint i t kv off ty = .ok c1) :
    c1._quaternionOffset = c._quaternionOffset ∧ c1._setLog = c._setLog ++ [i] ∧
    c1._pointCount = c._pointCount ∧ c1._componentCount = c._componentCount := by
  unfold Curve.setPoint readFloats at h
  split at h
  · split at h
    · simp only [Except.ok_bind_eq, Except.ok.injEq] at h
      rw [← h]
      exact ⟨rfl, rfl, rfl, rfl⟩
    · simp [bind, Except.bind] at h
  · simp at h

theorem Curve.setPointInOut_inv {c c1 : Curve} {i : Nat} {t : ℚ} {kv kin kout : List ℚ}
    {off ty ioff ooff : Nat}
    (h : c.setPointInOut i t kv off ty kin ioff kout ooff = .ok c1) :
    c1._quaternionOffset = c._quaternionOffset ∧ c1._setLog = c._setLog ++ [i] ∧
    c1._pointCount = c._pointCount ∧ c1._componentCount = c._componentCount := by
  unfold Curve.setPointInOut readFloats at h
  split at h
  · split at h
    · split at h
      · split at h
        · simp only [Except.ok_bind_eq, Except.ok.injEq] at h
          rw [← h]
          exact ⟨rfl, rfl, rfl, rfl⟩
        · simp [bind, Except.bind] at h
      · simp [bind, Except.bind] at h
    · simp [bind, Except.bind] at h
  · simp at h

theorem Except.error_bind_eq {ε α β : Type} (e : ε) (f : α → Except ε β) :
    ((Except.error e : Except ε α) >>= f) = Except.error e := rfl

theorem createChannelLoop_inv (kt : List Nat) (kv : List ℚ) (ty cc lowest duration : Nat) :
    ∀ (n i po : Nat) (c c1 : Curve) (po1 : Nat),
      createChannelLoop kt kv ty cc lowest duration n i po c = .ok (c1, po1) →
      c1._quaternionOffset = c._quaternionOffset ∧
      (i + n < UINT_RANGE → c1._setLog = c._setLog ++ List.range' i n) := by
  intro n
  induction n with
  | zero =>
    intro i po c c1 po1 h
    simp only [createChannelLoop, Except.ok.injEq, Prod.mk.injEq] at h
    rw [← h.1]
    exact ⟨rfl, fun _ => by simp⟩
  | succ n ih =>
    intro i po c c1 po1 h
    rw [createChannelLoop] at h
    cases hr : readTime kt i with
    | error e => rw [hr] at h; simp only [Except.error_bind_eq] at h; cases h
    | ok t =>
      rw [hr] at h
      simp only [Except.ok_bind_eq] at h
      cases hs : c.setPoint i
          (floatDiv (floatOfULong (ulongSub t lowest)) (floatOfULong duration)) kv po ty with
      | error e => rw [hs] at h; simp only [Except.error_bind_eq] at h; cases h
      | ok c2 =>
        rw [hs] at h
        simp only [Except.ok_bind_eq] at h
        obtain ⟨s1, s2, _, _⟩ := Curve.setPoint_inv hs
        obtain ⟨i1, i2⟩ := ih _ _ _ _ _ h
        refine ⟨i1.trans s1, ?_⟩
        intro hlt
        have e1 : uintAdd i 1 = i + 1 := uintAdd_eq (by omega)
        rw [e1] at i2
        rw [i2 (by omega), s2, List.append_assoc]
        rfl

theorem createChannelInOutLoop_inv (kt : List Nat) (kv kin kout : List ℚ)
    (ty cc lowest duration : Nat) :
    ∀ (n i po : Nat) (c c1 : Curve) (po1 : Nat),
      createChannelInOutLoop kt kv kin kout ty cc lowest duration n i po c = .ok (c1, po1) →
      c1._quaternionOffset = c._quaternionOffset ∧
      (i + n < UINT_RANGE → c1._setLog = c._setLog ++ List.range' i n) := by
  intro n
  induction n with
  | zero =>
    intro i po c c1 po1 h
    simp only [createChannelInOutLoop, Except.ok.injEq, Prod.mk.injEq] at h
    rw [← h.1]
    exact ⟨rfl, fun _ => by simp⟩
  | succ n ih =>
    intro i po c c1 po1 h
    rw [createChannelInOutLoop] at h
    cases hr : readTime kt i with
    | error e => rw [hr] at h; simp only [Except.error_bind_eq] at h; cases h
    | ok t =>
      rw [hr] at h
      simp only [Except.ok_bind_eq] at h
      cases hs : c.setPointInOut i
          (floatDiv (floatOfULong (ulongSub t lowest)) (floatOfULong duration)) kv po ty
          kin po kout po with
      | error e => rw [hs] at h; simp only [Except.error_bind_eq] at h; cases h
      | ok c2 =>
        rw [hs] at h
        simp only [Except.ok_bind_eq] at h
        obtain ⟨s1, s2, _, _⟩ := Curve.setPointInOut_inv hs
        obtain ⟨i1, i2⟩ := ih _ _ _ _ _ h
        refine ⟨i1.trans s1, ?_⟩
        intro hlt
        have e1 : uintAdd i 1 = i + 1 := uintAdd_eq (by omega)
        rw [e1] at i2
        rw [i2 (by omega), s2, List.append_assoc]
        rfl

theorem Except.bind_eq_ok {ε α β : Type} {x : Except ε α} {f : α → Except ε β} {b : β}
    (h : (x >>= f) = Except.ok b) : ∃ a, x = Except.ok a ∧ f a = Except.ok b := by
  cases x with
  | error e => cases h
  | ok a => exact ⟨a, rfl, h⟩

theorem range_eq_first_mid_last {kc : Nat} (hkc : 2 ≤ kc) :
    List.range kc = [0] ++ List.range' 1 (kc - 1 - 1) ++ [kc - 1] := by
  obtain ⟨m, rfl⟩ : ∃ m, kc = m + 2 := ⟨kc - 2, by omega⟩
  simp only [Nat.add_sub_cancel, show m + 2 - 1 = m + 1 by omega]
  rw [List.range_eq_range', show m + 2 = (m + 1) + 1 by omega, List.range'_concat,
    List.range'_succ]
  simp [Nat.add_comm]

theorem createChannelFill_inv {c c3 : Curve} {cc kc : Nat} {kt : List Nat} {kv : List ℚ}
    {ty d : Nat} (h : createChannelFill c cc kc kt kv ty = .ok (c3, d)) :
    c3._quaternionOffset = c._quaternionOffset ∧
    (2 ≤ kc → kc < UINT_RANGE → c3._setLog = c._setLog ++ List.range kc) := by
  unfold createChannelFill at h
  obtain ⟨lowest, _, h⟩ := Except.bind_eq_ok h
  obtain ⟨last, _, h⟩ := Except.bind_eq_ok h
  obtain ⟨c1, hs0, h⟩ := Except.bind_eq_ok h
  obtain ⟨r, hl, h⟩ := Except.bind_eq_ok h
  obtain ⟨c2, po⟩ := r
  obtain ⟨c4, hs1, h⟩ := Except.bind_eq_ok h
  have hc : c4 = c3 := (Prod.mk.inj (Except.ok.inj h)).1
  subst hc
  obtain ⟨a1, a2, _, _⟩ := Curve.setPoint_inv hs0
  obtain ⟨b1, b2⟩ := createChannelLoop_inv _ _ _ _ _ _ _ _ _ _ _ _ hl
  obtain ⟨d1, d2, _, _⟩ := Curve.setPoint_inv hs1
  refine ⟨d1.trans (b1.trans a1), ?_⟩
  intro hkc hu
  have hsub : uintSub kc 1 = kc - 1 := uintSub_one (by omega) hu
  rw [hsub] at b2 d2
  rw [d2, b2 (by omega), a2, range_eq_first_mid_last hkc]
  simp only [List.append_assoc]

theorem createChannelInOutFill_inv {c c3 : Curve} {cc kc : Nat} {kt : List Nat}
    {kv kin kout : List ℚ} {ty d : Nat}
    (h : createChannelInOutFill c cc kc kt kv kin kout ty = .ok (c3, d)) :
    c3._quaternionOffset = c._quaternionOffset ∧
    (2 ≤ kc → kc < UINT_RANGE → c3._setLog = c._setLog ++ List.range kc) := by
  unfold createChannelInOutFill at h
  obtain ⟨lowest, _, h⟩ := Except.bind_eq_ok h
  obtain ⟨last, _, h⟩ := Except.bind_eq_ok h
  obtain ⟨c1, hs0, h⟩ := Except.bind_eq_ok h
  obtain ⟨r, hl, h⟩ := Except.bind_eq_ok h
  obtain ⟨c2, po⟩ := r
  obtain ⟨c4, hs1, h⟩ := Except.bind_eq_ok h
  have hc : c4 = c3 := (Prod.mk.inj (Except.ok.inj h)).1
  subst hc
  obtain ⟨a1, a2, _, _⟩ := Curve.setPointInOut_inv hs0
  obtain ⟨b1, b2⟩ := createChannelInOutLoop_inv _ _ _ _ _ _ _ _ _ _ _ _ _ _ hl
  obtain ⟨d1, d2, _, _⟩ := Curve.setPointInOut_inv hs1
  refine ⟨d1.trans (b1.trans a1), ?_⟩
  intro hkc hu
  have hsub : uintSub kc 1 = kc - 1 := uintSub_one (by omega) hu
  rw [hsub] at b2 d2
  rw [d2, b2 (by omega), a2, range_eq_first_mid_last hkc]
  simp only [List.append_assoc]

theorem createChannel_inv {ids : TransformIds} {w : World} {target : AnimationTarget}
    {pid : Int} {kc : Nat} {kt : List Nat} {kv : List ℚ} {ty : Nat} {ch : Channel} {w1 : World}
    (h : createChannel ids w target pid kc kt kv ty = .ok (ch, w1)) :
    0 < target.getAnimationPropertyComponentCount pid ∧ 2 ≤ kc ∧
    ∃ c3 d, createChannelFill (initialCurve ids target pid kc)
        (target.getAnimationPropertyComponentCount pid) kc kt kv ty = .ok (c3, d) ∧
      ch = { addr := w.nextAddr, _target := target.addr, _propertyId := pid, _curve := c3,
             _duration := d } ∧
      w1 = addChannel
        { w with nextAddr := w.nextAddr + 1,
                 calls := w.calls ++ [ExternalCall.addRef,
                   ExternalCall.targetAddChannel target.addr w.nextAddr] } ch := by
  unfold createChannel at h
  by_cases hcc : target.getAnimationPropertyComponentCount pid > 0
  · rw [if_pos hcc] at h
    obtain ⟨curve, hcurve, h⟩ := Except.bind_eq_ok h
    have hkc : 2 ≤ kc := by
      unfold Curve.create at hcurve
      by_contra hn
      rw [if_neg hn] at hcurve
      cases hcurve
    have hcurve2 : curve = Curve.mk kc (target.getAnimationPropertyComponentCount pid) none
        (List.replicate kc none) [] := by
      unfold Curve.create at hcurve
      rw [if_pos hkc] at hcurve
      exact (Except.ok.inj hcurve).symm
    subst hcurve2
    obtain ⟨r, hfill, h⟩ := Except.bind_eq_ok h
    obtain ⟨c3, d⟩ := r
    obtain ⟨r2, hcreate, h⟩ := Except.bind_eq_ok h
    obtain ⟨channel, w2⟩ := r2
    obtain ⟨e1, e2⟩ := Channel.create_ok hcreate
    have h1 : channel = ch := (Prod.mk.inj (Except.ok.inj h)).1
    have h2 : addChannel w2 channel = w1 := (Prod.mk.inj (Except.ok.inj h)).2
    refine ⟨hcc, hkc, c3, d, hfill, ?_, ?_⟩
    · rw [← h1]; exact e1
    · rw [← h2, e2, h1]
  · rw [if_neg hcc] at h
    cases h

theorem createChannelInOut_inv {ids : TransformIds} {w : World} {target : AnimationTarget}
    {pid : Int} {kc : Nat} {kt : List Nat} {kv kin kout : List ℚ} {ty : Nat} {ch : Channel}
    {w1 : World}
    (h : createChannelInOut ids w target pid kc kt kv kin kout ty = .ok (ch, w1)) :
    0 < target.getAnimationPropertyComponentCount pid ∧ 2 ≤ kc ∧
    ∃ c3 d, createChannelInOutFill (initialCurve ids target pid kc)
        (target.getAnimationPropertyComponentCount pid) kc kt kv kin kout ty = .ok (c3, d) ∧
      ch = { addr := w.nextAddr, _target := target.addr, _propertyId := pid, _curve := c3,
             _duration := d } ∧
      w1 = addChannel
        { w with nextAddr := w.nextAddr + 1,
                 calls := w.calls ++ [ExternalCall.addRef,
                   ExternalCall.targetAddChannel target.addr w.nextAddr] } ch := by
  unfold createChannelInOut at h
  by_cases hcc : target.getAnimationPropertyComponentCount pid > 0
  · rw [if_pos hcc] at h
    obtain ⟨curve, hcurve, h⟩ := Except.bind_eq_ok h
    have hkc : 2 ≤ kc := by
      unfold Curve.create at hcurve
      by_contra hn
      rw [if_neg hn] at hcurve
      cases hcurve
    have hcurve2 : curve = Curve.mk kc (target.getAnimationPropertyComponentCount pid) none
        (List.replicate kc none) [] := by
      unfold Curve.create at hcurve
      rw [if_pos hkc] at hcurve
      exact (Except.ok.inj hcurve).symm
    subst hcurve2
    obtain ⟨r, hfill, h⟩ := Except.bind_eq_ok h
    obtain ⟨c3, d⟩ := r
    obtain ⟨r2, hcreate, h⟩ := Except.bind_eq_ok h
    obtain ⟨channel, w2⟩ := r2
    obtain ⟨e1, e2⟩ := Channel.create_ok hcreate
    have h1 : channel = ch := (Prod.mk.inj (Except.ok.inj h)).1
    have h2 : addChannel w2 channel = w1 := (Prod.mk.inj (Except.ok.inj h)).2
    refine ⟨hcc, hkc, c3, d, hfill, ?_, ?_⟩
    · rw [← h1]; exact e1
    · rw [← h2, e2, h1]
  · rw [if_neg hcc] at h
    cases h

theorem initialCurve_quaternionOffset (ids : TransformIds) (target : AnimationTarget)
    (pid : Int) (kc : Nat) :
    (initialCurve ids target pid kc)._quaternionOffset
      = if target._targetType = TargetType.TRANSFORM then
          (if intToUInt pid = ids.ANIMATE_ROTATE ∨ intToUInt pid = ids.ANIMATE_ROTATE_TRANSLATE
            then some 0
           else if intToUInt pid = ids.ANIMATE_SCALE_ROTATE_TRANSLATE then some 3
           else none)
        else none := by
  unfold initialCurve setTransformRotationOffset Curve.setQuaternionOffset
    ANIMATION_ROTATE_OFFSET ANIMATION_SRT_OFFSET
  split_ifs <;> rfl

theorem initialCurve_setLog (ids : TransformIds) (target : AnimationTarget)
    (pid : Int) (kc : Nat) : (initialCurve ids target pid kc)._setLog = [] := by
  unfold initialCurve setTransformRotationOffset Curve.setQuaternionOffset
  split_ifs <;> rfl

theorem slice_length {kv : List ℚ} {kc cc i : Nat} (hkv : kv.length = kc * cc) (hi : i < kc) :
    ((kv.drop (i * cc)).take cc).length = cc := by
  rw [List.length_take, List.length_drop, hkv]
  have : i * cc + cc ≤ kc * cc := by
    calc i * cc + cc = (i + 1) * cc := by ring
      _ ≤ kc * cc := Nat.mul_le_mul_right _ hi
  omega

/-- The keyframes of the curve built by `createChannel`, one statement per index. -/
theorem createChannel_points (ids : TransformIds) (w : World) (target : AnimationTarget)
    (pid : Int) (kc : Nat) (kt : List Nat) (kv : List ℚ) (ty : Nat) (first last : Nat)
    (hlen : kt.length = kc) (hkc : 2 ≤ kc)
    (hcc : 0 < target.getAnimationPropertyComponentCount pid)
    (hkv : kv.length = kc * target.getAnimationPropertyComponentCount pid)
    (hsmall : kc * target.getAnimationPropertyComponentCount pid < UINT_RANGE)
    (hfirst : kt[0]? = some first) (hlast : kt[kc - 1]? = some last) :
    ∃ ch w1, createChannel ids w target pid kc kt kv ty = .ok (ch, w1) ∧
      ch.addr = w.nextAddr ∧ ch._target = target.addr ∧ ch._propertyId = pid ∧
      ch._duration = ulongSub last first ∧
      w1 = addChannel
        { w with nextAddr := w.nextAddr + 1,
                 calls := w.calls ++ [ExternalCall.addRef,
                   ExternalCall.targetAddChannel target.addr w.nextAddr] } ch ∧
      ch._curve._pointCount = kc ∧
      ch._curve._componentCount = target.getAnimationPropertyComponentCount pid ∧
      ∀ i, i < kc → ch._curve._points[i]? = some (some
        { time := normalizedKeyTime kt kc first last i,
          value := (kv.drop (i * target.getAnimationPropertyComponentCount pid)).take
            (target.getAnimationPropertyComponentCount pid),
          type := ty, inValue := none, outValue := none }) := by
  obtain ⟨curve3, hrun, h1, h2, _, h4, h5, h6⟩ :=
    createChannel_spec ids w target pid kc kt kv ty first last hlen hkc hcc hkv hsmall
      hfirst hlast
  refine ⟨_, _, hrun, rfl, rfl, rfl, rfl, rfl, h1, h2, ?_⟩
  intro i hi
  simp only
  unfold normalizedKeyTime
  rcases Nat.eq_zero_or_pos i with h0 | hpos
  · subst h0
    rw [h4]; simp
  · rw [if_neg (by omega)]
    rcases lt_or_eq_of_le (Nat.le_sub_one_of_lt hi) with hlt | heq
    · rw [if_neg (by omega)]
      have hget : kt[i]? = some (kt.getD i 0) := by
        rw [List.getD_eq_getElem?_getD, List.getElem?_eq_getElem (by omega)]
        rfl
      exact h6 i _ hpos hlt hget
    · rw [if_pos heq, heq]
      exact h5

/-- The keyframes of the curve built by the overload with tangents. -/
theorem createChannelInOut_points (ids : TransformIds) (w : World) (target : AnimationTarget)
    (pid : Int) (kc : Nat) (kt : List Nat) (kv kin kout : List ℚ) (ty : Nat) (first last : Nat)
    (hlen : kt.length = kc) (hkc : 2 ≤ kc)
    (hcc : 0 < target.getAnimationPropertyComponentCount pid)
    (hkv : kv.length = kc * target.getAnimationPropertyComponentCount pid)
    (hkin : kin.length = kc * target.getAnimationPropertyComponentCount pid)
    (hkout : kout.length = kc * target.getAnimationPropertyComponentCount pid)
    (hsmall : kc * target.getAnimationPropertyComponentCount pid < UINT_RANGE)
    (hfirst : kt[0]? = some first) (hlast : kt[kc - 1]? = some last) :
    ∃ ch w1, createChannelInOut ids w target pid kc kt kv kin kout ty = .ok (ch, w1) ∧
      ch.addr = w.nextAddr ∧ ch._target = target.addr ∧ ch._propertyId = pid ∧
      ch._duration = ulongSub last first ∧
      w1 = addChannel
        { w with nextAddr := w.nextAddr + 1,
                 calls := w.calls ++ [ExternalCall.addRef,
                   ExternalCall.targetAddChannel target.addr w.nextAddr] } ch ∧
      ch._curve._pointCount = kc ∧
      ch._curve._componentCount = target.getAnimationPropertyComponentCount pid ∧
      ∀ i, i < kc → ch._curve._points[i]? = some (some
        { time := normalizedKeyTime kt kc first last i,
          value := (kv.drop (i * target.getAnimationPropertyComponentCount pid)).take
            (target.getAnimationPropertyComponentCount pid),
          type := ty,
          inValue := some
            ((kin.drop (i * target.getAnimationPropertyComponentCount pid)).take
              (target.getAnimationPropertyComponentCount pid)),
          outValue := some
            ((kout.drop (i * target.getAnimationPropertyComponentCount pid)).take
              (target.getAnimationPropertyComponentCount pid)) }) := by
  obtain ⟨curve3, hrun, h1, h2, _, h4, h5, h6⟩ :=
    createChannelInOut_spec ids w target pid kc kt kv kin kout ty first last hlen hkc hcc hkv
      hkin hkout hsmall hfirst hlast
  refine ⟨_, _, hrun, rfl, rfl, rfl, rfl, rfl, h1, h2, ?_⟩
  intro i hi
  simp only
  unfold normalizedKeyTime
  rcases Nat.eq_zero_or_pos i with h0 | hpos
  · subst h0
    rw [h4]; simp
  · rw [if_neg (by omega)]
    rcases lt_or_eq_of_le (Nat.le_sub_one_of_lt hi) with hlt | heq
    · rw [if_neg (by omega)]
      have hget : kt[i]? = some (kt.getD i 0) := by
        rw [List.getD_eq_getElem?_getD, List.getElem?_eq_getElem (by omega)]
        rfl
      exact h6 i _ hpos hlt hget
    · rw [if_pos heq, heq]
      exact h5

theorem Animation.addChannel_id (a : Animation) (ch : Channel) :
    (a.addChannel ch)._id = a._id := by
  unfold Animation.addChannel
  split <;> rfl

theorem Animation.addChannel_clips (a : Animation) (ch : Channel) :
    (a.addChannel ch)._clips = a._clips := by
  unfold Animation.addChannel
  split <;> rfl

theorem destructorLoop_append (l1 l2 : List AnimationClip) :
    destructorLoop (l1 ++ l2) = destructorLoop l1 ++ destructorLoop l2 := by
  induction l1 with
  | nil => rfl
  | cons x l ih =>
    show destroyClip x ++ destructorLoop (l ++ l2) = _
    rw [ih]
    simp only [destructorLoop, List.append_assoc]

theorem destructor_calls (w : World) :
    (destructor w).calls = w.calls ++ destructorLoop w.animation.allClips := by
  unfold destructor Animation.allClips Animation.explicitClips
  rw [destructorLoop_append]
  cases hd : w.animation._defaultClip <;> cases hc : w.animation._clips <;>
    simp [destructorLoop, List.append_assoc]

theorem destroyClip_count_unschedule (x : AnimationClip) (a : Nat) :
    (destroyClip x).count (ExternalCall.unschedule a)
      = if x.addr = a ∧ x._isPlaying = true then 1 else 0 := by
  unfold destroyClip AnimationClip.isClipStateBitSet
  by_cases hp : x._isPlaying = true <;> by_cases ha : x.addr = a <;>
    simp [hp, ha, List.count_cons]

theorem destroyClip_count_release (x : AnimationClip) (a : Nat) :
    (destroyClip x).count (ExternalCall.release a) = if x.addr = a then 1 else 0 := by
  unfold destroyClip AnimationClip.isClipStateBitSet
  by_cases hp : x._isPlaying = true <;> by_cases ha : x.addr = a <;>
    simp [hp, ha, List.count_cons]

theorem destructorLoop_count_of_not_mem (l : List AnimationClip) (a : Nat)
    (h : a ∉ l.map (fun c => c.addr)) :
    (destructorLoop l).count (ExternalCall.unschedule a) = 0 ∧
    (destructorLoop l).count (ExternalCall.release a) = 0 := by
  induction l with
  | nil => exact ⟨rfl, rfl⟩
  | cons x l ih =>
    simp only [List.map_cons, List.mem_cons, not_or] at h
    obtain ⟨i1, i2⟩ := ih h.2
    have hx : ¬ x.addr = a := fun e => h.1 e.symm
    simp only [destructorLoop, List.count_append, destroyClip_count_unschedule,
      destroyClip_count_release, i1, i2, hx, false_and, if_false, and_self]

theorem destructorLoop_count (l : List AnimationClip)
    (hnd : (l.map (fun c => c.addr)).Nodup) (c : AnimationClip) (hc : c ∈ l) :
    (destructorLoop l).count (ExternalCall.unschedule c.addr)
      = (if c._isPlaying = true then 1 else 0) ∧
    (destructorLoop l).count (ExternalCall.release c.addr) = 1 := by
  induction l with
  | nil => cases hc
  | cons x l ih =>
    simp only [List.map_cons, List.nodup_cons] at hnd
    simp only [destructorLoop, List.count_append, destroyClip_count_unschedule,
      destroyClip_count_release]
    rcases List.mem_cons.mp hc with heq | hmem
    · subst heq
      obtain ⟨i1, i2⟩ := destructorLoop_count_of_not_mem l c.addr hnd.1
      simp [i1, i2]
    · obtain ⟨i1, i2⟩ := ih hnd.2 hmem
      have hx : ¬ x.addr = c.addr := by
        intro e
        exact hnd.1 (e ▸ List.mem_map_of_mem (fun c => c.addr) hmem)
      simp [i1, i2, hx]

theorem destructorLoop_split (l : List AnimationClip) (c : AnimationClip) (hc : c ∈ l) :
    ∃ pre post, destructorLoop l = pre ++ destroyClip c ++ post := by
  obtain ⟨l1, l2, rfl⟩ := List.append_of_mem hc
  refine ⟨destructorLoop l1, destructorLoop l2, ?_⟩
  rw [destructorLoop_append]
  simp only [destructorLoop, List.append_assoc]

theorem destructorLoop_unschedule_mem (l : List AnimationClip) (a : Nat)
    (h : ExternalCall.unschedule a ∈ destructorLoop l) :
    ∃ c ∈ l, c.addr = a ∧ c._isPlaying = true := by
  induction l with
  | nil => cases h
  | cons x l ih =>
    simp only [destructorLoop, List.mem_append] at h
    rcases h with h | h
    · refine ⟨x, List.mem_cons_self _ _, ?_⟩
      unfold destroyClip AnimationClip.isClipStateBitSet at h
      by_cases hp : x._isPlaying = true
      · simp [hp] at h
        exact ⟨h.symm, hp⟩
      · simp [hp] at h
    · obtain ⟨c, hc, hh⟩ := ih h
      exact ⟨c, List.mem_cons_of_mem _ hc, hh⟩

theorem allClips_nodup {w : World} (hinv : ClipInvariant w) :
    (w.animation.allClips.map (fun c => c.addr)).Nodup := by
  have hnd : (w.animation.explicitClips.map (fun c => c.addr)).Nodup := by
    have := hinv.explicit_nodup
    rw [List.map_map] at this
    exact this
  unfold Animation.allClips
  cases hd : w.animation._defaultClip with
  | none => simpa using hnd
  | some d =>
    simp only [Option.toList, List.singleton_append, List.map_cons, List.nodup_cons]
    refine ⟨?_, hnd⟩
    intro hmem
    obtain ⟨x, hx, hxa⟩ := List.mem_map.mp hmem
    have := hinv.default_not_explicit d.ident (by rw [hd]; rfl) x.ident
      (List.mem_map_of_mem _ hx)
    exact this hxa

theorem removeChannelLoop_of_not_mem (channel : Channel) (l : List Channel)
    (h : ∀ x ∈ l, x.addr ≠ channel.addr) : removeChannelLoop channel l = l := by
  induction l with
  | nil => rfl
  | cons x l ih =>
    have hx : ¬ channel.addr = x.addr := fun e => h x (List.mem_cons_self _ _) e.symm
    simp only [removeChannelLoop, hx, if_false]
    rw [ih (fun y hy => h y (List.mem_cons_of_mem _ hy))]

theorem removeChannelLoop_first (channel c : Channel) (pre post : List Channel)
    (hc : c.addr = channel.addr) (hpre : ∀ x ∈ pre, x.addr ≠ channel.addr) :
    removeChannelLoop channel (pre ++ c :: post) = pre ++ post := by
  induction pre with
  | nil => simp [removeChannelLoop, hc]
  | cons x l ih =>
    have hx : ¬ channel.addr = x.addr := fun e => hpre x (List.mem_cons_self _ _) e.symm
    show removeChannelLoop channel (x :: (l ++ c :: post)) = x :: (l ++ post)
    simp only [removeChannelLoop, hx, if_false]
    rw [ih (fun y hy => hpre y (List.mem_cons_of_mem _ hy))]

theorem exists_first_with_addr (a : Nat) (l : List Channel) (h : ∃ x ∈ l, x.addr = a) :
    ∃ pre c post, l = pre ++ c :: post ∧ c.addr = a ∧ ∀ x ∈ pre, x.addr ≠ a := by
  induction l with
  | nil => obtain ⟨x, hx, _⟩ := h; cases hx
  | cons y l ih =>
    by_cases hy : y.addr = a
    · exact ⟨[], y, l, rfl, hy, fun x hx => by cases hx⟩
    · obtain ⟨x, hx, hxa⟩ := h
      rcases List.mem_cons.mp hx with e | hmem
      · exact absurd (e ▸ hxa) hy
      · obtain ⟨pre, c, post, hl, hc, hpre⟩ := ih ⟨x, hmem, hxa⟩
        refine ⟨y :: pre, c, post, by rw [hl]; rfl, hc, ?_⟩
        intro z hz
        rcases List.mem_cons.mp hz with e | hm
        · rw [e]; exact hy
        · exact hpre z hm

theorem removeChannel_channels (w : World) (channel : Channel) :
    (removeChannel w channel).animation._channels
      = removeChannelLoop channel w.animation._channels := by
  unfold removeChannel
  simp only
  split <;> rfl

theorem removeChannel_frame (w : World) (channel : Channel) :
    (removeChannel w channel).animation._duration = w.animation._duration ∧
    (removeChannel w channel).animation._id = w.animation._id ∧
    (removeChannel w channel).animation._defaultClip = w.animation._defaultClip ∧
    (removeChannel w channel).animation._clips = w.animation._clips ∧
    (removeChannel w channel).nextAddr = w.nextAddr := by
  unfold removeChannel
  simp only
  split <;> exact ⟨rfl, rfl, rfl, rfl, rfl⟩

theorem clipsWorld_reachable : Reachable sampleIds clipsWorld :=
  Reachable.step _ _
    (Reachable.step _ _
      (Reachable.step _ _ sampleWorld_reachable (Step.createClip sampleWorld "run" 0 10))
      (Step.createClip _ "idle" 0 5))
    (Step.createClip _ "run" 20 30)

theorem playingWorld_reachable : Reachable sampleIds playingWorld :=
  Reachable.step _ _ (Reachable.step _ _ clipsWorld_reachable (Step.play _ (some "idle")))
    (Step.play _ none)

theorem playingWorld_allClips :
    playingWorld.animation.allClips
      = [{ AnimationClip.create 4 "default_clip" 0 1000 with _isPlaying := true },
         AnimationClip.create 1 "run" 0 10,
         { AnimationClip.create 2 "idle" 0 5 with _isPlaying := true },
         AnimationClip.create 3 "run" 20 30] := by
  rfl

theorem briefWorld_constructed :
    Animation.construct sampleIds "walk" sampleTarget 0 2 [0, 400] [0, 10] 1 = .ok briefWorld := by
  rfl

theorem briefWorld_reachable : Reachable sampleIds briefWorld :=
  Reachable.step (World.fresh "walk") briefWorld (Reachable.fresh _ "walk" rfl)
    (Step.createChannel _ sampleTarget 0 2 [0, 400] [0, 10] 1
      { sampleChannel with _duration := 400 } briefWorld rfl)

theorem briefDefaultWorld_reachable : Reachable sampleIds briefDefaultWorld :=
  Reachable.step _ _ briefWorld_reachable (Step.getClip _ none)

theorem stillDefaultWorld_constructed :
    ∃ w, Animation.construct sampleIds "walk" sampleTarget 0 2 [5, 5] [0, 10] 1 = .ok w ∧
      (getClip w none).2 = stillDefaultWorld :=
  ⟨_, rfl, rfl⟩

theorem stillDefaultWorld_reachable : Reachable sampleIds stillDefaultWorld :=
  Reachable.step _ _
    (Reachable.step (World.fresh "walk") _ (Reachable.fresh _ "walk" rfl)
      (Step.createChannel _ sampleTarget 0 2 [5, 5] [0, 10] 1
        { sampleChannel with _duration := 0 }
        { animation := { _id := "walk", _duration := 0, _defaultClip := none, _clips := none,
                         _channels := [{ sampleChannel with _duration := 0 }] },
          nextAddr := 1,
          calls := [ExternalCall.addRef, ExternalCall.targetAddChannel 100 0] } rfl))
    (Step.getClip _ none)

theorem ClipEffect.duration_le {w w1 : World} (heff : ClipEffect w w1) :
    w.animation._duration ≤ w1.animation._duration := by
  cases heff with
  | same _ _ _ hdur => exact hdur
  | newDefault _ _ _ _ hdur => exact hdur.ge
  | appended _ _ _ _ _ hdur => exact hdur.ge

theorem floatOfInt_natCast (n : Nat) : floatOfInt (n : Int) = floatOfULong n := by
  unfold floatOfInt floatOfULong
  push_cast
  rfl

theorem floatOfInt_nonneg {a : Int} (ha : 0 ≤ a) : 0 ≤ floatOfInt a :=
  roundFloat_nonneg (by exact_mod_cast ha)

theorem floatOfInt_mono {a b : Int} (ha : 0 ≤ a) (h : a ≤ b) : floatOfInt a ≤ floatOfInt b :=
  roundFloat_mono (by exact_mod_cast ha) (by exact_mod_cast h)

theorem frameQuotient_nonneg {a : Int} (ha : 0 ≤ a) (fc : Nat) :
    0 ≤ floatDiv (floatOfInt a) (floatOfULong fc) :=
  roundFloat_nonneg (div_nonneg (floatOfInt_nonneg ha) (floatOfULong_nonneg fc))

theorem frameQuotient_mono {a b : Int} {fc : Nat} (ha : 0 ≤ a) (h : a ≤ b) :
    floatDiv (floatOfInt a) (floatOfULong fc) ≤ floatDiv (floatOfInt b) (floatOfULong fc) :=
  roundFloat_mono (div_nonneg (floatOfInt_nonneg ha) (floatOfULong_nonneg fc))
    (div_le_div_of_nonneg_right (floatOfInt_mono ha h) (floatOfULong_nonneg fc))

theorem frameQuotient_le_one {b : Int} {fc : Nat} (hb : 0 ≤ b) (hfc : 0 < fc)
    (h : b ≤ (fc : Int)) : floatDiv (floatOfInt b) (floatOfULong fc) ≤ 1 := by
  have h1 : floatOfInt b ≤ floatOfULong fc := by
    rw [← floatOfInt_natCast]
    exact floatOfInt_mono hb h
  have hpos : 0 < floatOfULong fc := lt_of_lt_of_le one_pos (one_le_floatOfULong hfc)
  have h2 : floatOfInt b / floatOfULong fc ≤ 1 := (div_le_one hpos).mpr h1
  have := roundFloat_mono (div_nonneg (floatOfInt_nonneg hb) hpos.le) h2
  rw [roundFloat_one] at this
  exact this

theorem roundFloat_two_pow_63 : roundFloat ((2 : ℚ) ^ (63 : ℕ)) = (2 : ℚ) ^ (63 : ℕ) := by
  rw [roundFloat_of_pos (by positivity)]
  have := roundPos_exact ((2 : ℤ) ^ 23) 63 (le_refl _) (by norm_num)
  have e : (((2 : ℤ) ^ 23 : ℤ) : ℚ) * (2 : ℚ) ^ ((63 : ℤ) - 23) = (2 : ℚ) ^ (63 : ℕ) := by
    norm_num
  rw [e] at this
  exact this

theorem floatMul_le_two_pow_63 {q : ℚ} {dur : Nat} (hq0 : 0 ≤ q) (hq1 : q ≤ 1)
    (hdur : dur ≤ 2 ^ 63) : floatMul q (floatOfULong dur) ≤ (2 : ℚ) ^ (63 : ℕ) := by
  have hD : floatOfULong dur ≤ (2 : ℚ) ^ (63 : ℕ) := by
    have := roundFloat_mono (p := (dur : ℚ)) (q := (2 : ℚ) ^ (63 : ℕ)) (Nat.cast_nonneg _)
      (by exact_mod_cast hdur)
    rw [roundFloat_two_pow_63] at this
    exact this
  have hD0 := floatOfULong_nonneg dur
  have hprod : q * floatOfULong dur ≤ (2 : ℚ) ^ (63 : ℕ) :=
    le_trans (mul_le_of_le_one_left hD0 hq1) hD
  have := roundFloat_mono (mul_nonneg hq0 hD0) hprod
  rw [roundFloat_two_pow_63] at this
  exact this

theorem floatToULong_mono {x y : ℚ} (hx : 0 ≤ x) (hxy : x ≤ y)
    (hy : y < (2 : ℚ) ^ (64 : ℕ)) : floatToULong x ≤ floatToULong y := by
  unfold floatToULong ULONG_RANGE
  have hfx : 0 ≤ ⌊x⌋ := Int.floor_nonneg.mpr hx
  have hfy : 0 ≤ ⌊y⌋ := Int.floor_nonneg.mpr (le_trans hx hxy)
  have hle : ⌊x⌋ ≤ ⌊y⌋ := Int.floor_le_floor hxy
  have hylt : ⌊y⌋ < (2 : ℤ) ^ (64 : ℕ) := by
    have : (⌊y⌋ : ℚ) < (2 : ℚ) ^ (64 : ℕ) := lt_of_le_of_lt (Int.floor_le y) hy
    exact_mod_cast this
  have h1 : ⌊y⌋.toNat < 2 ^ 64 := by omega
  have h2 : ⌊x⌋.toNat ≤ ⌊y⌋.toNat := by omega
  rw [Nat.mod_eq_of_lt h1, Nat.mod_eq_of_lt (lt_of_le_of_lt h2 h1)]
  exact h2

/-- The time of a frame does not decrease with the frame index. -/
theorem frameTime_mono {b e : Int} {fc dur : Nat} (hb : 0 ≤ b) (hbe : b ≤ e)
    (hefc : e ≤ (fc : Int)) (hfc : 0 < fc) (hdur : dur ≤ 2 ^ 63) :
    frameTime b fc dur ≤ frameTime e fc dur := by
  unfold frameTime
  have he : 0 ≤ e := le_trans hb hbe
  have hD0 := floatOfULong_nonneg dur
  have hq : floatDiv (floatOfInt b) (floatOfULong fc) ≤ floatDiv (floatOfInt e) (floatOfULong fc) :=
    frameQuotient_mono hb hbe
  have hq0 := frameQuotient_nonneg hb fc
  have hq0e := frameQuotient_nonneg he fc
  have hq1 := frameQuotient_le_one he hfc hefc
  refine floatToULong_mono (roundFloat_nonneg (mul_nonneg hq0 hD0)) ?_ ?_
  · exact roundFloat_mono (mul_nonneg hq0 hD0) (mul_le_mul_of_nonneg_right hq hD0)
  · exact lt_of_le_of_lt (floatMul_le_two_pow_63 hq0e hq1 hdur) (by norm_num)

/-- Below 2^24 the time of a frame inside the frame range is at most the duration. -/
theorem frameTime_le_duration {e : Int} {fc dur : Nat} (he : 0 ≤ e) (hefc : e ≤ (fc : Int))
    (hfc : 0 < fc) (hdur : dur < 2 ^ 24) : frameTime e fc dur ≤ dur := by
  unfold frameTime
  have hD : floatOfULong dur = (dur : ℚ) := floatOfULong_exact hdur
  have hq0 := frameQuotient_nonneg he fc
  have hq1 := frameQuotient_le_one he hfc hefc
  have hD0 : (0 : ℚ) ≤ (dur : ℚ) := Nat.cast_nonneg _
  have hle : floatMul (floatDiv (floatOfInt e) (floatOfULong fc)) (floatOfULong dur)
      ≤ (dur : ℚ) := by
    rw [hD]
    have := roundFloat_mono (mul_nonneg hq0 hD0) (mul_le_of_le_one_left hD0 hq1)
    have hr : roundFloat (dur : ℚ) = (dur : ℚ) := hD
    rw [hr] at this
    exact this
  unfold floatToULong
  have hfl : ⌊floatMul (floatDiv (floatOfInt e) (floatOfULong fc)) (floatOfULong dur)⌋
      ≤ (dur : ℤ) := by
    have := Int.floor_le_floor hle
    rwa [Int.floor_natCast] at this
  have h2 : ⌊floatMul (floatDiv (floatOfInt e) (floatOfULong fc)) (floatOfULong dur)⌋.toNat
      ≤ dur := by omega
  exact le_trans (Nat.mod_le _ _) h2

theorem frameTime_3_37_37 : frameTime 3 37 37 = 2 := by
  have h3 : floatOfInt 3 = 3 := by
    have := floatOfInt_natCast 3
    rw [floatOfULong_exact (by norm_num)] at this
    exact_mod_cast this
  have h37 : floatOfULong 37 = 37 := by
    have := floatOfULong_exact (n := 37) (by norm_num)
    exact_mod_cast this
  have hq : floatDiv 3 37 = 10882518 * (2 : ℚ) ^ ((-4 : ℤ) - 23) := by
    unfold floatDiv
    rw [roundFloat_of_pos (by norm_num)]
    have := roundPos_eq (q := (3 : ℚ) / 37) (e := -4) (m := 10882518) (by norm_num)
      (by norm_num) (by norm_num)
      (roundHalfEven_of_lt_half 10882518 _ (by norm_num) (by norm_num))
    exact_mod_cast this
  have hm : floatMul (10882518 * (2 : ℚ) ^ ((-4 : ℤ) - 23)) 37
      = 12582911 * (2 : ℚ) ^ ((1 : ℤ) - 23) := by
    unfold floatMul
    rw [roundFloat_of_pos (by norm_num)]
    have := roundPos_eq (q := 10882518 * (2 : ℚ) ^ ((-4 : ℤ) - 23) * 37) (e := 1)
      (m := 12582911) (by norm_num) (by norm_num) (by norm_num)
      (roundHalfEven_of_lt_half 12582911 _ (by norm_num) (by norm_num))
    exact_mod_cast this
  unfold frameTime
  rw [h3, h37, hq, hm]
  unfold floatToULong ULONG_RANGE
  have hfl : ⌊(12582911 : ℚ) * (2 : ℚ) ^ ((1 : ℤ) - 23)⌋ = 2 := by
    rw [Int.floor_eq_iff]
    constructor <;> norm_num
  rw [hfl]
  rfl

theorem frameWorld_createChannel :
    createChannel sampleIds (World.fresh "walk") sampleTarget 0 2 [0, 37] [0, 10] 1
      = .ok ({ sampleChannel with _duration := 37 }, frameWorld) := by
  rfl

theorem frameWorld_reachable : Reachable sampleIds frameWorld :=
  Reachable.step (World.fresh "walk") frameWorld (Reachable.fresh _ "walk" rfl)
    (Step.createChannel _ sampleTarget 0 2 [0, 37] [0, 10] 1 _ frameWorld
      frameWorld_createChannel)

theorem takeWhile_clip_eq_self (ns : List Properties)
    (hclip : ∀ p ∈ ns, p._namespace = "clip") :
    ns.takeWhile (fun p => decide (p._namespace = "clip")) = ns := by
  induction ns with
  | nil => rfl
  | cons p rest ih =>
    have hp : p._namespace = "clip" := hclip p (List.mem_cons_self _ _)
    simp only [List.takeWhile, hp, decide_True]
    rw [ih (fun q hq => hclip q (List.mem_cons_of_mem _ hq))]

theorem descriptorClips_getElem? (sscanf : String → Option ℚ) (fc dur : Nat) :
    ∀ (ns : List Properties) (uninit : Nat → ℚ × ℚ) (addr k : Nat) (p : Properties),
      ns[k]? = some p →
      (descriptorClips sscanf fc dur uninit addr ns)[k]?
        = some (descriptorClip sscanf (uninit k) fc dur (addr + k) p) := by
  intro ns
  induction ns with
  | nil => intro uninit addr k p h; simp at h
  | cons q rest ih =>
    intro uninit addr k p h
    cases k with
    | zero =>
      simp only [List.getElem?_cons_zero, Option.some.injEq] at h
      simp only [descriptorClips, List.getElem?_cons_zero, h, Nat.add_zero]
    | succ k =>
      simp only [List.getElem?_cons_succ] at h
      simp only [descriptorClips, List.getElem?_cons_succ]
      rw [ih (fun k => uninit (k + 1)) (addr + 1) k p h]
      congr 2
      omega

theorem descriptorClips_mem (sscanf : String → Option ℚ) (fc dur : Nat) :
    ∀ (ns : List Properties) (uninit : Nat → ℚ × ℚ) (addr : Nat) (c : AnimationClip),
      c ∈ descriptorClips sscanf fc dur uninit addr ns →
      ∃ p ∈ ns, ∃ values a, c = descriptorClip sscanf values fc dur a p := by
  intro ns
  induction ns with
  | nil => intro uninit addr c h; cases h
  | cons q rest ih =>
    intro uninit addr c h
    simp only [descriptorClips, List.mem_cons] at h
    rcases h with h | h
    · exact ⟨q, List.mem_cons_self _ _, uninit 0, addr, h⟩
    · obtain ⟨p, hp, v, a, ha⟩ := ih (fun k => uninit (k + 1)) (addr + 1) c h
      exact ⟨p, List.mem_cons_of_mem _ hp, v, a, ha⟩

/-! ## Claims -/

/-- C1: after every finite sequence of channel additions to a fresh Animation,
`getDuration` is the maximum of the durations of the channels in the collection
(0 for the empty collection), and every further addition, by `addChannel` or by
either `createChannel` overload, leaves the duration at least as large as before. -/
theorem C1_duration_is_max_of_channel_durations (ids : TransformIds) (w : World)
    (h : ChannelsAdded ids w) :
    w.animation.getDuration = maxChannelDuration w.animation._channels ∧
    (∀ c ∈ w.animation._channels, c._duration ≤ w.animation.getDuration) ∧
    (w.animation._channels = [] → w.animation.getDuration = 0) ∧
    (w.animation._channels ≠ [] →
      ∃ c ∈ w.animation._channels, c._duration = w.animation.getDuration) ∧
    (∀ ch, w.animation.getDuration ≤ (addChannel w ch).animation.getDuration) ∧
    (∀ target pid kc kt kv ty ch w1,
      createChannel ids w target pid kc kt kv ty = .ok (ch, w1) →
      w.animation.getDuration ≤ w1.animation.getDuration) ∧
    (∀ target pid kc kt kv kin kout ty ch w1,
      createChannelInOut ids w target pid kc kt kv kin kout ty = .ok (ch, w1) →
      w.animation.getDuration ≤ w1.animation.getDuration) := by
  have hd := channelsAdded_duration_eq h
  unfold Animation.getDuration
  refine ⟨hd, ?_, ?_, ?_, ?_, ?_, ?_⟩
  · intro c hc
    rw [hd]; exact le_maxChannelDuration hc
  · intro he
    rw [hd, he]; rfl
  · intro hne
    rw [hd]; exact exists_eq_maxChannelDuration hne
  · intro ch
    simp only [addChannel]
    rw [Animation.addChannel_duration]
    exact le_max_left _ _
  · intro target pid kc kt kv ty ch w1 hrun
    obtain ⟨_, _, _, _, _, hw⟩ := createChannel_ok hrun
    rw [hw, Animation.addChannel_duration]
    exact le_max_left _ _
  · intro target pid kc kt kv kin kout ty ch w1 hrun
    obtain ⟨_, _, _, _, _, hw⟩ := createChannelInOut_ok hrun
    rw [hw, Animation.addChannel_duration]
    exact le_max_left _ _

theorem C1_duration_is_max_witness :
    ChannelsAdded sampleIds (addChannel sampleWorld shortChannel) ∧
    (addChannel sampleWorld shortChannel).animation.getDuration = 1000 ∧
    (addChannel sampleWorld shortChannel).animation.getDuration
      = maxChannelDuration [sampleChannel, shortChannel] :=
  have hreach : ChannelsAdded sampleIds (addChannel sampleWorld shortChannel) :=
    ChannelsAdded.addChannel _ _
      (ChannelsAdded.createChannel (World.fresh "walk") sampleTarget 0 2 [0, 1000] [0, 10] 1
        sampleChannel sampleWorld (ChannelsAdded.fresh _ "walk" rfl) sample_createChannel)
  ⟨hreach, by decide,
    (C1_duration_is_max_of_channel_durations sampleIds _ hreach).1⟩



/-- C2 (amended): for every strictly increasing key-time array with at least two
key times (and key values, tangents and sizes that fit the call), both
`createChannel` overloads return a channel whose curve has normalized time exactly
0 at its first keyframe and exactly 1 at its last keyframe, whatever the spacing of
the key times. -/
theorem C2_first_time_zero_last_time_one (ids : TransformIds) (w : World)
    (target : AnimationTarget) (pid : Int) (kc : Nat) (kt : List Nat) (kv kin kout : List ℚ)
    (ty : Nat)
    (hlen : kt.length = kc) (hkc : 2 ≤ kc) (_hinc : kt.Pairwise (· < ·))
    (hcc : 0 < target.getAnimationPropertyComponentCount pid)
    (hkv : kv.length = kc * target.getAnimationPropertyComponentCount pid)
    (hkin : kin.length = kc * target.getAnimationPropertyComponentCount pid)
    (hkout : kout.length = kc * target.getAnimationPropertyComponentCount pid)
    (hsmall : kc * target.getAnimationPropertyComponentCount pid < UINT_RANGE) :
    (∃ ch w1, createChannel ids w target pid kc kt kv ty = .ok (ch, w1) ∧
      ch._curve.pointTime 0 = some 0 ∧ ch._curve.pointTime (kc - 1) = some 1) ∧
    (∃ ch w1, createChannelInOut ids w target pid kc kt kv kin kout ty = .ok (ch, w1) ∧
      ch._curve.pointTime 0 = some 0 ∧ ch._curve.pointTime (kc - 1) = some 1) := by
  obtain ⟨first, last, hfirst, hlast⟩ := getElem?_first_last hlen hkc
  constructor
  · obtain ⟨curve3, hrun, _, _, _, h0, h1, _⟩ :=
      createChannel_spec ids w target pid kc kt kv ty first last hlen hkc hcc hkv hsmall
        hfirst hlast
    exact ⟨_, _, hrun, Curve.pointTime_of_point h0, Curve.pointTime_of_point h1⟩
  · obtain ⟨curve3, hrun, _, _, _, h0, h1, _⟩ :=
      createChannelInOut_spec ids w target pid kc kt kv kin kout ty first last hlen hkc hcc hkv
        hkin hkout hsmall hfirst hlast
    exact ⟨_, _, hrun, Curve.pointTime_of_point h0, Curve.pointTime_of_point h1⟩

theorem C2_first_time_zero_last_time_one_witness :
    (∃ ch w1, createChannel sampleIds (World.fresh "walk") sampleTarget 0 3 [17, 23, 1009]
        [0, 5, 10] 1 = .ok (ch, w1) ∧
      ch._curve.pointTime 0 = some 0 ∧ ch._curve.pointTime (3 - 1) = some 1) ∧
    (∃ ch w1, createChannelInOut sampleIds (World.fresh "walk") sampleTarget 0 3 [17, 23, 1009]
        [0, 5, 10] [1, 1, 1] [2, 2, 2] 1 = .ok (ch, w1) ∧
      ch._curve.pointTime 0 = some 0 ∧ ch._curve.pointTime (3 - 1) = some 1) :=
  C2_first_time_zero_last_time_one sampleIds (World.fresh "walk") sampleTarget 0 3
    [17, 23, 1009] [0, 5, 10] [1, 1, 1] [2, 2, 2] 1 rfl (by decide) (by decide) (by decide)
    rfl rfl rfl (by decide)

/-- C2 fails as stated: `[5]` is a strictly increasing key-time array, and on it
both overloads stop at the curve's two-keyframe precondition, so no curve is
produced. Without that precondition the code of lines 255 to 273 reads past the
one value slice (second conjunct from the end), and given readable memory there it
leaves the only keyframe with normalized time 1, not 0 (last conjunct). -/
theorem C2_counterexample_single_key :
    [5].Pairwise (· < ·) ∧
    createChannel sampleIds (World.fresh "walk") sampleTarget 0 1 [5] [0] 1
      = .error Fault.assertFailed ∧
    createChannelInOut sampleIds (World.fresh "walk") sampleTarget 0 1 [5] [0] [0] [0] 1
      = .error Fault.assertFailed ∧
    createChannelFill
      { _pointCount := 1, _componentCount := 1, _quaternionOffset := none, _points := [none],
        _setLog := [] }
      1 1 [5] [0] 1 = .error Fault.outOfBounds ∧
    (createChannelFill
      { _pointCount := 1, _componentCount := 1, _quaternionOffset := none, _points := [none],
        _setLog := [] }
      1 1 [5] [0, 0] 1).toOption.map (fun r => r.1.pointTime 0) = some (some 1) := by
  refine ⟨by decide, rfl, rfl, rfl, rfl⟩

/-- C3 (amended): for `keyCount ≥ 2` and strictly increasing key times,
`createChannel` returns a channel whose duration is `lastTime − firstTime`, which
is positive; every interior keyframe `i` gets the normalized time computed by the
`float` division `(float)(keyTimes[i] − firstTime) / (float)duration`; every
keyframe's normalized time lies in `[0, 1]`; the normalized times are
non-decreasing in the keyframe index, and strictly increasing whenever the
duration is below `2^24`. -/
theorem C3_normalized_times (ids : TransformIds) (w : World) (target : AnimationTarget)
    (pid : Int) (kc : Nat) (kt : List Nat) (kv : List ℚ) (ty : Nat) (first last : Nat)
    (hlen : kt.length = kc) (hkc : 2 ≤ kc) (hinc : kt.Pairwise (· < ·))
    (hbound : ∀ t ∈ kt, t < ULONG_RANGE)
    (hcc : 0 < target.getAnimationPropertyComponentCount pid)
    (hkv : kv.length = kc * target.getAnimationPropertyComponentCount pid)
    (hsmall : kc * target.getAnimationPropertyComponentCount pid < UINT_RANGE)
    (hfirst : kt[0]? = some first) (hlast : kt[kc - 1]? = some last) :
    ∃ ch w1, createChannel ids w target pid kc kt kv ty = .ok (ch, w1) ∧
      ch._duration = last - first ∧ 0 < ch._duration ∧
      (∀ i t, 0 < i → i < kc - 1 → kt[i]? = some t →
        ch._curve.pointTime i
          = some (floatDiv (floatOfULong (t - first)) (floatOfULong ch._duration))) ∧
      (∀ i, i < kc → ∃ t, ch._curve.pointTime i = some t ∧ 0 ≤ t ∧ t ≤ 1) ∧
      (∀ i j ti tj, i < j → j < kc → ch._curve.pointTime i = some ti →
        ch._curve.pointTime j = some tj → ti ≤ tj) ∧
      (ch._duration < 2 ^ 24 → ∀ i j ti tj, i < j → j < kc →
        ch._curve.pointTime i = some ti → ch._curve.pointTime j = some tj → ti < tj) := by
  obtain ⟨curve3, hrun, _, _, _, h0, h1, hmid⟩ :=
    createChannel_spec ids w target pid kc kt kv ty first last hlen hkc hcc hkv hsmall
      hfirst hlast
  have hfl := keyTimes_facts hinc hbound hfirst hlast
  have hdur : ulongSub last first = last - first := hfl.2.2 (by omega)
  have hlt : first < last := hfl.2.1 (by omega)
  have hdpos : 0 < last - first := by omega
  -- every keyframe holds the rounded quotient of its offset by the duration
  have htime : ∀ i t, i < kc → kt[i]? = some t →
      first ≤ t ∧ t ≤ last ∧
      curve3.pointTime i
        = some (floatDiv (floatOfULong (t - first)) (floatOfULong (last - first))) := by
    intro i t hi ht
    have hf := keyTimes_facts hinc hbound hfirst ht
    have hl := keyTimes_facts hinc hbound ht hlast
    refine ⟨hf.1 (by omega), hl.1 (by omega), ?_⟩
    rcases Nat.eq_zero_or_pos i with hi0 | hipos
    · subst hi0
      have : t = first := by rw [hfirst] at ht; exact (Option.some.inj ht).symm
      subst this
      rw [Curve.pointTime_of_point h0, Nat.sub_self, normalized_zero]
    · rcases lt_or_eq_of_le (Nat.le_sub_one_of_lt hi) with hlt1 | heq
      · rw [Curve.pointTime_of_point (hmid i t hipos hlt1 ht), hf.2.2 (by omega), hdur]
      · subst heq
        have : t = last := by rw [hlast] at ht; exact (Option.some.inj ht).symm
        subst this
        rw [Curve.pointTime_of_point h1, normalized_self hdpos]
  have hget : ∀ i, i < kc → ∃ t, kt[i]? = some t := fun i hi =>
    ⟨kt[i], List.getElem?_eq_getElem (by omega)⟩
  refine ⟨_, _, hrun, hdur, by simp only [hdur]; exact hdpos, ?_, ?_, ?_, ?_⟩
  · intro i t hi1 hi2 ht
    simp only [hdur]
    exact (htime i t (by omega) ht).2.2
  · intro i hi
    obtain ⟨t, ht⟩ := hget i hi
    obtain ⟨hft, htl, hpt⟩ := htime i t hi ht
    refine ⟨_, hpt, ?_, ?_⟩
    · rw [← normalized_zero (last - first)]
      exact normalized_mono hdpos (Nat.zero_le _)
    · rw [← normalized_self hdpos]
      exact normalized_mono hdpos (by omega)
  · intro i j ti tj hij hj hti htj
    obtain ⟨a, ha⟩ := hget i (by omega)
    obtain ⟨b, hb⟩ := hget j hj
    have hab := (keyTimes_facts hinc hbound ha hb).2.1 hij
    obtain ⟨hfa, _, hpa⟩ := htime i a (by omega) ha
    obtain ⟨_, _, hpb⟩ := htime j b hj hb
    simp only at hti htj
    rw [hpa] at hti
    rw [hpb] at htj
    rw [← Option.some.inj hti, ← Option.some.inj htj]
    exact normalized_mono hdpos (by omega)
  · intro hsmalld i j ti tj hij hj hti htj
    simp only [hdur] at hsmalld
    obtain ⟨a, ha⟩ := hget i (by omega)
    obtain ⟨b, hb⟩ := hget j hj
    have hab := (keyTimes_facts hinc hbound ha hb).2.1 hij
    obtain ⟨hfa, _, hpa⟩ := htime i a (by omega) ha
    obtain ⟨_, hbl, hpb⟩ := htime j b hj hb
    simp only at hti htj
    rw [hpa] at hti
    rw [hpb] at htj
    rw [← Option.some.inj hti, ← Option.some.inj htj]
    exact normalized_strictMono hsmalld (by omega) (by omega)

theorem C3_normalized_times_witness :
    ∃ ch w1, createChannel sampleIds (World.fresh "walk") sampleTarget 0 3 [17, 23, 1009]
        [0, 5, 10] 1 = .ok (ch, w1) ∧
      ch._duration = 1009 - 17 ∧ 0 < ch._duration ∧
      (∀ i t, 0 < i → i < 3 - 1 → [17, 23, 1009][i]? = some t →
        ch._curve.pointTime i
          = some (floatDiv (floatOfULong (t - 17)) (floatOfULong ch._duration))) ∧
      (∀ i, i < 3 → ∃ t, ch._curve.pointTime i = some t ∧ 0 ≤ t ∧ t ≤ 1) ∧
      (∀ i j ti tj, i < j → j < 3 → ch._curve.pointTime i = some ti →
        ch._curve.pointTime j = some tj → ti ≤ tj) ∧
      (ch._duration < 2 ^ 24 → ∀ i j ti tj, i < j → j < 3 →
        ch._curve.pointTime i = some ti → ch._curve.pointTime j = some tj → ti < tj) :=
  C3_normalized_times sampleIds (World.fresh "walk") sampleTarget 0 3 [17, 23, 1009]
    [0, 5, 10] 1 17 1009 rfl (by decide) (by decide) (by decide) (by decide) rfl (by decide)
    rfl rfl

/-- C3 fails as stated: the key times `[0, 33554432, 33554433, 67108864]` are
strictly increasing, yet `(float) 33554433` is `33554432`, so keyframes 1 and 2
both get the normalized time `1/2`: the sequence is not strictly increasing, and
keyframe 2 does not hold the exact quotient `33554433 / 67108864`. -/
theorem C3_counterexample_equal_times :
    [0, 33554432, 33554433, 67108864].Pairwise (· < ·) ∧
    (∃ ch w1, createChannel sampleIds (World.fresh "walk") sampleTarget 0 4
        [0, 33554432, 33554433, 67108864] [0, 1, 2, 3] 1 = .ok (ch, w1) ∧
      ch._curve.pointTime 1 = some (1 / 2) ∧ ch._curve.pointTime 2 = some (1 / 2)) ∧
    ((33554433 : ℚ) - 0) / 67108864 ≠ 1 / 2 := by
  refine ⟨by decide, ?_, by norm_num⟩
  obtain ⟨curve3, hrun, _, _, _, _, _, hmid⟩ :=
    createChannel_spec sampleIds (World.fresh "walk") sampleTarget 0 4
      [0, 33554432, 33554433, 67108864] [0, 1, 2, 3] 1 0 67108864 rfl (by decide) (by decide)
      rfl (by decide) rfl rfl
  have s1 : ulongSub 33554432 0 = 33554432 := by decide
  have s2 : ulongSub 33554433 0 = 33554433 := by decide
  have s3 : ulongSub 67108864 0 = 67108864 := by decide
  refine ⟨_, _, hrun, ?_, ?_⟩
  · rw [Curve.pointTime_of_point (hmid 1 33554432 (by decide) (by decide) rfl)]
    simp only [s1, s3, floatOfULong_33554432, floatOfULong_67108864, floatDiv_half]
  · rw [Curve.pointTime_of_point (hmid 2 33554433 (by decide) (by decide) rfl)]
    simp only [s2, s3, floatOfULong_33554433, floatOfULong_67108864, floatDiv_half]

/-- C4: `removeChannel` issues exactly one controller `destroyAnimation`
notification, and no other call, when the channel collection is empty after the
removal, in particular when the only remaining channel is the one removed; it
issues no call at all when one or more channels remain. -/
theorem C4_removeChannel_notification (w : World) (channel : Channel) :
    ((removeChannel w channel).animation._channels = [] →
      (removeChannel w channel).calls = w.calls ++ [ExternalCall.destroyAnimation]) ∧
    ((removeChannel w channel).animation._channels ≠ [] →
      (removeChannel w channel).calls = w.calls) ∧
    (∀ c, w.animation._channels = [c] → c.addr = channel.addr →
      (removeChannel w channel).animation._channels = [] ∧
      (removeChannel w channel).calls = w.calls ++ [ExternalCall.destroyAnimation]) ∧
    (removeChannel w channel).animation._channels
      = removeChannelLoop channel w.animation._channels := by
  have key : ∀ l, removeChannelLoop channel w.animation._channels = l →
      (removeChannel w channel).animation._channels = l ∧
      (l = [] → (removeChannel w channel).calls = w.calls ++ [ExternalCall.destroyAnimation]) ∧
      (l ≠ [] → (removeChannel w channel).calls = w.calls) := by
    intro l hl
    unfold removeChannel
    simp only [hl]
    cases l with
    | nil => simp
    | cons a l => simp
  obtain ⟨k1, k2, k3⟩ := key _ rfl
  refine ⟨fun h => k2 (k1 ▸ h), fun h => k3 (k1 ▸ h), ?_, k1⟩
  intro c hc hca
  have hl : removeChannelLoop channel w.animation._channels = [] := by
    rw [hc]; exact removeChannelLoop_single channel c hca
  obtain ⟨j1, j2, _⟩ := key [] hl
  exact ⟨j1, j2 rfl⟩

theorem C4_removeChannel_notification_witness :
    (removeChannel sampleWorld sampleChannel).animation._channels = [] ∧
    (removeChannel sampleWorld sampleChannel).calls
      = sampleWorld.calls ++ [ExternalCall.destroyAnimation] ∧
    (removeChannel (addChannel sampleWorld shortChannel) sampleChannel).calls
      = (addChannel sampleWorld shortChannel).calls :=
  ⟨((C4_removeChannel_notification sampleWorld sampleChannel).2.2.1 sampleChannel rfl rfl).1,
   ((C4_removeChannel_notification sampleWorld sampleChannel).2.2.1 sampleChannel rfl rfl).2,
   (C4_removeChannel_notification (addChannel sampleWorld shortChannel) sampleChannel).2.1
     (by decide)⟩

/-- C5: for every non-null id (and an explicit-clip collection whose size fits an
`unsigned int`), `getClip(id)` leaves the state unchanged and returns the first
clip, in insertion order, of the explicit-clip collection whose id equals `id`
exactly; it returns null if and only if no explicit clip has that id, in
particular when no explicit clip was ever created. -/
theorem C5_getClip_by_id (w : World) (id : String)
    (hsize : w.animation.explicitClips.length < UINT_RANGE) :
    (getClip w (some id)).2 = w ∧
    (getClip w (some id)).1
      = w.animation.explicitClips.find? (fun c => decide (c._id = id)) ∧
    ((getClip w (some id)).1 = none ↔ ∀ c ∈ w.animation.explicitClips, c._id ≠ id) ∧
    (w.animation._clips = none → (getClip w (some id)).1 = none) ∧
    (∀ c, (getClip w (some id)).1 = some c →
      c._id = id ∧
      ∃ before after, w.animation.explicitClips = before ++ c :: after ∧
        ∀ x ∈ before, x._id ≠ id) := by
  have hfind := findClip_eq_find w.animation id hsize
  refine ⟨rfl, hfind, ?_, ?_, ?_⟩
  · show findClip w.animation id = none ↔ _
    rw [hfind, List.find?_eq_none]
    simp
  · intro hnone
    show findClip w.animation id = none
    simp [findClip, hnone]
  · intro c hc
    have hc2 : w.animation.explicitClips.find? (fun c => decide (c._id = id)) = some c := by
      rw [← hfind]; exact hc
    obtain ⟨hp, before, after, hsplit, hbefore⟩ := List.find?_eq_some.mp hc2
    refine ⟨by simpa using hp, before, after, hsplit, ?_⟩
    intro x hx
    simpa using hbefore x hx

theorem C5_getClip_by_id_witness :
    clipsWorld.animation.explicitClips.length < UINT_RANGE ∧
    (getClip clipsWorld (some "run")).1 = some (AnimationClip.create 1 "run" 0 10) ∧
    (getClip clipsWorld (some "run")).1
      = clipsWorld.animation.explicitClips.find? (fun c => decide (c._id = "run")) ∧
    (getClip clipsWorld (some "Run")).1 = none :=
  ⟨by decide, rfl, (C5_getClip_by_id clipsWorld "run" (by decide)).2.1,
    (C5_getClip_by_id clipsWorld "Run" (by decide)).2.2.1.mpr (by decide)⟩

/-- C6: `getClip(null)` creates the default clip if and only if none exists yet;
the new clip starts at 0 and ends at the Animation's duration of that moment, and
nothing else of the Animation changes. When a default clip exists it is returned
and the state is left as it is. After the call, whatever calls follow, every later
`getClip(null)` returns the clip at the same address, with the same start and end,
and creates nothing. -/
theorem C6_getClip_default (ids : TransformIds) (w : World) (hreach : Reachable ids w) :
    (w.animation._defaultClip = none →
      (getClip w none).1
        = some (AnimationClip.create w.nextAddr "default_clip" 0 w.animation._duration) ∧
      (getClip w none).2.animation._defaultClip = (getClip w none).1 ∧
      (getClip w none).2.nextAddr = w.nextAddr + 1 ∧
      (getClip w none).2.animation._clips = w.animation._clips ∧
      (getClip w none).2.animation._channels = w.animation._channels ∧
      (getClip w none).2.animation._duration = w.animation._duration ∧
      (getClip w none).2.calls = w.calls) ∧
    (∀ d, w.animation._defaultClip = some d → getClip w none = (some d, w)) ∧
    (∃ d, (getClip w none).1 = some d ∧ d._startTime = 0 ∧
      ∀ w2, ReachableFrom ids (getClip w none).2 w2 →
        ∃ d2, getClip w2 none = (some d2, w2) ∧ d2.addr = d.addr ∧
          d2._startTime = d._startTime ∧ d2._endTime = d._endTime) := by
  have hinv := hreach.clipInvariant
  have hinv1 : ClipInvariant (getClip w none).2 := (getClip_effect none).preserves hinv
  have hsome : ∀ d, w.animation._defaultClip = some d → getClip w none = (some d, w) := by
    intro d hd
    simp [getClip, hd]
  refine ⟨?_, hsome, ?_⟩
  · intro hnone
    simp only [getClip, hnone]
    refine ⟨?_, ?_, ?_, ?_, ?_, ?_, ?_⟩ <;> first | rfl | trivial
  · have hres : ∃ d, (getClip w none).1 = some d ∧
        (getClip w none).2.animation._defaultClip = some d ∧ d._startTime = 0 := by
      cases hd : w.animation._defaultClip with
      | none =>
        refine ⟨AnimationClip.create w.nextAddr "default_clip" 0 w.animation._duration, ?_, ?_, rfl⟩
        · simp only [getClip, hd]; rfl
        · simp only [getClip, hd]; rfl
      | some d =>
        rw [hsome d hd]
        exact ⟨d, rfl, hd, (hinv.default_span d.ident (by rw [hd]; rfl)).2.1⟩
    obtain ⟨d, h1, h2, h3⟩ := hres
    refine ⟨d, h1, h3, ?_⟩
    intro w2 hfrom
    have hkept := hfrom.defaultKeptFrom hinv1 (i := d.ident) (by rw [h2]; rfl)
    cases hd2 : w2.animation._defaultClip with
    | none => rw [hd2] at hkept; cases hkept
    | some d2 =>
      rw [hd2] at hkept
      have hid : d2.ident = d.ident := Option.some.inj hkept
      obtain ⟨a1, _, a3, a4⟩ := (ident_eq_iff d2 d).mp hid
      refine ⟨d2, ?_, a1, a3, a4⟩
      simp [getClip, hd2]

theorem C6_getClip_default_witness :
    sampleWorld.animation.getDuration = 1000 ∧
    (getClip sampleWorld none).1 = some (AnimationClip.create 1 "default_clip" 0 1000) ∧
    (∃ d, (getClip sampleWorld none).1 = some d ∧ d._startTime = 0 ∧
      ∀ w2, ReachableFrom sampleIds (getClip sampleWorld none).2 w2 →
        ∃ d2, getClip w2 none = (some d2, w2) ∧ d2.addr = d.addr ∧
          d2._startTime = d._startTime ∧ d2._endTime = d._endTime) :=
  ⟨rfl, ((C6_getClip_default sampleIds sampleWorld sampleWorld_reachable).1 rfl).1,
    (C6_getClip_default sampleIds sampleWorld sampleWorld_reachable).2.2⟩

/-- C7 (amended): for an Animation that has no default clip yet, `play(null)`
creates the default clip, at the next free address, from 0 to the duration, so
that afterwards the Animation has a default clip; `stop(null)` and `pause(null)`
create no clip and leave everything as it is. A default clip that already exists
is reused by all three calls: no clip is allocated and the default clip stays the
object at the same address. -/
theorem C7_default_clip_on_play_stop_pause (w : World) :
    (w.animation._defaultClip = none →
      (∃ d, (play w none).animation._defaultClip = some d ∧
        d.ident = (w.nextAddr, "default_clip", 0, w.animation._duration)) ∧
      (play w none).nextAddr = w.nextAddr + 1 ∧
      stop w none = w ∧ pause w none = w) ∧
    (∀ d, w.animation._defaultClip = some d →
      (∃ d1, (play w none).animation._defaultClip = some d1 ∧ d1.addr = d.addr) ∧
      (play w none).nextAddr = w.nextAddr ∧
      (∃ d1, (stop w none).animation._defaultClip = some d1 ∧ d1.addr = d.addr) ∧
      (stop w none).nextAddr = w.nextAddr ∧
      (∃ d1, (pause w none).animation._defaultClip = some d1 ∧ d1.addr = d.addr) ∧
      (pause w none).nextAddr = w.nextAddr) := by
  constructor
  · intro hnone
    refine ⟨?_, ?_, by simp [stop, hnone], by simp [pause, hnone]⟩
    · have h := callClip_default (w := createDefaultClip w)
        (d := AnimationClip.create w.nextAddr "default_clip" 0 w.animation._duration)
        AnimationClip.play play_ident rfl
      refine ⟨_, ?_, (play_ident
        (AnimationClip.create w.nextAddr "default_clip" 0 w.animation._duration)).trans rfl⟩
      simp only [play, hnone]
      exact h.1
    · have h := callClip_default (w := createDefaultClip w)
        (d := AnimationClip.create w.nextAddr "default_clip" 0 w.animation._duration)
        AnimationClip.play play_ident rfl
      simp only [play, hnone]
      exact h.2
  · intro d hd
    have hp := callClip_default AnimationClip.play play_ident hd
    have hs := callClip_default AnimationClip.stop stop_ident hd
    have hq := callClip_default AnimationClip.pause pause_ident hd
    refine ⟨⟨_, ?_, ((ident_eq_iff _ _).mp (play_ident d)).1⟩, ?_,
      ⟨_, ?_, ((ident_eq_iff _ _).mp (stop_ident d)).1⟩, ?_,
      ⟨_, ?_, ((ident_eq_iff _ _).mp (pause_ident d)).1⟩, ?_⟩
    · simp only [play, hd]; exact hp.1
    · simp only [play, hd]; exact hp.2
    · simp only [stop, hd]; exact hs.1
    · simp only [stop, hd]; exact hs.2
    · simp only [pause, hd]; exact hq.1
    · simp only [pause, hd]; exact hq.2

theorem C7_default_clip_on_play_stop_pause_witness :
    (∃ d, (play sampleWorld none).animation._defaultClip = some d ∧
      d.ident = (1, "default_clip", 0, 1000)) ∧
    (play sampleWorld none).nextAddr = 2 ∧
    stop sampleWorld none = sampleWorld ∧ pause sampleWorld none = sampleWorld :=
  (C7_default_clip_on_play_stop_pause sampleWorld).1 rfl

/-- C7 fails as stated: on an Animation without a default clip, `stop(null)` and
`pause(null)` return with the Animation still lacking its default clip. -/
theorem C7_counterexample_stop_pause :
    sampleWorld.animation._defaultClip = none ∧
    (stop sampleWorld none).animation._defaultClip = none ∧
    (pause sampleWorld none).animation._defaultClip = none := by
  refine ⟨rfl, rfl, rfl⟩

/-- C8: in every reachable state the default clip is not an element of the
explicit-clip collection: no explicit clip is the object at the default clip's
address. Creating the default clip leaves the explicit-clip collection unchanged,
and a lookup by id, `findClip(id)` or `getClip(id)` with a non-null id, the id
"default_clip" included, never returns the default clip, whether the default clip
exists already or is created next. -/
theorem C8_default_clip_not_explicit (ids : TransformIds) (w : World)
    (hreach : Reachable ids w) :
    (∀ d, w.animation._defaultClip = some d →
      ∀ c ∈ w.animation.explicitClips, c.addr ≠ d.addr) ∧
    (createDefaultClip w).animation._clips = w.animation._clips ∧
    (∀ id c d, findClip w.animation id = some c → w.animation._defaultClip = some d →
      c.addr ≠ d.addr) ∧
    (∀ id c d, (getClip w (some id)).1 = some c → w.animation._defaultClip = some d →
      c.addr ≠ d.addr) ∧
    (∀ id c d, findClip (createDefaultClip w).animation id = some c →
      (createDefaultClip w).animation._defaultClip = some d → c.addr ≠ d.addr) := by
  have hinv := hreach.clipInvariant
  have h1 : ∀ d, w.animation._defaultClip = some d →
      ∀ c ∈ w.animation.explicitClips, c.addr ≠ d.addr := by
    intro d hd c hc
    exact hinv.default_not_explicit d.ident (by rw [hd]; rfl) c.ident (List.mem_map_of_mem _ hc)
  refine ⟨h1, rfl, ?_, ?_, ?_⟩
  · intro id c d hf hd
    exact h1 d hd c (findClip_some hf).1
  · intro id c d hf hd
    exact h1 d hd c (findClip_some hf).1
  · intro id c d hf hd
    have hc : c ∈ w.animation.explicitClips := (findClip_some hf).1
    have hlt := mem_explicit_addr_lt hinv hc
    have : d = AnimationClip.create w.nextAddr "default_clip" 0 w.animation._duration :=
      (Option.some.inj hd).symm
    rw [this]
    exact hlt.ne

theorem C8_default_clip_not_explicit_witness :
    (getClip namesakeWorld (some "default_clip")).1
      = some (AnimationClip.create 1 "default_clip" 0 1000) ∧
    namesakeWorld.animation._defaultClip = some (AnimationClip.create 2 "default_clip" 0 1000) ∧
    (∀ id c d, (getClip namesakeWorld (some id)).1 = some c →
      namesakeWorld.animation._defaultClip = some d → c.addr ≠ d.addr) :=
  ⟨rfl, rfl, (C8_default_clip_not_explicit sampleIds namesakeWorld namesakeWorld_reachable).2.2.2.1⟩

/-- C9: for every non-null clip id that matches no explicit clip of the Animation,
`play(id)`, `stop(id)` and `pause(id)` return normally and leave the whole world
as it is: the explicit clips, the default clip, the channels, the duration, every
clip's state, and the log of external calls, to which no controller call is added. -/
theorem C9_unknown_id_is_noop (w : World) (id : String)
    (hno : ∀ c ∈ w.animation.explicitClips, c._id ≠ id) :
    play w (some id) = w ∧ stop w (some id) = w ∧ pause w (some id) = w := by
  have hf := findClip_none hno
  refine ⟨?_, ?_, ?_⟩
  · simp only [play, hf]
  · simp only [stop, hf]
  · simp only [pause, hf]

theorem C9_unknown_id_is_noop_witness :
    play clipsWorld (some "jump") = clipsWorld ∧ stop clipsWorld (some "jump") = clipsWorld ∧
    pause clipsWorld (some "jump") = clipsWorld :=
  C9_unknown_id_is_noop clipsWorld "jump" (by decide)

/-- C10: `createClip(id, start, end)` allocates one clip with the given id, start
and end, appends it at the end of the explicit-clip collection (which exists
afterwards), leaves the earlier clips, their order and the rest of the Animation
unchanged, and returns the new clip. Afterwards, the collection's size fitting an
`unsigned int`, `getClip(id)` is non-null, and it returns the new clip whenever no
earlier clip had the same id. -/
theorem C10_createClip_appends (w : World) (id : String) (start end_ : Nat)
    (hsize : w.animation.explicitClips.length + 1 < UINT_RANGE) :
    (createClip w id start end_).1 = AnimationClip.create w.nextAddr id start end_ ∧
    (createClip w id start end_).1._id = id ∧
    (createClip w id start end_).1._startTime = start ∧
    (createClip w id start end_).1._endTime = end_ ∧
    (createClip w id start end_).2.animation._clips
      = some (w.animation.explicitClips ++ [(createClip w id start end_).1]) ∧
    (createClip w id start end_).2.animation._defaultClip = w.animation._defaultClip ∧
    (createClip w id start end_).2.animation._duration = w.animation._duration ∧
    (createClip w id start end_).2.animation._channels = w.animation._channels ∧
    (createClip w id start end_).2.calls = w.calls ∧
    (getClip (createClip w id start end_).2 (some id)).1 ≠ none ∧
    ((∀ c ∈ w.animation.explicitClips, c._id ≠ id) →
      (getClip (createClip w id start end_).2 (some id)).1
        = some (createClip w id start end_).1) := by
  obtain ⟨f1, f2, f3, f4, _, f6⟩ := createClip_frame w id start end_
  have fe := createClip_explicitClips w id start end_
  have hclips : (createClip w id start end_).2.animation._clips
      = some (w.animation.explicitClips ++ [(createClip w id start end_).1]) := by
    rw [f1]
    unfold createClip addClip Animation.explicitClips
    cases h : w.animation._clips <;> simp [h]
  have hsize1 : (createClip w id start end_).2.animation.explicitClips.length < UINT_RANGE := by
    rw [fe]; simpa using hsize
  have hfind := findClip_eq_find (createClip w id start end_).2.animation id hsize1
  rw [fe] at hfind
  refine ⟨f1, by rw [f1]; rfl, by rw [f1]; rfl, by rw [f1]; rfl, hclips, f2, f3, f4, f6, ?_, ?_⟩
  · show findClip _ id ≠ none
    rw [hfind]
    intro hnone
    rw [List.find?_eq_none] at hnone
    have := hnone (AnimationClip.create w.nextAddr id start end_) (by simp)
    simp [AnimationClip.create] at this
  · intro hno
    show findClip _ id = _
    rw [hfind, f1, List.find?_append]
    have : List.find? (fun c => decide (c._id = id)) w.animation.explicitClips = none := by
      rw [List.find?_eq_none]
      intro x hx
      simpa using hno x hx
    rw [this]
    simp [AnimationClip.create]

theorem C10_createClip_appends_witness :
    (createClip sampleWorld "run" 0 10).2.animation._clips
      = some [AnimationClip.create 1 "run" 0 10] ∧
    (getClip (createClip sampleWorld "run" 0 10).2 (some "run")).1
      = some (createClip sampleWorld "run" 0 10).1 :=
  ⟨(C10_createClip_appends sampleWorld "run" 0 10 (by decide)).2.2.2.2.1,
   (C10_createClip_appends sampleWorld "run" 0 10 (by decide)).2.2.2.2.2.2.2.2.2.2
     (by decide)⟩

/-- C12: both `createChannel` overloads give the curve a rotation (quaternion)
offset exactly when the target is a transform target and the property id, as an
`unsigned int`, is one of the three rotation ids (distinct `case` labels): the
rotation-only and rotation+translation ids give offset 0, the
scale+rotation+translation id gives offset 3; for every other property id, and for
every non-transform target, the curve has no rotation offset. -/
theorem C12_rotation_offset (ids : TransformIds) (w : World) (target : AnimationTarget)
    (pid : Int) (kc : Nat) (kt : List Nat) (kv kin kout : List ℚ) (ty : Nat)
    (hdistinct : ids.ANIMATE_SCALE_ROTATE_TRANSLATE ≠ ids.ANIMATE_ROTATE ∧
      ids.ANIMATE_SCALE_ROTATE_TRANSLATE ≠ ids.ANIMATE_ROTATE_TRANSLATE)
    (ch : Channel) (w1 : World)
    (hrun : createChannel ids w target pid kc kt kv ty = .ok (ch, w1) ∨
      createChannelInOut ids w target pid kc kt kv kin kout ty = .ok (ch, w1)) :
    (target._targetType = TargetType.TRANSFORM →
      (intToUInt pid = ids.ANIMATE_ROTATE ∨ intToUInt pid = ids.ANIMATE_ROTATE_TRANSLATE →
        ch._curve._quaternionOffset = some 0) ∧
      (intToUInt pid = ids.ANIMATE_SCALE_ROTATE_TRANSLATE →
        ch._curve._quaternionOffset = some 3) ∧
      (intToUInt pid ≠ ids.ANIMATE_ROTATE → intToUInt pid ≠ ids.ANIMATE_ROTATE_TRANSLATE →
        intToUInt pid ≠ ids.ANIMATE_SCALE_ROTATE_TRANSLATE →
        ch._curve._quaternionOffset = none)) ∧
    (target._targetType ≠ TargetType.TRANSFORM → ch._curve._quaternionOffset = none) := by
  have hoff : ch._curve._quaternionOffset
      = (initialCurve ids target pid kc)._quaternionOffset := by
    rcases hrun with h | h
    · obtain ⟨_, _, c3, d, hfill, hch, _⟩ := createChannel_inv h
      rw [hch]
      exact (createChannelFill_inv hfill).1
    · obtain ⟨_, _, c3, d, hfill, hch, _⟩ := createChannelInOut_inv h
      rw [hch]
      exact (createChannelInOutFill_inv hfill).1
  rw [hoff, initialCurve_quaternionOffset]
  refine ⟨fun ht => ⟨fun h => ?_, fun h => ?_, fun h1 h2 h3 => ?_⟩, fun ht => ?_⟩
  · rw [if_pos ht, if_pos h]
  · rw [if_pos ht, if_neg (by rw [h]; exact not_or.mpr hdistinct), if_pos h]
  · rw [if_pos ht, if_neg (not_or.mpr ⟨h1, h2⟩), if_neg h3]
  · rw [if_neg ht]

theorem C12_rotation_offset_witness :
    ∃ ch w1, createChannel sampleIds (World.fresh "walk") transformTarget 17 2 [0, 1000]
        [0, 0, 0, 0, 0, 0, 0, 1] 1 = .ok (ch, w1) ∧
      ch._curve._quaternionOffset = some 3 := by
  obtain ⟨ch, w1, hrun, _⟩ :=
    createChannel_points sampleIds (World.fresh "walk") transformTarget 17 2 [0, 1000]
      [0, 0, 0, 0, 0, 0, 0, 1] 1 0 1000 rfl (by decide) (by decide) rfl (by decide) rfl rfl
  exact ⟨ch, w1, hrun,
    ((C12_rotation_offset sampleIds (World.fresh "walk") transformTarget 17 2 [0, 1000]
      [0, 0, 0, 0, 0, 0, 0, 1] [] [] 1 (by decide) ch w1 (Or.inl hrun)).1 rfl).2.1 (by decide)⟩

/-- C17: for `keyCount ≥ 2`, a key-time array of length `keyCount` and a value array
of length `keyCount × componentCount` (a size that fits an `unsigned int`),
`createChannel` returns a channel, so that every read of the key-time and value
arrays was within bounds; `setPoint` was called for the keyframe indices
0, 1, …, keyCount−1, each exactly once and in increasing order; and keyframe `i`
holds the slice of `componentCount` values that starts at the flat index
`i × componentCount`. -/
theorem C17_keyframes_filled_in_order (ids : TransformIds) (w : World)
    (target : AnimationTarget) (pid : Int) (kc : Nat) (kt : List Nat) (kv : List ℚ) (ty : Nat)
    (hlen : kt.length = kc) (hkc : 2 ≤ kc)
    (hcc : 0 < target.getAnimationPropertyComponentCount pid)
    (hkv : kv.length = kc * target.getAnimationPropertyComponentCount pid)
    (hsmall : kc * target.getAnimationPropertyComponentCount pid < UINT_RANGE) :
    ∃ ch w1, createChannel ids w target pid kc kt kv ty = .ok (ch, w1) ∧
      ch._curve._setLog = List.range kc ∧
      (∀ i, i < kc → ∃ p, ch._curve._points[i]? = some (some p) ∧
        p.value = (kv.drop (i * target.getAnimationPropertyComponentCount pid)).take
          (target.getAnimationPropertyComponentCount pid) ∧
        p.value.length = target.getAnimationPropertyComponentCount pid ∧
        i * target.getAnimationPropertyComponentCount pid
          + target.getAnimationPropertyComponentCount pid ≤ kv.length) ∧
      (∀ i, i < kc → i < kt.length) := by
  obtain ⟨first, last, hfirst, hlast⟩ := getElem?_first_last hlen hkc
  obtain ⟨ch, w1, hrun, _, _, _, _, _, _, _, hpts⟩ :=
    createChannel_points ids w target pid kc kt kv ty first last hlen hkc hcc hkv hsmall
      hfirst hlast
  have hkcu : kc < UINT_RANGE := lt_of_le_of_lt (Nat.le_mul_of_pos_right kc hcc) hsmall
  obtain ⟨_, _, c3, d, hfill, hch, _⟩ := createChannel_inv hrun
  have hlog : ch._curve._setLog = List.range kc := by
    rw [hch]
    simp only
    rw [(createChannelFill_inv hfill).2 hkc hkcu, initialCurve_setLog]
    rfl
  refine ⟨ch, w1, hrun, hlog, ?_, fun i hi => by omega⟩
  intro i hi
  refine ⟨_, hpts i hi, rfl, slice_length hkv hi, ?_⟩
  rw [hkv]
  calc i * target.getAnimationPropertyComponentCount pid
        + target.getAnimationPropertyComponentCount pid
      = (i + 1) * target.getAnimationPropertyComponentCount pid := by ring
    _ ≤ kc * target.getAnimationPropertyComponentCount pid := Nat.mul_le_mul_right _ hi

theorem C17_keyframes_filled_in_order_witness :
    ∃ ch w1, createChannel sampleIds (World.fresh "walk") transformTarget 17 3 [0, 400, 1000]
        [1, 2, 3, 4, 5, 6, 7, 8, 9, 10, 11, 12] 1 = .ok (ch, w1) ∧
      ch._curve._setLog = List.range 3 ∧
      (∀ i, i < 3 → ∃ p, ch._curve._points[i]? = some (some p) ∧
        p.value = (([1, 2, 3, 4, 5, 6, 7, 8, 9, 10, 11, 12] : List ℚ).drop
          (i * transformTarget.getAnimationPropertyComponentCount 17)).take
          (transformTarget.getAnimationPropertyComponentCount 17) ∧
        p.value.length = transformTarget.getAnimationPropertyComponentCount 17 ∧
        i * transformTarget.getAnimationPropertyComponentCount 17
          + transformTarget.getAnimationPropertyComponentCount 17
            ≤ ([1, 2, 3, 4, 5, 6, 7, 8, 9, 10, 11, 12] : List ℚ).length) ∧
      (∀ i, i < 3 → i < [0, 400, 1000].length) :=
  C17_keyframes_filled_in_order sampleIds (World.fresh "walk") transformTarget 17 3
    [0, 400, 1000] [1, 2, 3, 4, 5, 6, 7, 8, 9, 10, 11, 12] 1 rfl (by decide) (by decide) rfl
    (by decide)

/-- C19: for the same target, property id, key count, key times, key values and
interpolation type (with `keyCount ≥ 2` and arrays of the sizes the loops read), the
`createChannel` overload with tangents and the one without both return a channel, and
the two channels have the same duration, the same rotation offset, and at every
keyframe the same normalized time, value slice and interpolation type; the Animation
ends up with the same duration, the same clips and the same earlier channels, followed
by the new channel, and with the same external calls. The overload with tangents gives
keyframe `i` the in and out slices starting at `i × componentCount`; the other one
stores no tangents. -/
theorem C19_overloads_agree (ids : TransformIds) (w : World) (target : AnimationTarget)
    (pid : Int) (kc : Nat) (kt : List Nat) (kv kin kout : List ℚ) (ty : Nat)
    (hlen : kt.length = kc) (hkc : 2 ≤ kc)
    (hcc : 0 < target.getAnimationPropertyComponentCount pid)
    (hkv : kv.length = kc * target.getAnimationPropertyComponentCount pid)
    (hkin : kin.length = kc * target.getAnimationPropertyComponentCount pid)
    (hkout : kout.length = kc * target.getAnimationPropertyComponentCount pid)
    (hsmall : kc * target.getAnimationPropertyComponentCount pid < UINT_RANGE) :
    ∃ ch1 w1 ch2 w2,
      createChannel ids w target pid kc kt kv ty = .ok (ch1, w1) ∧
      createChannelInOut ids w target pid kc kt kv kin kout ty = .ok (ch2, w2) ∧
      ch1._duration = ch2._duration ∧
      ch1.addr = ch2.addr ∧ ch1._target = ch2._target ∧ ch1._propertyId = ch2._propertyId ∧
      ch1._curve._quaternionOffset = ch2._curve._quaternionOffset ∧
      ch1._curve._pointCount = ch2._curve._pointCount ∧
      ch1._curve._componentCount = ch2._curve._componentCount ∧
      (∀ i, i < kc → ∃ p1 p2,
        ch1._curve._points[i]? = some (some p1) ∧ ch2._curve._points[i]? = some (some p2) ∧
        p1.time = p2.time ∧ p1.value = p2.value ∧ p1.type = p2.type ∧
        p1.value = (kv.drop (i * target.getAnimationPropertyComponentCount pid)).take
          (target.getAnimationPropertyComponentCount pid) ∧
        p1.inValue = none ∧ p1.outValue = none ∧
        p2.inValue = some
          ((kin.drop (i * target.getAnimationPropertyComponentCount pid)).take
            (target.getAnimationPropertyComponentCount pid)) ∧
        p2.outValue = some
          ((kout.drop (i * target.getAnimationPropertyComponentCount pid)).take
            (target.getAnimationPropertyComponentCount pid))) ∧
      w1.animation._duration = w2.animation._duration ∧
      w1.animation._id = w2.animation._id ∧
      w1.animation._defaultClip = w2.animation._defaultClip ∧
      w1.animation._clips = w2.animation._clips ∧
      w1.animation._channels = w.animation._channels ++ [ch1] ∧
      w2.animation._channels = w.animation._channels ++ [ch2] ∧
      w1.nextAddr = w2.nextAddr ∧ w1.calls = w2.calls := by
  obtain ⟨first, last, hfirst, hlast⟩ := getElem?_first_last hlen hkc
  obtain ⟨ch1, w1, hrun1, ha1, ht1, hp1, hd1, hw1, hpc1, hcc1, hpts1⟩ :=
    createChannel_points ids w target pid kc kt kv ty first last hlen hkc hcc hkv hsmall
      hfirst hlast
  obtain ⟨ch2, w2, hrun2, ha2, ht2, hp2, hd2, hw2, hpc2, hcc2, hpts2⟩ :=
    createChannelInOut_points ids w target pid kc kt kv kin kout ty first last hlen hkc hcc
      hkv hkin hkout hsmall hfirst hlast
  obtain ⟨_, _, c3, d, hfill1, hch1, _⟩ := createChannel_inv hrun1
  obtain ⟨_, _, c4, e, hfill2, hch2, _⟩ := createChannelInOut_inv hrun2
  have hq : ch1._curve._quaternionOffset = ch2._curve._quaternionOffset := by
    rw [hch1, hch2]
    simp only
    rw [(createChannelFill_inv hfill1).1, (createChannelInOutFill_inv hfill2).1]
  have hdd : ch1._duration = ch2._duration := hd1.trans hd2.symm
  refine ⟨ch1, w1, ch2, w2, hrun1, hrun2, hdd, ha1.trans ha2.symm, ht1.trans ht2.symm,
    hp1.trans hp2.symm, hq, hpc1.trans hpc2.symm, hcc1.trans hcc2.symm, ?_, ?_, ?_, ?_, ?_, ?_,
    ?_, ?_, ?_⟩
  · intro i hi
    exact ⟨_, _, hpts1 i hi, hpts2 i hi, rfl, rfl, rfl, rfl, rfl, rfl, rfl, rfl⟩
  · rw [hw1, hw2]
    simp only [addChannel, Animation.addChannel_duration, hdd]
  · rw [hw1, hw2]
    simp only [addChannel, Animation.addChannel_id]
  · rw [hw1, hw2]
    simp only [addChannel, Animation.addChannel_default]
  · rw [hw1, hw2]
    simp only [addChannel, Animation.addChannel_clips]
  · rw [hw1]
    simp only [addChannel, Animation.addChannel_channels]
  · rw [hw2]
    simp only [addChannel, Animation.addChannel_channels]
  · rw [hw1, hw2]; rfl
  · rw [hw1, hw2]; rfl

theorem C19_overloads_agree_witness :
    ∃ ch1 w1 ch2 w2,
      createChannel sampleIds (World.fresh "walk") transformTarget 17 2 [0, 1000]
        [1, 2, 3, 4, 5, 6, 7, 8] 1 = .ok (ch1, w1) ∧
      createChannelInOut sampleIds (World.fresh "walk") transformTarget 17 2 [0, 1000]
        [1, 2, 3, 4, 5, 6, 7, 8] [0, 0, 0, 0, 1, 1, 1, 1] [2, 2, 2, 2, 3, 3, 3, 3] 1
          = .ok (ch2, w2) ∧
      ch1._duration = ch2._duration ∧
      ch1._curve._quaternionOffset = ch2._curve._quaternionOffset ∧
      w1.animation._duration = w2.animation._duration := by
  obtain ⟨ch1, w1, ch2, w2, h1, h2, h3, _, _, _, h7, _, _, _, h11, _⟩ :=
    C19_overloads_agree sampleIds (World.fresh "walk") transformTarget 17 2 [0, 1000]
      [1, 2, 3, 4, 5, 6, 7, 8] [0, 0, 0, 0, 1, 1, 1, 1] [2, 2, 2, 2, 3, 3, 3, 3] 1
      rfl (by decide) (by decide) rfl rfl rfl (by decide)
  exact ⟨ch1, w1, ch2, w2, h1, h2, h3, h7, h11⟩

/-- C13: in every reachable state, the calls that `~Animation` issues after the
earlier ones contain, for every clip of the Animation that is playing (the default
clip as well as each explicit clip), exactly one `unschedule` of that clip,
immediately followed by the only `release` of that clip; they contain no
`unschedule` of a clip that is not playing, and every `unschedule` they contain is
for a playing clip of the Animation. -/
theorem C13_destructor_unschedules_playing_clips (ids : TransformIds) (w : World)
    (hreach : Reachable ids w) :
    ∃ issued, (destructor w).calls = w.calls ++ issued ∧
      (∀ c ∈ w.animation.allClips,
        c.isClipStateBitSet ClipStateBit.CLIP_IS_PLAYING_BIT = true →
        issued.count (ExternalCall.unschedule c.addr) = 1 ∧
        issued.count (ExternalCall.release c.addr) = 1 ∧
        ∃ pre post, issued
          = pre ++ ExternalCall.unschedule c.addr :: ExternalCall.release c.addr :: post) ∧
      (∀ c ∈ w.animation.allClips,
        c.isClipStateBitSet ClipStateBit.CLIP_IS_PLAYING_BIT = false →
        issued.count (ExternalCall.unschedule c.addr) = 0 ∧
        issued.count (ExternalCall.release c.addr) = 1) ∧
      (∀ a, ExternalCall.unschedule a ∈ issued →
        ∃ c ∈ w.animation.allClips, c.addr = a ∧
          c.isClipStateBitSet ClipStateBit.CLIP_IS_PLAYING_BIT = true) := by
  have hnd := allClips_nodup hreach.clipInvariant
  refine ⟨destructorLoop w.animation.allClips, destructor_calls w, ?_, ?_, ?_⟩
  · intro c hc hp
    have hp1 : c._isPlaying = true := hp
    obtain ⟨i1, i2⟩ := destructorLoop_count _ hnd c hc
    obtain ⟨pre, post, hsplit⟩ := destructorLoop_split _ c hc
    refine ⟨by rw [i1, if_pos hp1], i2, pre, post, ?_⟩
    rw [hsplit]
    unfold destroyClip
    simp [hp]
  · intro c hc hp
    have hp1 : ¬ c._isPlaying = true := by
      have : c._isPlaying = false := hp
      simp [this]
    obtain ⟨i1, i2⟩ := destructorLoop_count _ hnd c hc
    exact ⟨by rw [i1, if_neg hp1], i2⟩
  · intro a ha
    exact destructorLoop_unschedule_mem _ a ha

/-- C14: the `Channel` constructor fails if and only if the target reports zero
components for the property id, and the failure is the fatal assertion; it succeeds
otherwise. When the count is zero both `createChannel` overloads stop at their own
assertion, before anything is allocated: they return no channel and no successor
state, so no channel is appended and the duration is not changed. -/
theorem C14_zero_component_count_asserts (ids : TransformIds) (w : World)
    (target : AnimationTarget) (pid : Int) (curve : Curve) (duration : Nat) (kc : Nat)
    (kt : List Nat) (kv kin kout : List ℚ) (ty : Nat) :
    (Channel.create w target pid curve duration = .error .assertFailed
      ↔ target.getAnimationPropertyComponentCount pid = 0) ∧
    ((∃ f, Channel.create w target pid curve duration = .error f)
      ↔ target.getAnimationPropertyComponentCount pid = 0) ∧
    (target.getAnimationPropertyComponentCount pid ≠ 0 →
      ∃ ch w1, Channel.create w target pid curve duration = .ok (ch, w1)) ∧
    (target.getAnimationPropertyComponentCount pid = 0 →
      createChannel ids w target pid kc kt kv ty = .error .assertFailed ∧
      createChannelInOut ids w target pid kc kt kv kin kout ty = .error .assertFailed ∧
      (∀ ch w1, createChannel ids w target pid kc kt kv ty ≠ .ok (ch, w1)) ∧
      (∀ ch w1, createChannelInOut ids w target pid kc kt kv kin kout ty ≠ .ok (ch, w1))) := by
  refine ⟨?_, ?_, ?_, ?_⟩
  · unfold Channel.create
    by_cases h : target.getAnimationPropertyComponentCount pid = 0 <;> simp [h]
  · unfold Channel.create
    by_cases h : target.getAnimationPropertyComponentCount pid = 0 <;> simp [h]
  · intro h
    unfold Channel.create
    simp [h]
  · intro h
    have h1 : createChannel ids w target pid kc kt kv ty = .error .assertFailed := by
      unfold createChannel
      simp only [h, gt_iff_lt, lt_self_iff_false, if_false]
    have h2 : createChannelInOut ids w target pid kc kt kv kin kout ty
        = .error .assertFailed := by
      unfold createChannelInOut
      simp only [h, gt_iff_lt, lt_self_iff_false, if_false]
    refine ⟨h1, h2, ?_, ?_⟩
    · intro ch w1 e
      rw [h1] at e
      cases e
    · intro ch w1 e
      rw [h2] at e
      cases e

theorem C14_zero_component_count_asserts_witness :
    createChannel sampleIds sampleWorld emptyTarget 1 2 [0, 1000] [] 1
      = .error .assertFailed ∧
    createChannelInOut sampleIds sampleWorld emptyTarget 1 2 [0, 1000] [] [] [] 1
      = .error .assertFailed :=
  ⟨((C14_zero_component_count_asserts sampleIds sampleWorld emptyTarget 1
      sampleChannel._curve 1000 2 [0, 1000] [] [] [] 1).2.2.2 rfl).1,
   ((C14_zero_component_count_asserts sampleIds sampleWorld emptyTarget 1
      sampleChannel._curve 1000 2 [0, 1000] [] [] [] 1).2.2.2 rfl).2.1⟩

/-- C20: `removeChannel(c)` removes the first element of the channel collection that
is the object `c` and nothing else: the channels before and after it stay, in their
order; a channel that is not in the collection leaves the collection unchanged; the
duration, the id and the clips are left unchanged, so the duration never decreases.
After removing the 1000-long channel from an Animation that also has a 400-long one,
the duration is still 1000, above the maximum duration of the remaining channels. -/
theorem C20_removeChannel_removes_first_occurrence (w : World) (channel : Channel) :
    ((∀ x ∈ w.animation._channels, x.addr ≠ channel.addr) →
      (removeChannel w channel).animation._channels = w.animation._channels) ∧
    (∀ pre c post, w.animation._channels = pre ++ c :: post → c.addr = channel.addr →
      (∀ x ∈ pre, x.addr ≠ channel.addr) →
      (removeChannel w channel).animation._channels = pre ++ post) ∧
    ((∃ x ∈ w.animation._channels, x.addr = channel.addr) →
      ∃ pre c post, w.animation._channels = pre ++ c :: post ∧ c.addr = channel.addr ∧
        (∀ x ∈ pre, x.addr ≠ channel.addr) ∧
        (removeChannel w channel).animation._channels = pre ++ post) ∧
    (removeChannel w channel).animation._channels.Sublist w.animation._channels ∧
    (removeChannel w channel).animation._duration = w.animation._duration ∧
    (removeChannel w channel).animation._id = w.animation._id ∧
    (removeChannel w channel).animation._defaultClip = w.animation._defaultClip ∧
    (removeChannel w channel).animation._clips = w.animation._clips ∧
    (removeChannel w channel).nextAddr = w.nextAddr ∧
    maxChannelDuration
        (removeChannel (addChannel sampleWorld shortChannel) sampleChannel).animation._channels
      < (removeChannel (addChannel sampleWorld shortChannel) sampleChannel).animation._duration
    := by
  have hch := removeChannel_channels w channel
  obtain ⟨f1, f2, f3, f4, f5⟩ := removeChannel_frame w channel
  have hsplit : (∃ x ∈ w.animation._channels, x.addr = channel.addr) →
      ∃ pre c post, w.animation._channels = pre ++ c :: post ∧ c.addr = channel.addr ∧
        (∀ x ∈ pre, x.addr ≠ channel.addr) ∧
        (removeChannel w channel).animation._channels = pre ++ post := by
    intro h
    obtain ⟨pre, c, post, hl, hc, hpre⟩ := exists_first_with_addr _ _ h
    refine ⟨pre, c, post, hl, hc, hpre, ?_⟩
    rw [hch, hl]
    exact removeChannelLoop_first channel c pre post hc hpre
  refine ⟨?_, ?_, hsplit, ?_, f1, f2, f3, f4, f5, by decide⟩
  · intro h
    rw [hch]
    exact removeChannelLoop_of_not_mem channel _ h
  · intro pre c post hl hc hpre
    rw [hch, hl]
    exact removeChannelLoop_first channel c pre post hc hpre
  · by_cases h : ∃ x ∈ w.animation._channels, x.addr = channel.addr
    · obtain ⟨pre, c, post, hl, _, _, hr⟩ := hsplit h
      rw [hr, hl]
      exact List.Sublist.append_left (List.sublist_cons_self c post) pre
    · rw [hch, removeChannelLoop_of_not_mem channel _
        (fun x hx e => h ⟨x, hx, e⟩)]

theorem C20_removeChannel_removes_first_occurrence_witness :
    (removeChannel (addChannel (addChannel sampleWorld shortChannel) sampleChannel)
        sampleChannel).animation._channels = [shortChannel, sampleChannel] ∧
    (removeChannel (addChannel (addChannel sampleWorld shortChannel) sampleChannel)
        sampleChannel).animation._duration = 1000 :=
  ⟨(C20_removeChannel_removes_first_occurrence
      (addChannel (addChannel sampleWorld shortChannel) sampleChannel) sampleChannel).2.1
      [] sampleChannel [shortChannel, sampleChannel] rfl rfl (by decide),
   (C20_removeChannel_removes_first_occurrence
      (addChannel (addChannel sampleWorld shortChannel) sampleChannel) sampleChannel).2.2.2.2.1⟩

theorem C13_destructor_unschedules_playing_clips_witness :
    ∃ issued, (destructor playingWorld).calls = playingWorld.calls ++ issued ∧
      issued.count (ExternalCall.unschedule 4) = 1 ∧
      issued.count (ExternalCall.unschedule 2) = 1 ∧
      issued.count (ExternalCall.unschedule 1) = 0 ∧
      issued.count (ExternalCall.unschedule 3) = 0 := by
  obtain ⟨issued, h1, h2, h3, _⟩ :=
    C13_destructor_unschedules_playing_clips sampleIds playingWorld playingWorld_reachable
  rw [playingWorld_allClips] at h2 h3
  exact ⟨issued, h1,
    (h2 { AnimationClip.create 4 "default_clip" 0 1000 with _isPlaying := true }
      (List.mem_cons_self _ _) rfl).1,
    (h2 { AnimationClip.create 2 "idle" 0 5 with _isPlaying := true }
      (List.mem_cons_of_mem _ (List.mem_cons_of_mem _ (List.mem_cons_self _ _))) rfl).1,
    (h3 (AnimationClip.create 1 "run" 0 10)
      (List.mem_cons_of_mem _ (List.mem_cons_self _ _)) rfl).1,
    (h3 (AnimationClip.create 3 "run" 20 30)
      (List.mem_cons_of_mem _ (List.mem_cons_of_mem _ (List.mem_cons_of_mem _
        (List.mem_cons_self _ _)))) rfl).1⟩

/-- C16 (amended): in every reachable state in which the default clip exists, its
start is 0 and its end is at most the Animation's current duration. A default clip
created now ends exactly at the current duration; afterwards its start and end stay
as they are in every state reached later, while the duration may grow, so the end
is the duration of the moment of creation. -/
theorem C16_default_clip_span (ids : TransformIds) (w : World) (hreach : Reachable ids w) :
    (∀ d, w.animation._defaultClip = some d →
      d._startTime = 0 ∧ d._endTime ≤ w.animation._duration) ∧
    (∃ d, (createDefaultClip w).animation._defaultClip = some d ∧ d._startTime = 0 ∧
      d._endTime = w.animation._duration ∧
      (createDefaultClip w).animation._duration = w.animation._duration) ∧
    (∀ d, w.animation._defaultClip = some d → ∀ w2, ReachableFrom ids w w2 →
      ∃ d2, w2.animation._defaultClip = some d2 ∧ d2.addr = d.addr ∧ d2._startTime = 0 ∧
        d2._endTime = d._endTime ∧ d2._endTime ≤ w2.animation._duration ∧
        w.animation._duration ≤ w2.animation._duration) := by
  have hinv := hreach.clipInvariant
  have hspan : ∀ {w0 : World}, ClipInvariant w0 → ∀ d, w0.animation._defaultClip = some d →
      d._startTime = 0 ∧ d._endTime ≤ w0.animation._duration := by
    intro w0 h0 d hd
    have := h0.default_span d.ident (by rw [hd]; rfl)
    exact ⟨this.2.1, this.2.2⟩
  refine ⟨hspan hinv, ⟨_, rfl, rfl, rfl, rfl⟩, ?_⟩
  intro d hd w2 hfrom
  have hinv2 := hfrom.clipInvariantFrom hinv
  have hkept := hfrom.defaultKeptFrom hinv (i := d.ident) (by rw [hd]; rfl)
  have hdur : w.animation._duration ≤ w2.animation._duration := by
    clear hkept hinv2
    induction hfrom with
    | refl => exact le_rfl
    | step w1 w2 hr hstep ih =>
      refine le_trans ih ?_
      exact (hstep.effect (hr.clipInvariantFrom hinv)).duration_le
  cases hd2 : w2.animation._defaultClip with
  | none => rw [hd2] at hkept; cases hkept
  | some d2 =>
    rw [hd2] at hkept
    have hid : d2.ident = d.ident := Option.some.inj hkept
    obtain ⟨a1, _, a3, a4⟩ := (ident_eq_iff d2 d).mp hid
    obtain ⟨s1, s2⟩ := hspan hinv2 d2 hd2
    exact ⟨d2, rfl, a1, s1, a4, s2, hdur⟩

theorem C16_default_clip_span_witness :
    (∀ d, briefDefaultWorld.animation._defaultClip = some d →
      d._startTime = 0 ∧ d._endTime ≤ briefDefaultWorld.animation._duration) ∧
    (∀ d, briefDefaultWorld.animation._defaultClip = some d →
      ∀ w2, ReachableFrom sampleIds briefDefaultWorld w2 →
        ∃ d2, w2.animation._defaultClip = some d2 ∧ d2.addr = d.addr ∧ d2._startTime = 0 ∧
          d2._endTime = d._endTime ∧ d2._endTime ≤ w2.animation._duration ∧
          briefDefaultWorld.animation._duration ≤ w2.animation._duration) ∧
    briefDefaultWorld.animation._defaultClip
      = some (AnimationClip.create 1 "default_clip" 0 400) ∧
    briefDefaultWorld.animation._duration = 400 :=
  ⟨(C16_default_clip_span sampleIds briefDefaultWorld briefDefaultWorld_reachable).1,
   (C16_default_clip_span sampleIds briefDefaultWorld briefDefaultWorld_reachable).2.2,
   rfl, rfl⟩

/-- C16 fails as stated: an Animation is constructed with key times `[0, 400]`, so
that its duration is 400; `getClip(NULL)` creates the default clip from 0 to 400; a
later `createChannel` with key times `[0, 1000]` raises the duration to 1000, and in
the state reached the default clip still ends at 400. -/
theorem C16_counterexample_channel_added_later :
    Animation.construct sampleIds "walk" sampleTarget 0 2 [0, 400] [0, 10] 1 = .ok briefWorld ∧
    (getClip briefWorld none).2 = briefDefaultWorld ∧
    ∃ ch w1, createChannel sampleIds briefDefaultWorld sampleTarget 0 2 [0, 1000] [0, 10] 1
        = .ok (ch, w1) ∧
      Reachable sampleIds w1 ∧
      w1.animation._defaultClip = some (AnimationClip.create 1 "default_clip" 0 400) ∧
      w1.animation._duration = 1000 ∧
      ¬ (∀ d, w1.animation._defaultClip = some d → d._endTime = w1.animation._duration) := by
  have hrun : createChannel sampleIds briefDefaultWorld sampleTarget 0 2 [0, 1000] [0, 10] 1
      = .ok ({ sampleChannel with addr := 2 },
          addChannel
            { briefDefaultWorld with
              nextAddr := 3,
              calls := [ExternalCall.addRef, ExternalCall.targetAddChannel 100 0,
                ExternalCall.addRef, ExternalCall.targetAddChannel 100 2] }
            { sampleChannel with addr := 2 }) := by
    rfl
  refine ⟨rfl, rfl, _, _, hrun, ?_, rfl, rfl, ?_⟩
  · exact Reachable.step _ _ briefDefaultWorld_reachable
      (Step.createChannel _ sampleTarget 0 2 [0, 1000] [0, 10] 1 _ _ hrun)
  · intro h
    have := h _ rfl
    exact absurd this (by decide)

/-- C18: for a clip descriptor processed by `createClips`, in a reachable state: the
clip appended for it has the indefinite sentinel as repeat count when the
descriptor's `repeatCount` is the token INDEFINITE, the number that `sscanf` reads
when it is any other string that `sscanf` reads as a number, and the constructor's
repeat count when it is absent; its speed is the number that `sscanf` reads when
`speed` is present and is read as a number, and the constructor's speed when it is
absent. An absent field leaves the clip object as it was: the setter is not
applied. For a present string that `sscanf` does not read as a number there is no
parsed value: the setter receives the content of the uninitialised local. -/
theorem C18_repeatCount_and_speed (ids : TransformIds) (sscanf : String → Option ℚ)
    (values : ℚ × ℚ) (fc : Nat) (w : World) (p : Properties) (hreach : Reachable ids w) :
    (∃ c, (createClipsBody sscanf values fc w p).animation.explicitClips
        = w.animation.explicitClips ++ [c] ∧
      c.addr = w.nextAddr ∧ c._id = p._id ∧
      (p.repeatCount = some ANIMATION_INDEFINITE_STR →
        c._repeatCount = AnimationClip.REPEAT_INDEFINITE) ∧
      (∀ r parsed, p.repeatCount = some r → r ≠ ANIMATION_INDEFINITE_STR →
        sscanf r = some parsed → c._repeatCount = parsed) ∧
      (∀ r, p.repeatCount = some r → r ≠ ANIMATION_INDEFINITE_STR →
        sscanf r = none → c._repeatCount = values.1) ∧
      (p.repeatCount = none →
        c._repeatCount = (AnimationClip.create w.nextAddr p._id 0 0)._repeatCount) ∧
      (∀ s parsed, p.speed = some s → sscanf s = some parsed → c._speed = parsed) ∧
      (∀ s, p.speed = some s → sscanf s = none → c._speed = values.2) ∧
      (p.speed = none → c._speed = (AnimationClip.create w.nextAddr p._id 0 0)._speed)) ∧
    (∀ clip : AnimationClip,
      createClipsRepeat sscanf values.1 clip (some ANIMATION_INDEFINITE_STR)
        = clip.setRepeatCount AnimationClip.REPEAT_INDEFINITE ∧
      (∀ r parsed, r ≠ ANIMATION_INDEFINITE_STR → sscanf r = some parsed →
        createClipsRepeat sscanf values.1 clip (some r) = clip.setRepeatCount parsed) ∧
      createClipsRepeat sscanf values.1 clip none = clip ∧
      (∀ s parsed, sscanf s = some parsed →
        createClipsSpeed sscanf values.2 clip (some s) = clip.setSpeed parsed) ∧
      createClipsSpeed sscanf values.2 clip none = clip) := by
  have hinv := hreach.clipInvariant
  obtain ⟨h1, _⟩ := createClipsBody_spec sscanf values fc hinv p
  refine ⟨⟨_, h1, rfl, rfl, ?_, ?_, ?_, ?_, ?_, ?_, ?_⟩, ?_⟩
  · intro hr
    simp only [descriptorClip, hr, ANIMATION_INDEFINITE_STR, if_true]
  · intro r parsed hr hne hparse
    have hne1 : ¬ r = "INDEFINITE" := hne
    simp only [descriptorClip, hr, hne1, if_false, sscanfFloat, hparse]
  · intro r hr hne hparse
    have hne1 : ¬ r = "INDEFINITE" := hne
    simp only [descriptorClip, hr, hne1, if_false, sscanfFloat, hparse]
  · intro hr
    simp only [descriptorClip, hr]
  · intro s parsed hs hparse
    simp only [descriptorClip, hs, sscanfFloat, hparse]
  · intro s hs hparse
    simp only [descriptorClip, hs, sscanfFloat, hparse]
  · intro hs
    simp only [descriptorClip, hs]
  · intro clip
    refine ⟨?_, ?_, rfl, ?_, rfl⟩
    · simp only [createClipsRepeat, if_true]
    · intro r parsed hne hparse
      simp only [createClipsRepeat, hne, if_false, sscanfFloat, hparse]
    · intro s parsed hparse
      simp only [createClipsSpeed, sscanfFloat, hparse]

theorem C18_repeatCount_and_speed_witness :
    (∃ c, (createClipsBody sampleSscanf (42, 7) 10 sampleWorld
          { _namespace := "clip", _id := "twice", begin_ := 0, end_ := 10,
            repeatCount := some "2", speed := some "0.5" }).animation.explicitClips
        = sampleWorld.animation.explicitClips ++ [c] ∧
      c._repeatCount = 2 ∧ c._speed = 1 / 2) ∧
    (∃ c, (createClipsBody sampleSscanf (42, 7) 10 sampleWorld
          { _namespace := "clip", _id := "loop", begin_ := 0, end_ := 10,
            repeatCount := some "INDEFINITE", speed := none }).animation.explicitClips
        = sampleWorld.animation.explicitClips ++ [c] ∧
      c._repeatCount = AnimationClip.REPEAT_INDEFINITE ∧
      c._speed = (AnimationClip.create sampleWorld.nextAddr "loop" 0 0)._speed) := by
  obtain ⟨⟨c, h1, _, _, _, h5, _, _, h8, _, _⟩, _⟩ :=
    C18_repeatCount_and_speed sampleIds sampleSscanf (42, 7) 10 sampleWorld
      { _namespace := "clip", _id := "twice", begin_ := 0, end_ := 10,
        repeatCount := some "2", speed := some "0.5" } sampleWorld_reachable
  obtain ⟨⟨c2, g1, _, _, g4, _, _, _, _, _, g10⟩, _⟩ :=
    C18_repeatCount_and_speed sampleIds sampleSscanf (42, 7) 10 sampleWorld
      { _namespace := "clip", _id := "loop", begin_ := 0, end_ := 10,
        repeatCount := some "INDEFINITE", speed := none } sampleWorld_reachable
  exact ⟨⟨c, h1, h5 "2" 2 rfl (by decide) rfl, h8 "0.5" (1 / 2) rfl rfl⟩,
    ⟨c2, g1, g4 rfl, g10 rfl⟩⟩

/-- C11 (amended): for `frameCount > 0`, a duration of at most 2^63 and a sequence
of `n` clip descriptors, all named "clip", with `0 ≤ begin ≤ end ≤ frameCount`,
`createClips` returns and appends exactly `n` clips to the explicit-clip collection,
one per descriptor in descriptor order; the `k`-th clip is a new object with the
`k`-th descriptor's id, its start and end are the values of the `float` expression
`((float) frame / frameCount) * _duration` converted to `unsigned long` for the
descriptor's `begin` and `end` frames, and its start is at most its end. Nothing
else of the Animation changes; the file overload passes the first namespace and its
`frameCount` to this function. -/
theorem C11_createClips_appends (ids : TransformIds) (sscanf : String → Option ℚ)
    (uninit : Nat → ℚ × ℚ) (fc : Nat) (w : World) (ns : List Properties) (hreach : Reachable ids w) (hfc : 0 < fc)
    (hclip : ∀ p ∈ ns, p._namespace = "clip")
    (hrange : ∀ p ∈ ns, 0 ≤ p.begin_ ∧ p.begin_ ≤ p.end_ ∧ p.end_ ≤ (fc : Int))
    (hdur : w.animation._duration ≤ 2 ^ 63) :
    ∃ w1 new, createClips sscanf uninit w (some ns) fc = .ok w1 ∧
      w1.animation.explicitClips = w.animation.explicitClips ++ new ∧
      new.length = ns.length ∧
      (∀ k p, ns[k]? = some p → ∃ c, new[k]? = some c ∧
        c.addr = w.nextAddr + k ∧ c._id = p._id ∧
        c._startTime = frameTime p.begin_ fc w.animation._duration ∧
        c._endTime = frameTime p.end_ fc w.animation._duration ∧
        c._startTime ≤ c._endTime) ∧
      w1.animation._defaultClip = w.animation._defaultClip ∧
      w1.animation._duration = w.animation._duration ∧
      w1.animation._channels = w.animation._channels ∧
      w1.nextAddr = w.nextAddr + ns.length ∧
      w1.calls = w.calls ∧
      (∀ (create : String → Option (List AnimationProperties)) (file : String)
        (pAnimation : AnimationProperties) (rest : List AnimationProperties),
        create file = some (pAnimation :: rest) → 0 < pAnimation.frameCount →
        createClipsFromFile sscanf uninit create w (some file)
          = createClips sscanf uninit w (some pAnimation.namespaces)
              (intToUInt pAnimation.frameCount)) := by
  have hinv := hreach.clipInvariant
  obtain ⟨h1, h2, h3, h4, h5, h6⟩ := createClipsLoop_spec sscanf fc ns uninit w hinv
  rw [takeWhile_clip_eq_self ns hclip] at h1 h5
  refine ⟨_, _, rfl, h1, descriptorClips_length sscanf fc _ ns _ _, ?_, h2, h3, h4, h5, h6,
    ?_⟩
  · intro k p hk
    have hp : p ∈ ns := List.getElem?_mem hk
    obtain ⟨r1, r2, r3⟩ := hrange p hp
    refine ⟨_, descriptorClips_getElem? sscanf fc _ ns _ _ k p hk, rfl, rfl, rfl, rfl, ?_⟩
    exact frameTime_mono r1 r2 r3 hfc hdur
  · intro create file pAnimation rest hcreate hpos
    simp only [createClipsFromFile, hcreate, List.head?_cons, gt_iff_lt, hpos, if_true]

theorem C11_createClips_appends_witness :
    ∃ w1 new, createClips sampleSscanf sampleUninit frameWorld (some [introDescriptor]) 37
        = .ok w1 ∧
      w1.animation.explicitClips = frameWorld.animation.explicitClips ++ new ∧
      new.length = [introDescriptor].length := by
  obtain ⟨w1, new, h1, h2, h3, _⟩ :=
    C11_createClips_appends sampleIds sampleSscanf sampleUninit 37 frameWorld [introDescriptor]
      frameWorld_reachable (by decide) (by decide) (by decide) (by decide)
  exact ⟨w1, new, h1, h2, h3⟩

/-- C11 fails as stated: on the Animation of duration 37, with `frameCount` 37, the
descriptor with `begin` 3 gives a clip whose start is 2, whereas
(begin/frameCount) × animationDuration = (3/37) × 37 = 3. -/
theorem C11_counterexample_start_time :
    frameWorld.animation._duration = 37 ∧
    ((3 : ℚ) / 37) * 37 = 3 ∧
    ∃ w1 c, createClips sampleSscanf sampleUninit frameWorld (some [introDescriptor]) 37
        = .ok w1 ∧
      w1.animation.explicitClips = [c] ∧ c._id = "intro" ∧ c._startTime = 2 := by
  refine ⟨rfl, by norm_num, ?_⟩
  obtain ⟨h1, _⟩ := createClipsLoop_spec sampleSscanf 37 [introDescriptor] sampleUninit
    frameWorld frameWorld_reachable.clipInvariant
  refine ⟨_, _, rfl, h1, rfl, ?_⟩
  exact frameTime_3_37_37

/-- C15 (amended): in every reachable state, the default clip, when it exists, has
`0 = start ≤ end ≤ duration`; `createClip` stores the caller's start and end as
they are, without comparing them with each other or with the duration; and, for
`frameCount > 0`, a duration below 2^24 and descriptors named "clip" with
`0 ≤ begin ≤ end ≤ frameCount`, every clip that `createClips` appends has
`0 ≤ start ≤ end ≤ duration`. -/
theorem C15_clip_time_bounds (ids : TransformIds) (w : World) (hreach : Reachable ids w) :
    (∀ d, w.animation._defaultClip = some d →
      d._startTime = 0 ∧ d._startTime ≤ d._endTime ∧ d._endTime ≤ w.animation._duration) ∧
    (∀ id s e, (createClip w id s e).1._startTime = s ∧ (createClip w id s e).1._endTime = e ∧
      (createClip w id s e).2.animation.explicitClips
        = w.animation.explicitClips ++ [(createClip w id s e).1] ∧
      (createClip w id s e).2.animation._duration = w.animation._duration) ∧
    (∀ (sscanf : String → Option ℚ) (uninit : Nat → ℚ × ℚ) (fc : Nat)
      (ns : List Properties), 0 < fc →
      (∀ p ∈ ns, p._namespace = "clip") →
      (∀ p ∈ ns, 0 ≤ p.begin_ ∧ p.begin_ ≤ p.end_ ∧ p.end_ ≤ (fc : Int)) →
      w.animation._duration < 2 ^ 24 →
      ∃ w1 new, createClips sscanf uninit w (some ns) fc = .ok w1 ∧
        w1.animation.explicitClips = w.animation.explicitClips ++ new ∧
        new.length = ns.length ∧
        w1.animation._duration = w.animation._duration ∧
        ∀ c ∈ new, 0 ≤ c._startTime ∧ c._startTime ≤ c._endTime ∧
          c._endTime ≤ w1.animation._duration) := by
  have hinv := hreach.clipInvariant
  refine ⟨?_, ?_, ?_⟩
  · intro d hd
    have := hinv.default_span d.ident (by rw [hd]; rfl)
    have h0 : d._startTime = 0 := this.2.1
    exact ⟨h0, by rw [h0]; exact Nat.zero_le _, this.2.2⟩
  · intro id s e
    exact ⟨rfl, rfl, createClip_explicitClips w id s e, (createClip_frame w id s e).2.2.1⟩
  · intro sscanf uninit fc ns hfc hclip hrange hdur
    obtain ⟨h1, _, h3, _⟩ := createClipsLoop_spec sscanf fc ns uninit w hinv
    rw [takeWhile_clip_eq_self ns hclip] at h1
    refine ⟨_, _, rfl, h1, descriptorClips_length sscanf fc _ ns _ _, h3, ?_⟩
    intro c hc
    obtain ⟨p, hp, v, a, ha⟩ := descriptorClips_mem sscanf fc _ ns _ _ c hc
    obtain ⟨r1, r2, r3⟩ := hrange p hp
    have hd63 : w.animation._duration ≤ 2 ^ 63 :=
      le_trans hdur.le (Nat.pow_le_pow_right (by norm_num) (by norm_num))
    rw [ha, h3]
    exact ⟨Nat.zero_le _, frameTime_mono r1 r2 r3 hfc hd63,
      frameTime_le_duration (le_trans r1 r2) r3 hfc hdur⟩

theorem C15_clip_time_bounds_witness :
    (∀ d, briefDefaultWorld.animation._defaultClip = some d →
      d._startTime = 0 ∧ d._startTime ≤ d._endTime ∧
      d._endTime ≤ briefDefaultWorld.animation._duration) ∧
    briefDefaultWorld.animation._defaultClip
      = some (AnimationClip.create 1 "default_clip" 0 400) ∧
    (createClip briefDefaultWorld "late" 5 3).1._startTime = 5 ∧
    (createClip briefDefaultWorld "late" 5 3).1._endTime = 3 :=
  ⟨(C15_clip_time_bounds sampleIds briefDefaultWorld briefDefaultWorld_reachable).1,
   rfl,
   ((C15_clip_time_bounds sampleIds briefDefaultWorld briefDefaultWorld_reachable).2.1
      "late" 5 3).1,
   ((C15_clip_time_bounds sampleIds briefDefaultWorld briefDefaultWorld_reachable).2.1
      "late" 5 3).2.1⟩

/-- C15 fails as stated: on the Animation of duration 1000, `createClip("late", 5, 3)`
adds a clip whose start 5 is above its end 3, and `createClip("long", 0, 2000)` adds
one that ends after the duration; on an Animation constructed with key times
`[5, 5]`, whose duration is 0, the default clip has start 0 and end 0, so its start
is not below its end. All three states are reachable. -/
theorem C15_counterexample_unchecked_times :
    Reachable sampleIds (createClip sampleWorld "late" 5 3).2 ∧
    (createClip sampleWorld "late" 5 3).2.animation.explicitClips
      = [AnimationClip.create 1 "late" 5 3] ∧
    ¬ ((AnimationClip.create 1 "late" 5 3)._startTime
        < (AnimationClip.create 1 "late" 5 3)._endTime) ∧
    Reachable sampleIds (createClip sampleWorld "long" 0 2000).2 ∧
    (createClip sampleWorld "long" 0 2000).2.animation.explicitClips
      = [AnimationClip.create 1 "long" 0 2000] ∧
    (createClip sampleWorld "long" 0 2000).2.animation._duration = 1000 ∧
    ¬ ((AnimationClip.create 1 "long" 0 2000)._endTime
        ≤ (createClip sampleWorld "long" 0 2000).2.animation._duration) ∧
    (∃ w, Animation.construct sampleIds "walk" sampleTarget 0 2 [5, 5] [0, 10] 1 = .ok w ∧
      (getClip w none).2 = stillDefaultWorld) ∧
    Reachable sampleIds stillDefaultWorld ∧
    stillDefaultWorld.animation._defaultClip
      = some (AnimationClip.create 1 "default_clip" 0 0) ∧
    ¬ ((AnimationClip.create 1 "default_clip" 0 0)._startTime
        < (AnimationClip.create 1 "default_clip" 0 0)._endTime) := by
  refine ⟨Reachable.step _ _ sampleWorld_reachable (Step.createClip _ _ _ _), rfl, by decide,
    Reachable.step _ _ sampleWorld_reachable (Step.createClip _ _ _ _), rfl, rfl, by decide,
    ⟨_, rfl, rfl⟩, stillDefaultWorld_reachable, rfl, by decide⟩

end gameplay
